import Mathlib

/-!
# Hyperspace client session (`src/cc/Hyperspace/Session.cc`)

A shallow embedding of the Hyperspace client session of Hypertable: path
normalisation, the session state machine, and the request/reply template that
every user-facing operation follows.

The session talks to collaborators whose sources are elsewhere: the transport
(`Comm`), the reply synchroniser, the keepalive handler with its handle
registry, the clock, and the serialisation primitives.  They appear here as
scripts that an operation consumes (what each blocking call hands back) and as
logs that it extends (what it submitted, which callbacks it fired).  Constants
declared in headers that are not at hand are parameters of the development.
-/

namespace Hyperspace

/-! ## Strings -/

/-- A `std::string`, as its sequence of characters. -/
abbrev StdString := List Char

/-- The largest `size_t` value (`std::string::npos`), for a 64-bit `size_t`. -/
def SIZE_MAX : Nat := 18446744073709551615

/-- The `size_t` subtraction `n - 1`, which wraps to `SIZE_MAX` at `n = 0`. -/
def size_t_pred (n : Nat) : Nat := (n + SIZE_MAX) % (SIZE_MAX + 1)

/-- The call `s[0]` on a const `std::string`: the first character, and the
terminating NUL when the string is empty. -/
def string_front (s : StdString) : Char := s.headD (Char.ofNat 0)

/-- The call `s.find(c, pos)`: the least index `i >= pos` with `s[i] == c`;
`none` stands for `std::string::npos`. -/
def string_find (s : StdString) (c : Char) (pos : Nat) : Option Nat :=
  if c ∈ s.drop pos then some (pos + (s.drop pos).indexOf c) else none

/-- The call `s.substr(pos, n)` for `pos <= s.size()`. -/
def string_substr (s : StdString) (pos n : Nat) : StdString := (s.drop pos).take n

/-- Embeds `Session::normalize_name(name, normal)`: the value left in `normal`. -/
def normalize_name (name : StdString) : StdString :=
  if name = ['/'] then
    name
  else
    let normal : StdString := []
    let normal := if string_front name ≠ '/' then normal ++ ['/'] else normal
    if string_find name '/' (size_t_pred name.length) = none then
      normal ++ name
    else
      normal ++ string_substr name 0 (size_t_pred name.length)

/-- The canonical form as the specification words it: the literal `/` is kept;
any other name gets a leading `/` when it has none, and loses one trailing `/`
when it ends with one. -/
def normalize_name_spec (name : StdString) : StdString :=
  if name = ['/'] then ['/']
  else
    let led := if name.head? = some '/' then name else '/' :: name
    if name.getLast? = some '/' then led.dropLast else led

end Hyperspace

namespace Hypertable

/-- The error codes of `Common/Error.h` that the session refers to.  The header
is not among the sources, so the numeric values stay open. -/
structure ErrorCodes where
  OK : Int
  PROTOCOL_ERROR : Int
  HYPERSPACE_EXPIRED_SESSION : Int
  HYPERSPACE_INVALID_HANDLE : Int
  HYPERSPACE_REQUEST_CANCELLED : Int
  HYPERSPACE_ALREADY_LOCKED : Int
  HYPERSPACE_NOT_LOCKED : Int

/-- A `Hypertable::Exception`: its code, its message and the exception it wraps
(`HT_THROW2` chains the one it caught). -/
inductive Exception where
  | mk (code : Int) (what : List Char) (prev : Option Exception)

/-- Embeds `Exception::code()`. -/
def Exception.code : Exception → Int
  | .mk c _ _ => c

/-- Embeds `Exception::what()`. -/
def Exception.what : Exception → List Char
  | .mk _ w _ => w

/-- The wrapped exception, if any. -/
def Exception.prev : Exception → Option Exception
  | .mk _ _ p => p

/-- Embeds `HT_THROW(code, msg)` and `HT_THROWF(code, fmt, ...)`: a fresh exception. -/
def HT_THROW (code : Int) (msg : List Char) : Exception := .mk code msg none

/-- Embeds `HT_THROW2(code, e, msg)` and `HT_THROW2F`: an exception that wraps `e`. -/
def HT_THROW2 (code : Int) (e : Exception) (msg : List Char) : Exception :=
  .mk code msg (some e)

end Hypertable

namespace Hyperspace

open Hypertable

/-! ## Data -/

/-- A byte of a message. -/
abbrev Byte := Nat

/-- The enumerators of `Session.h`, `LockSequencer.h` and `HandleCallback.h`
that the session uses.  The headers are not among the sources; the values stay
open, and only what the session relies on is recorded: the three session
states differ from one another, so do the three lock statuses, and PENDING is
not the value 0 with which `open` marks an unlocked handle. -/
structure Constants where
  STATE_EXPIRED : Int
  STATE_JEOPARDY : Int
  STATE_SAFE : Int
  LOCK_STATUS_GRANTED : Nat
  LOCK_STATUS_PENDING : Nat
  LOCK_STATUS_CANCELLED : Nat
  LOCK_MODE_SHARED : Nat
  LOCK_MODE_EXCLUSIVE : Nat
  OPEN_FLAG_READ : Nat
  OPEN_FLAG_WRITE : Nat
  OPEN_FLAG_LOCK : Nat
  OPEN_FLAG_LOCK_SHARED : Nat
  OPEN_FLAG_LOCK_EXCLUSIVE : Nat
  OPEN_FLAG_CREATE : Nat
  OPEN_FLAG_EXCL : Nat
  expired_ne_jeopardy : STATE_EXPIRED ≠ STATE_JEOPARDY
  expired_ne_safe : STATE_EXPIRED ≠ STATE_SAFE
  jeopardy_ne_safe : STATE_JEOPARDY ≠ STATE_SAFE
  granted_ne_pending : LOCK_STATUS_GRANTED ≠ LOCK_STATUS_PENDING
  granted_ne_cancelled : LOCK_STATUS_GRANTED ≠ LOCK_STATUS_CANCELLED
  pending_ne_cancelled : LOCK_STATUS_PENDING ≠ LOCK_STATUS_CANCELLED
  pending_ne_zero : LOCK_STATUS_PENDING ≠ 0

/-- A directory entry of a `readdir` listing. -/
structure DirEntry where
  name : StdString
  is_dir : Bool

/-- The decoders of `Common/Serialization.h` and `Protocol.h` that the session
calls on a reply payload.  Their sources are not at hand: each is taken as it
is declared, a function that consumes a prefix of the buffer and hands back the
decoded value with the rest, or throws. -/
structure Serialization where
  decode_i32 : List Byte → Except Exception (Nat × List Byte)
  decode_i64 : List Byte → Except Exception (Nat × List Byte)
  decode_byte : List Byte → Except Exception (Nat × List Byte)
  decode_bytes32 : List Byte → Except Exception (List Byte × List Byte)
  decode_dir_entry : List Byte → Except Exception (DirEntry × List Byte)

/-- A `LockSequencer`. -/
structure LockSequencer where
  name : StdString
  mode : Nat
  generation : Nat

/-- An `Attribute` handed to `create`. -/
structure Attribute where
  name : StdString
  value : List Byte

/-- The client-side mirror of an open file, with the fields `Session.cc` reads
and writes.  `callback` holds the event mask of the handle callback when there
is one; `sequencer` holds the address of the caller's sequencer while a lock
request is outstanding, and `none` for the null pointer. -/
structure ClientHandleState where
  handle : Nat
  open_flags : Nat
  event_mask : Nat
  normal_name : StdString
  callback : Option Nat
  lock_mode : Nat
  lock_status : Nat
  lock_generation : Nat
  sequencer : Option Nat

/-- The request a `CommBuf` was built from by `Protocol::create_*_request`. -/
inductive Request where
  | open_request (name : StdString) (flags : Nat) (callback : Option Nat)
      (init_attrs : List Attribute)
  | close_request (handle : Nat)
  | mkdir_request (name : StdString)
  | delete_request (name : StdString)
  | exists_request (name : StdString)
  | attr_set_request (handle : Nat) (name : StdString) (value : List Byte)
  | attr_get_request (handle : Nat) (name : StdString)
  | attr_del_request (handle : Nat) (name : StdString)
  | readdir_request (handle : Nat)
  | lock_request (handle : Nat) (mode : Nat) (try_lock : Bool)
  | release_request (handle : Nat)
  | status_request

/-- A reply event as the synchroniser hands it over: the response code that
`Protocol::response_code` reads from it, and the payload that follows the
four bytes of the code. -/
structure Event where
  response_code : Int
  payload : List Byte

/-- A `boost::xtime`. -/
structure xtime where
  sec : Int
  nsec : Int

/-- The calls a session makes on its `SessionCallback`. -/
inductive CallbackCall where
  | safe
  | jeopardy
  | expired
  deriving DecidableEq

/-- What a thread blocked on the session's condition variable finds when it
wakes: another thread has called `state_transition(state)` at time `now`. -/
structure Wakeup where
  now : xtime
  state : Int

/-- The session object with the collaborators it reaches.

`m_state`, `m_session_callback` (is the pointer set), `m_expire_time` and
`m_grace_period` are the members of the class.  `now` is the clock that
`boost::xtime_get` reads.  `wakeups` and `replies` are what the calling thread
will be handed by the session's condition variable and by the reply
synchroniser, in order.  `requests`, `callback_log` and `transition_log`
record what was passed to `Comm::send_request`, which callbacks fired and with
which argument `state_transition` was called. -/
structure Session where
  m_state : Int
  m_session_callback : Bool
  m_expire_time : xtime
  m_grace_period : Nat
  now : xtime
  wakeups : List Wakeup
  replies : List Event
  requests : List Request
  callback_log : List CallbackCall
  transition_log : List Int

/-- The handle registry of the keepalive handler: the handle state registered
under each handle number, if any. -/
abbrev HandleMap := Nat → Option ClientHandleState

/-- Modelled from the spec: `ClientKeepaliveHandler::get_handle_state`, whose
source is not at hand; the keepalive handler "registers/unregisters client
handles", and this is the lookup in that registry. -/
def get_handle_state (reg : HandleMap) (handle : Nat) : Option ClientHandleState :=
  reg handle

/-- Modelled from the spec: `ClientKeepaliveHandler::register_handle`, whose
source is not at hand; the handle state is entered under its handle number. -/
def register_handle (reg : HandleMap) (hs : ClientHandleState) : HandleMap :=
  fun h => if h = hs.handle then some hs else reg h

/-- A write through a `ClientHandleStatePtr` obtained from the registry under
`handle`: the registered object itself changes. -/
def update_handle (reg : HandleMap) (handle : Nat) (hs : ClientHandleState) : HandleMap :=
  fun h => if h = handle then some hs else reg h

/-- How a call ends: it returns a value, it throws, an `assert` in it fails
(the asserts are taken as compiled in), or it is still blocked when the
scripted environment has nothing more to offer. -/
inductive Result (α : Type) where
  | returned (value : α)
  | thrown (e : Exception)
  | assert_failed
  | blocked

/-! ## The state machine -/

/-- Embeds `Session::state_transition(state)`: the previous state and the session
afterwards. -/
def state_transition (K : Constants) (state : Int) (s : Session) : Int × Session :=
  let old_state := s.m_state
  let s := { s with m_state := state, transition_log := s.transition_log ++ [state] }
  if s.m_state = K.STATE_SAFE then
    if s.m_session_callback = true ∧ old_state = K.STATE_JEOPARDY then
      (old_state, { s with callback_log := s.callback_log ++ [CallbackCall.safe] })
    else
      (old_state, s)
  else if s.m_state = K.STATE_JEOPARDY then
    if s.m_session_callback = true ∧ old_state = K.STATE_SAFE then
      (old_state,
        { s with
          callback_log := s.callback_log ++ [CallbackCall.jeopardy]
          m_expire_time := { sec := s.now.sec + s.m_grace_period, nsec := s.now.nsec } })
    else
      (old_state, s)
  else if s.m_state = K.STATE_EXPIRED then
    if s.m_session_callback = true ∧ old_state ≠ K.STATE_EXPIRED then
      (old_state, { s with callback_log := s.callback_log ++ [CallbackCall.expired] })
    else
      (old_state, s)
  else
    (old_state, s)

/-- Embeds `Session::get_state()`. -/
def get_state (s : Session) : Int := s.m_state

/-- The loop of `Session::wait_for_safe()` over the wake-ups still to come:
`some true` when the state is SAFE, `some false` when it is EXPIRED, `none`
when the thread is still waiting after the last scripted wake-up. -/
def wait_for_safe_loop (K : Constants) : List Wakeup → Session → Option Bool × Session
  | [], s =>
    if s.m_state ≠ K.STATE_SAFE then
      if s.m_state = K.STATE_EXPIRED then (some false, s) else (none, s)
    else (some true, s)
  | w :: rest, s =>
    if s.m_state ≠ K.STATE_SAFE then
      if s.m_state = K.STATE_EXPIRED then (some false, s)
      else
        wait_for_safe_loop K rest
          (state_transition K w.state { s with now := w.now, wakeups := rest }).2
    else (some true, s)

/-- Embeds `Session::wait_for_safe()`. -/
def wait_for_safe (K : Constants) (s : Session) : Option Bool × Session :=
  wait_for_safe_loop K s.wakeups s

/-- Embeds `Session::send_message(cbuf_ptr, handler)`, where `error` is what
`Comm::send_request` returns for this submission. -/
def send_message (cbuf : Request) (error : Int) (s : Session) : Int × Session :=
  (error, { s with requests := s.requests ++ [cbuf] })

/-- Modelled from the spec: `DispatchHandlerSynchronizer::wait_for_reply`,
whose source is not at hand.  "Every reply begins with a 32-bit response code";
the call hands over the next reply and tells whether its code is `OK`.  `none`
when no reply is scripted. -/
def wait_for_reply (E : ErrorCodes) (s : Session) : Option (Bool × Event × Session) :=
  match s.replies with
  | [] => none
  | ev :: rest => some (ev.response_code == E.OK, ev, { s with replies := rest })

end Hyperspace

namespace Hyperspace

open Hypertable

/-! ## The request template -/

/-- The `try_again:` loop that every operation runs: wait for SAFE, submit the
request, and on a submission failure transition to JEOPARDY and start over.
`sends` scripts what `Comm::send_request` returns for the successive
submissions.  What one operation does differently from another is passed in:
`on_expired` is how it leaves when `wait_for_safe` returns false, `before_send`
is what it does between the wait and the submission, and `on_reply` is what it
does with the reply (`ok` being what `wait_for_reply` returned).  `σ` is the
state the operation works on besides the session. -/
def try_again {σ α : Type} (E : ErrorCodes) (K : Constants) (cbuf : Request)
    (on_expired : Result α) (before_send : σ → σ)
    (on_reply : Bool → Event → σ → Result α × σ) :
    List Int → σ → Session → Result α × σ × Session
  | [], st, s =>
    match wait_for_safe K s with
    | (some false, s1) => (on_expired, st, s1)
    | (some true, s1) => (Result.blocked, before_send st, s1)
    | (none, s1) => (Result.blocked, st, s1)
  | send_result :: rest, st, s =>
    match wait_for_safe K s with
    | (some false, s1) => (on_expired, st, s1)
    | (none, s1) => (Result.blocked, st, s1)
    | (some true, s1) =>
      let st1 := before_send st
      let (error, s2) := send_message cbuf send_result s1
      if error = E.OK then
        match wait_for_reply E s2 with
        | none => (Result.blocked, st1, s2)
        | some (ok, ev, s3) =>
          let (r, st2) := on_reply ok ev st1
          (r, st2, s3)
      else
        try_again E K cbuf on_expired before_send on_reply rest st1
          (state_transition K K.STATE_JEOPARDY s2).2

/-- The exception every operation but `open` throws when the session has
expired: `HT_THROW(Error::HYPERSPACE_EXPIRED_SESSION, "")`. -/
def expired_session {α : Type} (E : ErrorCodes) : Result α :=
  Result.thrown (HT_THROW E.HYPERSPACE_EXPIRED_SESSION [])

/-- The `%x` conversion of `printf`. -/
def hex (n : Nat) : List Char := Nat.toDigits 16 n

/-- The `%d` conversion of `printf` for a non-negative value. -/
def dec (n : Nat) : List Char := Nat.toDigits 10 n

/-- The conversion of an `int` to `uint64_t`. -/
def to_uint64 (i : Int) : Nat := (i % 18446744073709551616).toNat

namespace Session

/-! ## Operations -/

/-- The reply handling of `Session::open(handle_state, cbuf_ptr)`. -/
def open_reply (D : Serialization) (ok : Bool) (ev : Event)
    (st : ClientHandleState × HandleMap) : Result Nat × (ClientHandleState × HandleMap) :=
  let (hs, reg) := st
  if ok = false then
    (Result.thrown (HT_THROW ev.response_code
      ("Hyperspace 'open' error, name=".toList ++ hs.normal_name ++ " flags=0x".toList ++
        hex hs.open_flags ++ " events=0x".toList ++ hex hs.event_mask)), (hs, reg))
  else
    match D.decode_i64 ev.payload with
    | Except.error e => (Result.thrown e, (hs, reg))
    | Except.ok (handle, rest) =>
      let hs := { hs with handle := handle }
      match D.decode_byte rest with
      | Except.error e => (Result.thrown e, (hs, reg))
      | Except.ok (_, rest) =>
        match D.decode_i64 rest with
        | Except.error e => (Result.thrown e, (hs, reg))
        | Except.ok (generation, _) =>
          let hs := { hs with lock_generation := generation }
          (Result.returned hs.handle, (hs, register_handle reg hs))

/-- Embeds `Session::open(handle_state, cbuf_ptr)`.  The result carries the handle
state object and the registry as the call leaves them. -/
def open_state (E : ErrorCodes) (K : Constants) (D : Serialization)
    (handle_state : ClientHandleState) (cbuf : Request) (sends : List Int)
    (reg : HandleMap) (s : Session) :
    Result Nat × (ClientHandleState × HandleMap) × Session :=
  let hs := { handle_state with handle := 0, sequencer := none, lock_status := 0 }
  let hs :=
    if hs.open_flags &&& K.OPEN_FLAG_LOCK_SHARED = K.OPEN_FLAG_LOCK_SHARED then
      { hs with lock_mode := K.LOCK_MODE_SHARED }
    else if hs.open_flags &&& K.OPEN_FLAG_LOCK_EXCLUSIVE = K.OPEN_FLAG_LOCK_EXCLUSIVE then
      { hs with lock_mode := K.LOCK_MODE_EXCLUSIVE }
    else
      { hs with lock_mode := 0 }
  try_again E K cbuf (Result.returned (to_uint64 E.HYPERSPACE_EXPIRED_SESSION)) id
    (open_reply D) sends (hs, reg) s

/-- A `new ClientHandleState()` before `open` or `create` fills it in. -/
def new_handle_state : ClientHandleState :=
  { handle := 0, open_flags := 0, event_mask := 0, normal_name := [], callback := none,
    lock_mode := 0, lock_status := 0, lock_generation := 0, sequencer := none }

/-- Embeds `Session::open(name, flags, callback)`; `callback` is the event mask of the
handle callback when one is given. -/
def open_name (E : ErrorCodes) (K : Constants) (D : Serialization)
    (name : StdString) (flags : Nat) (callback : Option Nat) (sends : List Int)
    (reg : HandleMap) (s : Session) :
    Result Nat × (ClientHandleState × HandleMap) × Session :=
  let handle_state : ClientHandleState :=
    { new_handle_state with
      open_flags := flags
      event_mask := callback.getD 0
      callback := callback
      normal_name := normalize_name name }
  let cbuf := Request.open_request handle_state.normal_name flags callback []
  open_state E K D handle_state cbuf sends reg s

/-- Embeds `Session::create(name, flags, callback, init_attrs)`. -/
def create (E : ErrorCodes) (K : Constants) (D : Serialization)
    (name : StdString) (flags : Nat) (callback : Option Nat) (init_attrs : List Attribute)
    (sends : List Int) (reg : HandleMap) (s : Session) :
    Result Nat × (ClientHandleState × HandleMap) × Session :=
  let handle_state : ClientHandleState :=
    { new_handle_state with
      open_flags := flags ||| K.OPEN_FLAG_CREATE ||| K.OPEN_FLAG_EXCL
      event_mask := callback.getD 0
      callback := callback
      normal_name := normalize_name name }
  let cbuf := Request.open_request handle_state.normal_name handle_state.open_flags
    callback init_attrs
  open_state E K D handle_state cbuf sends reg s

/-- The reply handling of an operation that returns nothing and decodes
nothing: throw the reply's code with the operation's message, or return. -/
def void_reply (msg : List Char) (ok : Bool) (ev : Event) (st : Unit) :
    Result Unit × Unit :=
  if ok = false then (Result.thrown (HT_THROW ev.response_code msg), st)
  else (Result.returned (), st)

/-- Embeds `Session::close(handle)`. -/
def close (E : ErrorCodes) (K : Constants) (handle : Nat) (sends : List Int)
    (s : Session) : Result Unit × Unit × Session :=
  try_again E K (Request.close_request handle) (expired_session E) id
    (void_reply "Hyperspace 'close' error".toList) sends () s

/-- Embeds `Session::mkdir(name)`. -/
def mkdir (E : ErrorCodes) (K : Constants) (name : StdString) (sends : List Int)
    (s : Session) : Result Unit × Unit × Session :=
  let normal_name := normalize_name name
  try_again E K (Request.mkdir_request normal_name) (expired_session E) id
    (void_reply ("Hyperspace 'mkdir' error, name=".toList ++ normal_name)) sends () s

/-- Embeds `Session::unlink(name)`. -/
def unlink (E : ErrorCodes) (K : Constants) (name : StdString) (sends : List Int)
    (s : Session) : Result Unit × Unit × Session :=
  let normal_name := normalize_name name
  try_again E K (Request.delete_request normal_name) (expired_session E) id
    (void_reply ("Hyperspace 'unlink' error, name=".toList ++ normal_name)) sends () s

/-- The reply handling of `Session::exists`. -/
def exists_reply (D : Serialization) (normal_name : StdString) (ok : Bool) (ev : Event)
    (st : Unit) : Result Bool × Unit :=
  if ok = false then
    (Result.thrown (HT_THROW ev.response_code
      ("Hyperspace 'exists' error, name=".toList ++ normal_name)), st)
  else
    match D.decode_byte ev.payload with
    | Except.error e => (Result.thrown e, st)
    | Except.ok (bval, _) => (Result.returned (if bval = 0 then false else true), st)

/-- Embeds `Session::exists(name)`. -/
def exists_ (E : ErrorCodes) (K : Constants) (D : Serialization) (name : StdString)
    (sends : List Int) (s : Session) : Result Bool × Unit × Session :=
  let normal_name := normalize_name name
  try_again E K (Request.exists_request normal_name) (expired_session E) id
    (exists_reply D normal_name) sends () s

/-- The file name that the attribute operations put in their error message. -/
def fname_of (reg : HandleMap) (handle : Nat) : List Char :=
  match get_handle_state reg handle with
  | some handle_state => handle_state.normal_name
  | none => "UNKNOWN".toList

/-- The reply handling of `attr_set` and `attr_del`, which differ in the
message only. -/
def attr_reply (verb : List Char) (handle : Nat) (name : StdString) (ok : Bool)
    (ev : Event) (reg : HandleMap) : Result Unit × HandleMap :=
  if ok = false then
    (Result.thrown (HT_THROW ev.response_code
      ("Problem ".toList ++ verb ++ " attribute '".toList ++ name ++
        "' of hyperspace file '".toList ++ fname_of reg handle ++ "'".toList)), reg)
  else (Result.returned (), reg)

/-- Embeds `Session::attr_set(handle, name, value, value_len)`. -/
def attr_set (E : ErrorCodes) (K : Constants) (handle : Nat) (name : StdString)
    (value : List Byte) (sends : List Int) (reg : HandleMap) (s : Session) :
    Result Unit × HandleMap × Session :=
  try_again E K (Request.attr_set_request handle name value) (expired_session E) id
    (attr_reply "setting".toList handle name) sends reg s

/-- The reply handling of `Session::attr_get`; the second component of the
state is the caller's `value` buffer. -/
def attr_get_reply (D : Serialization) (handle : Nat) (name : StdString) (ok : Bool)
    (ev : Event) (st : HandleMap × List Byte) : Result Unit × (HandleMap × List Byte) :=
  let (reg, value) := st
  if ok = false then
    (Result.thrown (HT_THROW ev.response_code
      ("Problem getting attribute '".toList ++ name ++
        "' of hyperspace file '".toList ++ fname_of reg handle ++ "'".toList)), (reg, value))
  else
    match D.decode_bytes32 ev.payload with
    | Except.error e => (Result.thrown e, (reg, value))
    | Except.ok (attr_val, _) => (Result.returned (), (reg, attr_val))

/-- Embeds `Session::attr_get(handle, name, value)`. -/
def attr_get (E : ErrorCodes) (K : Constants) (D : Serialization) (handle : Nat)
    (name : StdString) (value : List Byte) (sends : List Int) (reg : HandleMap)
    (s : Session) : Result Unit × (HandleMap × List Byte) × Session :=
  try_again E K (Request.attr_get_request handle name) (expired_session E) id
    (attr_get_reply D handle name) sends (reg, value) s

/-- Embeds `Session::attr_del(handle, name)`. -/
def attr_del (E : ErrorCodes) (K : Constants) (handle : Nat) (name : StdString)
    (sends : List Int) (reg : HandleMap) (s : Session) :
    Result Unit × HandleMap × Session :=
  try_again E K (Request.attr_del_request handle name) (expired_session E) id
    (attr_reply "deleting".toList handle name) sends reg s

/-- The entry loop of `Session::readdir`: `n` entries are still to be decoded,
`i` is the index of the next one. -/
def readdir_entries (E : ErrorCodes) (D : Serialization) :
    Nat → Nat → List Byte → List DirEntry → Result Unit × List DirEntry
  | 0, _, _, listing => (Result.returned (), listing)
  | n + 1, i, buf, listing =>
    match D.decode_dir_entry buf with
    | Except.error e =>
      (Result.thrown (HT_THROW2 E.PROTOCOL_ERROR e
        ("Problem decoding entry ".toList ++ dec i ++ " of READDIR return packet".toList)),
        listing)
    | Except.ok (dentry, rest) => readdir_entries E D n (i + 1) rest (listing ++ [dentry])

/-- The reply handling of `Session::readdir`; the state is the caller's
`listing`. -/
def readdir_reply (E : ErrorCodes) (D : Serialization) (ok : Bool) (ev : Event)
    (listing : List DirEntry) : Result Unit × List DirEntry :=
  if ok = false then
    (Result.thrown (HT_THROW ev.response_code "Hyperspace 'readdir' error".toList), listing)
  else
    match D.decode_i32 ev.payload with
    | Except.error e => (Result.thrown (HT_THROW2 E.PROTOCOL_ERROR e []), listing)
    | Except.ok (entry_cnt, rest) => readdir_entries E D entry_cnt 0 rest []

/-- Embeds `Session::readdir(handle, listing)`. -/
def readdir (E : ErrorCodes) (K : Constants) (D : Serialization) (handle : Nat)
    (listing : List DirEntry) (sends : List Int) (s : Session) :
    Result Unit × List DirEntry × Session :=
  try_again E K (Request.readdir_request handle) (expired_session E) id
    (readdir_reply E D) sends listing s

end Session

end Hyperspace

namespace Hyperspace

open Hypertable

/-- What a thread blocked on a handle's condition variable finds when it wakes:
the handle state and the pending sequencer as other threads have left them. -/
structure HandleWakeup where
  handle_state : ClientHandleState
  sequencer : LockSequencer

/-- The state `lock` and `try_lock` work on: the handle state object (shared
with the registry), the caller's sequencer and status variable, and the
wake-ups the handle's condition variable will deliver. -/
structure LockFrame where
  handle_state : ClientHandleState
  sequencer : LockSequencer
  status : Nat
  handle_wakeups : List HandleWakeup

namespace Session

/-- The loop `while (lock_status == LOCK_STATUS_PENDING) cond.wait(lock)` of
`Session::lock`.  The first component tells whether the loop has ended; it is
false when the thread is still waiting after the last scripted wake-up.  The
others are the handle state and the sequencer as last seen, and the wake-ups
not consumed. -/
def wait_while_pending (K : Constants) :
    List HandleWakeup → ClientHandleState → LockSequencer →
      Bool × ClientHandleState × LockSequencer × List HandleWakeup
  | [], hs, seq =>
    if hs.lock_status = K.LOCK_STATUS_PENDING then (false, hs, seq, [])
    else (true, hs, seq, [])
  | w :: rest, hs, seq =>
    if hs.lock_status = K.LOCK_STATUS_PENDING then
      wait_while_pending K rest w.handle_state w.sequencer
    else (true, hs, seq, w :: rest)

/-- What `Session::lock` does between `wait_for_safe` and the submission. -/
def lock_before_send (mode : Nat) (sequencerp : Nat) (f : LockFrame) : LockFrame :=
  { f with
    sequencer := { f.sequencer with mode := mode, name := f.handle_state.normal_name }
    handle_state := { f.handle_state with sequencer := some sequencerp } }

/-- The reply handling of `Session::lock`. -/
def lock_reply (E : ErrorCodes) (K : Constants) (D : Serialization) (mode : Nat)
    (ok : Bool) (ev : Event) (f : LockFrame) : Result Unit × LockFrame :=
  if ok = false then
    (Result.thrown (HT_THROW ev.response_code
      ("Hyperspace 'lock' error, name='".toList ++ f.handle_state.normal_name ++
        "'".toList)), f)
  else
    let f := { f with handle_state := { f.handle_state with lock_mode := mode } }
    match D.decode_i32 ev.payload with
    | Except.error e =>
      (Result.thrown (HT_THROW2 e.code e "lock response decode error".toList), f)
    | Except.ok (status, rest) =>
      let f := { f with status := status }
      if status = K.LOCK_STATUS_GRANTED then
        match D.decode_i64 rest with
        | Except.error e =>
          (Result.thrown (HT_THROW2 e.code e "lock response decode error".toList), f)
        | Except.ok (generation, _) =>
          let seq := { f.sequencer with generation := generation }
          (Result.returned (),
            { f with
              sequencer := seq
              handle_state :=
                { f.handle_state with
                  lock_generation := seq.generation
                  lock_status := K.LOCK_STATUS_GRANTED } })
      else if status ≠ K.LOCK_STATUS_PENDING then
        (Result.assert_failed, f)
      else
        let hs := { f.handle_state with lock_status := K.LOCK_STATUS_PENDING }
        match wait_while_pending K f.handle_wakeups hs f.sequencer with
        | (false, hs, seq, wakeups) =>
          (Result.blocked,
            { f with handle_state := hs, sequencer := seq, handle_wakeups := wakeups })
        | (true, hs, seq, wakeups) =>
          let f := { f with handle_state := hs, sequencer := seq, handle_wakeups := wakeups }
          if hs.lock_status = K.LOCK_STATUS_CANCELLED then
            let e := HT_THROW E.HYPERSPACE_REQUEST_CANCELLED []
            (Result.thrown (HT_THROW2 e.code e "lock response decode error".toList), f)
          else if hs.lock_status ≠ K.LOCK_STATUS_GRANTED then
            (Result.assert_failed, f)
          else
            (Result.returned (), f)

/-- The end of a call that worked on a registered handle state: the registry
holds the object as the call left it, and the caller keeps its sequencer and
status variable. -/
def write_back {α : Type} (reg : HandleMap) (handle : Nat)
    (r : Result α × LockFrame × Session) :
    Result α × (LockSequencer × Nat) × HandleMap × Session :=
  (r.1, (r.2.1.sequencer, r.2.1.status),
    update_handle reg handle r.2.1.handle_state, r.2.2)

/-- Embeds `Session::lock(handle, mode, sequencerp)`.  `sequencerp` is the address of
the caller's sequencer and `sequencer` its content; the result carries the
content afterwards, then the local variable `status`, the registry and the
session. -/
def lock (E : ErrorCodes) (K : Constants) (D : Serialization) (handle : Nat) (mode : Nat)
    (sequencerp : Nat) (sequencer : LockSequencer) (handle_wakeups : List HandleWakeup)
    (sends : List Int) (reg : HandleMap) (s : Session) :
    Result Unit × (LockSequencer × Nat) × HandleMap × Session :=
  let status := 0
  match get_handle_state reg handle with
  | none => (Result.thrown (HT_THROW E.HYPERSPACE_INVALID_HANDLE []), (sequencer, status), reg, s)
  | some handle_state =>
    if handle_state.lock_status ≠ 0 then
      (Result.thrown (HT_THROW E.HYPERSPACE_ALREADY_LOCKED []), (sequencer, status), reg, s)
    else
      write_back reg handle
        (try_again E K (Request.lock_request handle mode false) (expired_session E)
          (lock_before_send mode sequencerp) (lock_reply E K D mode) sends
          { handle_state := handle_state, sequencer := sequencer, status := status,
            handle_wakeups := handle_wakeups } s)

/-- The reply handling of `Session::try_lock`. -/
def try_lock_reply (K : Constants) (D : Serialization) (mode : Nat)
    (ok : Bool) (ev : Event) (f : LockFrame) : Result Unit × LockFrame :=
  if ok = false then
    (Result.thrown (HT_THROW ev.response_code
      ("Hyperspace 'try_lock' error, name='".toList ++ f.handle_state.normal_name ++
        "'".toList)), f)
  else
    match D.decode_i32 ev.payload with
    | Except.error e =>
      (Result.thrown (HT_THROW2 e.code e "try_lock response decode error".toList), f)
    | Except.ok (status, rest) =>
      let f := { f with status := status }
      if f.status = K.LOCK_STATUS_GRANTED then
        match D.decode_i64 rest with
        | Except.error e =>
          (Result.thrown (HT_THROW2 e.code e "try_lock response decode error".toList), f)
        | Except.ok (generation, _) =>
          let seq : LockSequencer :=
            { generation := generation, mode := mode, name := f.handle_state.normal_name }
          (Result.returned (),
            { f with
              sequencer := seq
              handle_state :=
                { f.handle_state with
                  lock_mode := mode
                  lock_status := K.LOCK_STATUS_GRANTED
                  lock_generation := seq.generation
                  sequencer := none } })
      else
        (Result.returned (), f)

/-- Embeds `Session::try_lock(handle, mode, statusp, sequencerp)`.  `status` and
`sequencer` are the contents of `*statusp` and `*sequencerp` at the call; the
result carries their contents afterwards. -/
def try_lock (E : ErrorCodes) (K : Constants) (D : Serialization) (handle : Nat)
    (mode : Nat) (status : Nat) (sequencer : LockSequencer)
    (sends : List Int) (reg : HandleMap) (s : Session) :
    Result Unit × (LockSequencer × Nat) × HandleMap × Session :=
  match get_handle_state reg handle with
  | none => (Result.thrown (HT_THROW E.HYPERSPACE_INVALID_HANDLE []), (sequencer, status), reg, s)
  | some handle_state =>
    if handle_state.lock_status ≠ 0 then
      (Result.thrown (HT_THROW E.HYPERSPACE_ALREADY_LOCKED []), (sequencer, status), reg, s)
    else
      write_back reg handle
        (try_again E K (Request.lock_request handle mode true) (expired_session E)
          id (try_lock_reply K D mode) sends
          { handle_state := handle_state, sequencer := sequencer, status := status,
            handle_wakeups := [] } s)

/-- The reply handling of `Session::release`. -/
def release_reply (ok : Bool) (ev : Event) (hs : ClientHandleState) :
    Result Unit × ClientHandleState :=
  if ok = false then
    (Result.thrown (HT_THROW ev.response_code "Hyperspace 'release' error".toList), hs)
  else
    (Result.returned (), { hs with lock_status := 0 })

/-- Embeds `Session::release(handle)`. -/
def release (E : ErrorCodes) (K : Constants) (handle : Nat) (sends : List Int)
    (reg : HandleMap) (s : Session) : Result Unit × HandleMap × Session :=
  match get_handle_state reg handle with
  | none => (Result.thrown (HT_THROW E.HYPERSPACE_INVALID_HANDLE []), reg, s)
  | some handle_state =>
    let r := try_again E K (Request.release_request handle) (expired_session E) id
      release_reply sends handle_state s
    (r.1, update_handle reg handle r.2.1, r.2.2)

/-- Embeds `Session::get_sequencer(handle, sequencerp)`; the second component is the
content of `*sequencerp` afterwards. -/
def get_sequencer (E : ErrorCodes) (handle : Nat) (sequencer : LockSequencer)
    (reg : HandleMap) : Result Unit × LockSequencer :=
  match get_handle_state reg handle with
  | none => (Result.thrown (HT_THROW E.HYPERSPACE_INVALID_HANDLE []), sequencer)
  | some handle_state =>
    if handle_state.lock_generation = 0 then
      (Result.thrown (HT_THROW E.HYPERSPACE_NOT_LOCKED []), sequencer)
    else
      (Result.returned (),
        { name := handle_state.normal_name, mode := handle_state.lock_mode,
          generation := handle_state.lock_generation })

/-- Embeds `Session::status()`: `some` of the returned code, or `none` when the
environment has no answer scripted for the submission or the reply. -/
def status (E : ErrorCodes) (sends : List Int) (s : Session) : Option Int × Session :=
  match sends with
  | [] => (none, s)
  | send_result :: _ =>
    let (error, s1) := send_message Request.status_request send_result s
    if error = E.OK then
      match wait_for_reply E s1 with
      | none => (none, s1)
      | some (ok, ev, s2) =>
        if ok = false then (some ev.response_code, s2) else (some error, s2)
    else (some error, s1)

end Session

end Hyperspace

namespace Hyperspace

open Hypertable

/-! ## Expiry -/

/-- The conversion of an integer value to `int`, which keeps the low 32 bits. -/
def to_int32 (i : Int) : Int := (i + 2147483648) % 4294967296 - 2147483648

/-- The library function `boost::xtime_cmp(xt1, xt2)`: the difference of the
nanoseconds, converted to `int`, when the seconds agree, and otherwise 1 or
-1 as `xt1` has the larger or the smaller seconds. -/
def xtime_cmp (xt1 xt2 : xtime) : Int :=
  if xt1.sec = xt2.sec then to_int32 (xt1.nsec - xt2.nsec)
  else if xt1.sec > xt2.sec then 1 else -1

/-- Embeds `Session::expired()`, the clock being read from `now`. -/
def Session.expired (s : Session) : Bool :=
  if xtime_cmp s.m_expire_time s.now < 0 then true else false

/-- The time `a` is before the time `b`. -/
def xtime_before (a b : xtime) : Prop :=
  a.sec < b.sec ∨ (a.sec = b.sec ∧ a.nsec < b.nsec)

instance (a b : xtime) : Decidable (xtime_before a b) := by
  unfold xtime_before
  infer_instance

/-- The nanoseconds of a time are those of a clock reading: from 0 up to, and
not including, one second. -/
def xtime_valid (a : xtime) : Prop := 0 ≤ a.nsec ∧ a.nsec < 1000000000

instance (a : xtime) : Decidable (xtime_valid a) := by
  unfold xtime_valid
  infer_instance

/-- A JEOPARDY session that expires at second `expire` and whose clock reads
second `now` and `nsec` nanoseconds. -/
def session_at (expire now nsec : Int) : Session :=
  { m_state := 1, m_session_callback := true,
    m_expire_time := { sec := expire, nsec := 0 }, m_grace_period := 60,
    now := { sec := now, nsec := nsec }, wakeups := [], replies := [],
    requests := [], callback_log := [], transition_log := [] }

end Hyperspace

namespace Hyperspace

open Hypertable

/-! ## A concrete environment

One admissible choice of the constants and of the codec, on which the
operations can be run. -/

/-- One assignment of error codes. -/
def sample_codes : ErrorCodes :=
  { OK := 0, PROTOCOL_ERROR := 1, HYPERSPACE_EXPIRED_SESSION := 196616,
    HYPERSPACE_INVALID_HANDLE := 196619, HYPERSPACE_REQUEST_CANCELLED := 196620,
    HYPERSPACE_ALREADY_LOCKED := 196622, HYPERSPACE_NOT_LOCKED := 196624 }

/-- One assignment of the enumerators. -/
def sample_constants : Constants :=
  { STATE_EXPIRED := 0, STATE_JEOPARDY := 1, STATE_SAFE := 2,
    LOCK_STATUS_GRANTED := 1, LOCK_STATUS_PENDING := 3, LOCK_STATUS_CANCELLED := 4,
    LOCK_MODE_SHARED := 1, LOCK_MODE_EXCLUSIVE := 2,
    OPEN_FLAG_READ := 1, OPEN_FLAG_WRITE := 2, OPEN_FLAG_LOCK := 4,
    OPEN_FLAG_LOCK_SHARED := 64, OPEN_FLAG_LOCK_EXCLUSIVE := 128,
    OPEN_FLAG_CREATE := 8, OPEN_FLAG_EXCL := 16,
    expired_ne_jeopardy := by decide, expired_ne_safe := by decide,
    jeopardy_ne_safe := by decide, granted_ne_pending := by decide,
    granted_ne_cancelled := by decide, pending_ne_cancelled := by decide,
    pending_ne_zero := by decide }

/-- The value of a little-endian byte string. -/
def le_value : List Byte → Nat
  | [] => 0
  | b :: rest => b % 256 + 256 * le_value rest

/-- Modelled from the spec: the fixed-width decoders of `Serialization.h`,
whose source is not at hand.  "Integers are little-endian fixed-width"; a
buffer too short for the width makes the decoder throw, here with `overrun`
as the code. -/
def decode_fixed (overrun : Int) (width : Nat) (buf : List Byte) :
    Except Exception (Nat × List Byte) :=
  if buf.length < width then Except.error (HT_THROW overrun [])
  else Except.ok (le_value (buf.take width), buf.drop width)

/-- Modelled from the spec: `decode_bytes32`, whose source is not at hand.
"Raw bytes (`bytes32`) are `u32`-length-prefixed". -/
def decode_bytes32 (overrun : Int) (buf : List Byte) :
    Except Exception (List Byte × List Byte) :=
  match decode_fixed overrun 4 buf with
  | Except.error e => Except.error e
  | Except.ok (len, rest) =>
    if rest.length < len then Except.error (HT_THROW overrun [])
    else Except.ok (rest.take len, rest.drop len)

/-- Modelled from the spec: the variable-length integer decoder of
`Serialization.h`, whose source is not at hand.  "Variable-length integers
(`vint`) are 7-bits-per-byte with high-bit continuation"; the groups are taken
least significant first. -/
def decode_vint (overrun : Int) : List Byte → Except Exception (Nat × List Byte)
  | [] => Except.error (HT_THROW overrun [])
  | b :: rest =>
    if b % 256 < 128 then Except.ok (b % 256, rest)
    else
      match decode_vint overrun rest with
      | Except.error e => Except.error e
      | Except.ok (v, rest) => Except.ok (b % 128 + 128 * v, rest)

/-- Modelled from the spec: the string decoder of `Serialization.h`, whose
source is not at hand.  "Strings (`vstr`) are `vint`-length-prefixed". -/
def decode_vstr (overrun : Int) (buf : List Byte) :
    Except Exception (StdString × List Byte) :=
  match decode_vint overrun buf with
  | Except.error e => Except.error e
  | Except.ok (len, rest) =>
    if rest.length < len then Except.error (HT_THROW overrun [])
    else Except.ok ((rest.take len).map Char.ofNat, rest.drop len)

/-- Modelled from the spec: the directory entry decoder, whose source is not at
hand.  A `DirEntry` on the wire is "`vstr name`, `u8 is_dir`". -/
def decode_dir_entry (overrun : Int) (buf : List Byte) :
    Except Exception (DirEntry × List Byte) :=
  match decode_vstr overrun buf with
  | Except.error e => Except.error e
  | Except.ok (name, rest) =>
    match decode_fixed overrun 1 rest with
    | Except.error e => Except.error e
    | Except.ok (flag, rest) => Except.ok ({ name := name, is_dir := flag != 0 }, rest)

/-- A codec for running the operations: the decoders above, throwing code `-1`
on a short buffer. -/
def sample_codec : Serialization :=
  { decode_i32 := decode_fixed (-1) 4
    decode_i64 := decode_fixed (-1) 8
    decode_byte := decode_fixed (-1) 1
    decode_bytes32 := decode_bytes32 (-1)
    decode_dir_entry := decode_dir_entry (-1) }

/-- A session in the given state with the given scripts and empty logs. -/
def sample_session (state : Int) (callback : Bool) (wakeups : List Wakeup)
    (replies : List Event) : Session :=
  { m_state := state, m_session_callback := callback,
    m_expire_time := { sec := 0, nsec := 0 }, m_grace_period := 60,
    now := { sec := 100, nsec := 0 }, wakeups := wakeups, replies := replies,
    requests := [], callback_log := [], transition_log := [] }

/-- A registered handle state for the file `/lockfile`. -/
def sample_handle_state (handle : Nat) (lock_status : Nat) (lock_generation : Nat) :
    ClientHandleState :=
  { handle := handle, open_flags := 0, event_mask := 0, normal_name := "/lockfile".toList,
    callback := none, lock_mode := 0, lock_status := lock_status,
    lock_generation := lock_generation, sequencer := none }

/-- A registry that holds `hs` under the number `handle` and nothing else. -/
def sample_registry (handle : Nat) (hs : ClientHandleState) : HandleMap :=
  fun h => if h = handle then some hs else none

/-- A reply that carries the code `code` and nothing else. -/
def error_reply (code : Int) : Event := { response_code := code, payload := [] }

/-- A wake-up at second `sec` that finds the session state set to `state`. -/
def wakeup_at (sec : Int) (state : Int) : Wakeup :=
  { now := { sec := sec, nsec := 0 }, state := state }

/-- An `OK` reply to a lock request: the status as a little-endian `i32`, then
the generation as a little-endian `i64`, both below 256 here. -/
def lock_reply_event (status : Nat) (generation : Nat) : Event :=
  { response_code := 0, payload := [status, 0, 0, 0, generation, 0, 0, 0, 0, 0, 0, 0] }

/-- An `OK` reply to a lock request that carries a status and no generation. -/
def status_reply_event (status : Nat) : Event :=
  { response_code := 0, payload := [status, 0, 0, 0] }

/-- A wake-up on a handle's condition variable that finds `lock_status` set to
`lock_status` and the generation `generation` in the handle state and in the
sequencer. -/
def handle_wakeup (handle : Nat) (lock_status : Nat) (generation : Nat) : HandleWakeup :=
  { handle_state := sample_handle_state handle lock_status generation,
    sequencer := { name := "/lockfile".toList, mode := 2, generation := generation } }

/-- A sequencer a caller passes in before anything was written to it. -/
def blank_sequencer : LockSequencer := { name := [], mode := 0, generation := 0 }

end Hyperspace

namespace Hyperspace

open Hypertable

/-! ## Vocabulary of the statements -/

/-- The list `xs` written `k` times in a row. -/
def repeat_list {α : Type} : Nat → List α → List α
  | 0, _ => []
  | k + 1, xs => xs ++ repeat_list k xs

/-- The session after a submission that the transport accepted and a reply
that was taken from the synchroniser. -/
def after_reply (cbuf : Request) (rs : List Event) (s : Session) : Session :=
  { s with requests := s.requests ++ [cbuf], replies := rs }

/-- Which callback a call of `state_transition` fires, as a list of at most one
call: `callback` says whether a callback is installed. -/
def fired (K : Constants) (callback : Bool) (old_state new_state : Int) : List CallbackCall :=
  if callback = true ∧ new_state = K.STATE_SAFE ∧ old_state = K.STATE_JEOPARDY then
    [CallbackCall.safe]
  else if callback = true ∧ new_state = K.STATE_JEOPARDY ∧ old_state = K.STATE_SAFE then
    [CallbackCall.jeopardy]
  else if callback = true ∧ new_state = K.STATE_EXPIRED ∧ old_state ≠ K.STATE_EXPIRED then
    [CallbackCall.expired]
  else []

end Hyperspace

namespace Hyperspace

open Hypertable

/-- What `k` rounds of jeopardy and recovery followed by an accepted submission
leave in the session `s'`, compared with the session `s` at the call: the
request `cbuf` was submitted `k + 1` times, `state_transition` was called with
JEOPARDY and then SAFE `k` times, the callbacks `jeopardy()` and `safe()` fired
in this order `k` times when a callback is installed, the state is SAFE, and
`rs` and `wrest` are the replies and wake-ups not yet consumed. -/
def retried (K : Constants) (cbuf : Request) (k : Nat) (rs : List Event)
    (wrest : List Wakeup) (s s' : Session) : Prop :=
  s'.m_state = K.STATE_SAFE ∧
  s'.requests = s.requests ++ repeat_list (k + 1) [cbuf] ∧
  s'.transition_log = s.transition_log ++ repeat_list k [K.STATE_JEOPARDY, K.STATE_SAFE] ∧
  s'.callback_log = s.callback_log ++
    (if s.m_session_callback = true then
      repeat_list k [CallbackCall.jeopardy, CallbackCall.safe] else []) ∧
  s'.replies = rs ∧ s'.wakeups = wrest

/-- An OK reply without payload. -/
def ok_reply (E : ErrorCodes) : Event := { response_code := E.OK, payload := [] }

end Hyperspace

namespace Hyperspace

open Hypertable

/-- The call ended by throwing an exception whose code is `code`. -/
def throws_code {α : Type} (r : Result α) (code : Int) : Prop :=
  ∃ e, r = Result.thrown e ∧ e.code = code

end Hyperspace

namespace Hypertable

namespace Error

/-! ## Error codes and their texts (`src/cc/Common/Error.cc`) -/

/-- The enumerators of `Error::Code` that `Error.cc` lists, in the order of the
list.  Their numeric values are declared in `Common/Error.h`, which is not
among the sources; wherever a value matters it is read from a numbering
`Code → Int` that stays open. -/
inductive Code where
  | UNPOSSIBLE
  | EXTERNAL
  | OK
  | PROTOCOL_ERROR
  | REQUEST_TRUNCATED
  | RESPONSE_TRUNCATED
  | REQUEST_TIMEOUT
  | LOCAL_IO_ERROR
  | BAD_ROOT_LOCATION
  | BAD_SCHEMA
  | INVALID_METADATA
  | BAD_KEY
  | METADATA_NOT_FOUND
  | HQL_PARSE_ERROR
  | FILE_NOT_FOUND
  | BLOCK_COMPRESSOR_UNSUPPORTED_TYPE
  | BLOCK_COMPRESSOR_INVALID_ARG
  | BLOCK_COMPRESSOR_TRUNCATED
  | BLOCK_COMPRESSOR_BAD_HEADER
  | BLOCK_COMPRESSOR_BAD_MAGIC
  | BLOCK_COMPRESSOR_CHECKSUM_MISMATCH
  | BLOCK_COMPRESSOR_INFLATE_ERROR
  | BLOCK_COMPRESSOR_INIT_ERROR
  | TABLE_DOES_NOT_EXIST
  | PARSE_ERROR
  | CONNECT_ERROR_MASTER
  | CONNECT_ERROR_HYPERSPACE
  | TOO_MANY_COLUMNS
  | BAD_DOMAIN_NAME
  | FAILED_EXPECTATION
  | MALFORMED_REQUEST
  | COMM_NOT_CONNECTED
  | COMM_BROKEN_CONNECTION
  | COMM_CONNECT_ERROR
  | COMM_ALREADY_CONNECTED
  | COMM_REQUEST_TIMEOUT
  | COMM_SEND_ERROR
  | COMM_RECEIVE_ERROR
  | COMM_POLL_ERROR
  | COMM_CONFLICTING_ADDRESS
  | COMM_SOCKET_ERROR
  | COMM_BIND_ERROR
  | COMM_LISTEN_ERROR
  | DFSBROKER_BAD_FILE_HANDLE
  | DFSBROKER_IO_ERROR
  | DFSBROKER_FILE_NOT_FOUND
  | DFSBROKER_BAD_FILENAME
  | DFSBROKER_PERMISSION_DENIED
  | DFSBROKER_INVALID_ARGUMENT
  | DFSBROKER_INVALID_CONFIG
  | HYPERSPACE_IO_ERROR
  | HYPERSPACE_CREATE_FAILED
  | HYPERSPACE_FILE_NOT_FOUND
  | HYPERSPACE_ATTR_NOT_FOUND
  | HYPERSPACE_DELETE_ERROR
  | HYPERSPACE_BAD_PATHNAME
  | HYPERSPACE_PERMISSION_DENIED
  | HYPERSPACE_EXPIRED_SESSION
  | HYPERSPACE_FILE_EXISTS
  | HYPERSPACE_IS_DIRECTORY
  | HYPERSPACE_INVALID_HANDLE
  | HYPERSPACE_REQUEST_CANCELLED
  | HYPERSPACE_MODE_RESTRICTION
  | HYPERSPACE_ALREADY_LOCKED
  | HYPERSPACE_LOCK_CONFLICT
  | HYPERSPACE_NOT_LOCKED
  | HYPERSPACE_BAD_ATTRIBUTE
  | HYPERSPACE_BERKELEYDB_ERROR
  | HYPERSPACE_DIR_NOT_EMPTY
  | HYPERSPACE_BERKELEYDB_DEADLOCK
  | MASTER_TABLE_EXISTS
  | MASTER_BAD_SCHEMA
  | MASTER_NOT_RUNNING
  | MASTER_NO_RANGESERVERS
  | RANGESERVER_GENERATION_MISMATCH
  | RANGESERVER_RANGE_ALREADY_LOADED
  | RANGESERVER_RANGE_MISMATCH
  | RANGESERVER_NONEXISTENT_RANGE
  | RANGESERVER_OUT_OF_RANGE
  | RANGESERVER_RANGE_NOT_FOUND
  | RANGESERVER_INVALID_SCANNER_ID
  | RANGESERVER_SCHEMA_PARSE_ERROR
  | RANGESERVER_SCHEMA_INVALID_CFID
  | RANGESERVER_INVALID_COLUMNFAMILY
  | RANGESERVER_TRUNCATED_COMMIT_LOG
  | RANGESERVER_NO_METADATA_FOR_RANGE
  | RANGESERVER_SHUTTING_DOWN
  | RANGESERVER_CORRUPT_COMMIT_LOG
  | RANGESERVER_UNAVAILABLE
  | RANGESERVER_TIMESTAMP_ORDER_ERROR
  | RANGESERVER_ROW_OVERFLOW
  | RANGESERVER_TABLE_NOT_FOUND
  | RANGESERVER_BAD_SCAN_SPEC
  | HQL_BAD_LOAD_FILE_FORMAT
  | METALOG_BAD_RS_HEADER
  | METALOG_BAD_M_HEADER
  | METALOG_ENTRY_TRUNCATED
  | METALOG_CHECKSUM_MISMATCH
  | METALOG_ENTRY_BAD_TYPE
  | METALOG_ENTRY_BAD_ORDER
  | SERIALIZATION_INPUT_OVERRUN
  | SERIALIZATION_BAD_VINT
  | SERIALIZATION_BAD_VSTR
  deriving DecidableEq

/-- Embeds the table `error_info[]`, without its closing entry `{ 0, 0 }`. -/
def error_info : List (Code × List Char) :=
  [
    (Code.UNPOSSIBLE, "But that's unpossible!".toList),
    (Code.EXTERNAL, "External error".toList),
    (Code.OK, "HYPERTABLE ok".toList),
    (Code.PROTOCOL_ERROR, "HYPERTABLE protocol error".toList),
    (Code.REQUEST_TRUNCATED, "HYPERTABLE request truncated".toList),
    (Code.RESPONSE_TRUNCATED, "HYPERTABLE response truncated".toList),
    (Code.REQUEST_TIMEOUT, "HYPERTABLE request timeout".toList),
    (Code.LOCAL_IO_ERROR, "HYPERTABLE local i/o error".toList),
    (Code.BAD_ROOT_LOCATION, "HYPERTABLE bad root location".toList),
    (Code.BAD_SCHEMA, "HYPERTABLE bad schema".toList),
    (Code.INVALID_METADATA, "HYPERTABLE invalid metadata".toList),
    (Code.BAD_KEY, "HYPERTABLE bad key".toList),
    (Code.METADATA_NOT_FOUND, "HYPERTABLE metadata not found".toList),
    (Code.HQL_PARSE_ERROR, "HYPERTABLE HQL parse error".toList),
    (Code.FILE_NOT_FOUND, "HYPERTABLE file not found".toList),
    (Code.BLOCK_COMPRESSOR_UNSUPPORTED_TYPE, "HYPERTABLE block compressor unsupported type".toList),
    (Code.BLOCK_COMPRESSOR_INVALID_ARG, "HYPERTABLE block compressor invalid arg".toList),
    (Code.BLOCK_COMPRESSOR_TRUNCATED, "HYPERTABLE block compressor block truncated".toList),
    (Code.BLOCK_COMPRESSOR_BAD_HEADER, "HYPERTABLE block compressor bad block header".toList),
    (Code.BLOCK_COMPRESSOR_BAD_MAGIC, "HYPERTABLE block compressor bad magic string".toList),
    (Code.BLOCK_COMPRESSOR_CHECKSUM_MISMATCH, "HYPERTABLE block compressor block checksum mismatch".toList),
    (Code.BLOCK_COMPRESSOR_INFLATE_ERROR, "HYPERTABLE block compressor inflate error".toList),
    (Code.BLOCK_COMPRESSOR_INIT_ERROR, "HYPERTABLE block compressor initialization error".toList),
    (Code.TABLE_DOES_NOT_EXIST, "HYPERTABLE table does not exist".toList),
    (Code.PARSE_ERROR, "HYPERTABLE parse error".toList),
    (Code.CONNECT_ERROR_MASTER, "HYPERTABLE Master connect error".toList),
    (Code.CONNECT_ERROR_HYPERSPACE, "HYPERTABLE Hyperspace connect error".toList),
    (Code.TOO_MANY_COLUMNS, "HYPERTABLE too many columns".toList),
    (Code.BAD_DOMAIN_NAME, "HYPERTABLE bad domain name".toList),
    (Code.FAILED_EXPECTATION, "HYPERTABLE failed expectation".toList),
    (Code.MALFORMED_REQUEST, "HYPERTABLE malformed request".toList),
    (Code.COMM_NOT_CONNECTED, "COMM not connected".toList),
    (Code.COMM_BROKEN_CONNECTION, "COMM broken connection".toList),
    (Code.COMM_CONNECT_ERROR, "COMM connect error".toList),
    (Code.COMM_ALREADY_CONNECTED, "COMM already connected".toList),
    (Code.COMM_REQUEST_TIMEOUT, "COMM request timeout".toList),
    (Code.COMM_SEND_ERROR, "COMM send error".toList),
    (Code.COMM_RECEIVE_ERROR, "COMM receive error".toList),
    (Code.COMM_POLL_ERROR, "COMM poll error".toList),
    (Code.COMM_CONFLICTING_ADDRESS, "COMM conflicting address".toList),
    (Code.COMM_SOCKET_ERROR, "COMM socket error".toList),
    (Code.COMM_BIND_ERROR, "COMM bind error".toList),
    (Code.COMM_LISTEN_ERROR, "COMM listen error".toList),
    (Code.DFSBROKER_BAD_FILE_HANDLE, "DFS BROKER bad file handle".toList),
    (Code.DFSBROKER_IO_ERROR, "DFS BROKER i/o error".toList),
    (Code.DFSBROKER_FILE_NOT_FOUND, "DFS BROKER file not found".toList),
    (Code.DFSBROKER_BAD_FILENAME, "DFS BROKER bad filename".toList),
    (Code.DFSBROKER_PERMISSION_DENIED, "DFS BROKER permission denied".toList),
    (Code.DFSBROKER_INVALID_ARGUMENT, "DFS BROKER invalid argument".toList),
    (Code.DFSBROKER_INVALID_CONFIG, "DFS BROKER invalid config value".toList),
    (Code.HYPERSPACE_IO_ERROR, "HYPERSPACE i/o error".toList),
    (Code.HYPERSPACE_CREATE_FAILED, "HYPERSPACE create failed".toList),
    (Code.HYPERSPACE_FILE_NOT_FOUND, "HYPERSPACE file not found".toList),
    (Code.HYPERSPACE_ATTR_NOT_FOUND, "HYPERSPACE attribute not found".toList),
    (Code.HYPERSPACE_DELETE_ERROR, "HYPERSPACE delete error".toList),
    (Code.HYPERSPACE_BAD_PATHNAME, "HYPERSPACE bad pathname".toList),
    (Code.HYPERSPACE_PERMISSION_DENIED, "HYPERSPACE permission denied".toList),
    (Code.HYPERSPACE_EXPIRED_SESSION, "HYPERSPACE expired session".toList),
    (Code.HYPERSPACE_FILE_EXISTS, "HYPERSPACE file exists".toList),
    (Code.HYPERSPACE_IS_DIRECTORY, "HYPERSPACE is directory".toList),
    (Code.HYPERSPACE_INVALID_HANDLE, "HYPERSPACE invalid handle".toList),
    (Code.HYPERSPACE_REQUEST_CANCELLED, "HYPERSPACE request cancelled".toList),
    (Code.HYPERSPACE_MODE_RESTRICTION, "HYPERSPACE mode restriction".toList),
    (Code.HYPERSPACE_ALREADY_LOCKED, "HYPERSPACE already locked".toList),
    (Code.HYPERSPACE_LOCK_CONFLICT, "HYPERSPACE lock conflict".toList),
    (Code.HYPERSPACE_NOT_LOCKED, "HYPERSPACE not locked".toList),
    (Code.HYPERSPACE_BAD_ATTRIBUTE, "HYPERSPACE bad attribute".toList),
    (Code.HYPERSPACE_BERKELEYDB_ERROR, "HYPERSPACE Berkeley DB error".toList),
    (Code.HYPERSPACE_DIR_NOT_EMPTY, "HYPERSPACE directory not empty".toList),
    (Code.HYPERSPACE_BERKELEYDB_DEADLOCK, "HYPERSPACE Berkeley DB deadlock".toList),
    (Code.MASTER_TABLE_EXISTS, "MASTER table exists".toList),
    (Code.MASTER_BAD_SCHEMA, "MASTER bad schema".toList),
    (Code.MASTER_NOT_RUNNING, "MASTER not running".toList),
    (Code.MASTER_NO_RANGESERVERS, "MASTER no range servers".toList),
    (Code.RANGESERVER_GENERATION_MISMATCH, "RANGE SERVER generation mismatch".toList),
    (Code.RANGESERVER_RANGE_ALREADY_LOADED, "RANGE SERVER range already loaded".toList),
    (Code.RANGESERVER_RANGE_MISMATCH, "RANGE SERVER range mismatch".toList),
    (Code.RANGESERVER_NONEXISTENT_RANGE, "RANGE SERVER non-existent range".toList),
    (Code.RANGESERVER_OUT_OF_RANGE, "RANGE SERVER out of range".toList),
    (Code.RANGESERVER_RANGE_NOT_FOUND, "RANGE SERVER range not found".toList),
    (Code.RANGESERVER_INVALID_SCANNER_ID, "RANGE SERVER invalid scanner id".toList),
    (Code.RANGESERVER_SCHEMA_PARSE_ERROR, "RANGE SERVER schema parse error".toList),
    (Code.RANGESERVER_SCHEMA_INVALID_CFID, "RANGE SERVER invalid column family id".toList),
    (Code.RANGESERVER_INVALID_COLUMNFAMILY, "RANGE SERVER invalid column family".toList),
    (Code.RANGESERVER_TRUNCATED_COMMIT_LOG, "RANGE SERVER truncated commit log".toList),
    (Code.RANGESERVER_NO_METADATA_FOR_RANGE, "RANGE SERVER no metadata for range".toList),
    (Code.RANGESERVER_SHUTTING_DOWN, "RANGE SERVER shutting down".toList),
    (Code.RANGESERVER_CORRUPT_COMMIT_LOG, "RANGE SERVER corrupt commit log".toList),
    (Code.RANGESERVER_UNAVAILABLE, "RANGE SERVER unavailable".toList),
    (Code.RANGESERVER_TIMESTAMP_ORDER_ERROR, "RANGE SERVER supplied timestamp is not strictly increasing".toList),
    (Code.RANGESERVER_ROW_OVERFLOW, "RANGE SERVER row overflow".toList),
    (Code.RANGESERVER_TABLE_NOT_FOUND, "RANGE SERVER table not found".toList),
    (Code.RANGESERVER_BAD_SCAN_SPEC, "RANGE SERVER bad scan specification".toList),
    (Code.HQL_BAD_LOAD_FILE_FORMAT, "HQL bad load file format".toList),
    (Code.METALOG_BAD_RS_HEADER, "METALOG bad range server metalog header".toList),
    (Code.METALOG_BAD_M_HEADER, "METALOG bad master metalog header".toList),
    (Code.METALOG_ENTRY_TRUNCATED, "METALOG entry truncated".toList),
    (Code.METALOG_CHECKSUM_MISMATCH, "METALOG checksum mismatch".toList),
    (Code.METALOG_ENTRY_BAD_TYPE, "METALOG bad entry type".toList),
    (Code.METALOG_ENTRY_BAD_ORDER, "METALOG entry out of order".toList),
    (Code.SERIALIZATION_INPUT_OVERRUN, "SERIALIZATION input buffer overrun".toList),
    (Code.SERIALIZATION_BAD_VINT, "SERIALIZATION bad vint encoding".toList),
    (Code.SERIALIZATION_BAD_VSTR, "SERIALIZATION bad vstr encoding".toList)
  ]

/-- The `hash_map<int, const char *>` behind `get_text`: for each key that is
present, the text it maps to, `none` standing for the null pointer. -/
abbrev TextMap := Int → Option (Option (List Char))

/-- The assignment `map[key] = text`. -/
def TextMap.assign (map : TextMap) (key : Int) (text : Option (List Char)) : TextMap :=
  fun k => if k = key then some text else map k

/-- The read `map[key]` of a `hash_map`: the value under the key, and the map
afterwards; a key that is not present is entered with the null pointer. -/
def TextMap.index (map : TextMap) (key : Int) : Option (List Char) × TextMap :=
  match map key with
  | some text => (text, map)
  | none => (none, TextMap.assign map key none)

/-- The text a map holds for a key: `none` when the key is absent or maps to
the null pointer. -/
def TextMap.text (map : TextMap) (key : Int) : Option (List Char) := (map key).bind id

/-- The loop of `build_text_map()` over the entries of the table. -/
def build_text_map_from (value : Code → Int) (entries : List (Code × List Char)) :
    TextMap :=
  entries.foldl (fun map e => TextMap.assign map (value e.1) (some e.2)) (fun _ => none)

/-- Embeds `build_text_map()`, under the numbering `value` of the enumerators. -/
def build_text_map (value : Code → Int) : TextMap :=
  build_text_map_from value error_info

/-- Embeds `Error::get_text(error)` on the map `text_map`: the text returned,
and the map afterwards. -/
def get_text (error : Int) (text_map : TextMap) : List Char × TextMap :=
  let (text, text_map) := TextMap.index text_map error
  match text with
  | none => ("ERROR NOT REGISTERED".toList, text_map)
  | some text => (text, text_map)

/-- The map after the calls `get_text(k)` for the codes `k` of `lookups`, in
order. -/
def after_lookups (lookups : List Int) (text_map : TextMap) : TextMap :=
  lookups.foldl (fun map k => (get_text k map).2) text_map

/-- A numbering of the enumerators for running the table: the position in the
list, counted from -2, so that `OK` is 0. -/
def sample_numbering (c : Code) : Int := (c.toCtorIdx : Int) - 2

end Error

end Hypertable

namespace Hypertable

open Hyperspace

/-! # The master (`src/cc/Hypertable/Master/Master.cc`)

The master works through collaborators whose sources are elsewhere: the
namespace service behind its session, the filesystem broker, the schema
parser, the metadata table and the range-server client.  The namespace
service is modelled as a store of files with attributes; the others appear as
logs of what the master asked of them and as functions that say what they
answer. -/

/-! ## The namespace service as the master's session sees it -/

/-- A file or directory of the namespace service: its attributes, and the
status that an exclusive `try_lock` by the master's session reports for it
(GRANTED when no other session holds a lock on it). -/
structure HsNode where
  is_dir : Bool
  attrs : StdString → Option (List Byte)
  try_lock_status : Nat

/-- Modelled from the spec: the namespace service, "a hierarchical file tree,
attributes, and advisory locks", whose sources are not at hand.  `nodes` maps
a normalised path to the node there, `handles` an open handle to the path it
was opened on, `next_handle` is the next handle the service assigns, and
`listing` is what `readdir` hands back for a directory. -/
structure HsService where
  nodes : StdString → Option HsNode
  handles : Nat → Option StdString
  next_handle : Nat
  listing : StdString → List DirEntry

/-- How a call of the master ends: it returns, an exception leaves it, the
process exits (`exit(1)`), it aborts (`HT_ABORT`), or an `assert` fails (the
asserts are taken as compiled in). -/
inductive Outcome (α : Type) where
  | returned (value : α)
  | thrown (e : Exception)
  | exited (status : Nat)
  | aborted
  | assert_failed

/-- Whether a call returned. -/
def Outcome.is_returned {α : Type} : Outcome α → Bool
  | Outcome.returned _ => true
  | _ => false

/-- The value a call returned, if it did return. -/
def Outcome.result {α : Type} : Outcome α → Option α
  | Outcome.returned value => some value
  | _ => none

/-- The node with one attribute set. -/
def HsNode.set_attr (node : HsNode) (name : StdString) (value : List Byte) : HsNode :=
  { node with attrs := fun n => if n = name then some value else node.attrs n }

/-- The service with the node at `path` replaced, or removed for `none`. -/
def HsService.put (hs : HsService) (path : StdString) (node : Option HsNode) : HsService :=
  { hs with nodes := fun p => if p = path then node else hs.nodes p }

/-- A file as `open` with `OPEN_FLAG_CREATE` creates it: no attributes, no lock
held on it. -/
def new_file (K : Constants) : HsNode :=
  { is_dir := false, attrs := fun _ => none, try_lock_status := K.LOCK_STATUS_GRANTED }

/-- A directory as `mkdir` creates it. -/
def new_dir (K : Constants) : HsNode :=
  { is_dir := true, attrs := fun _ => none, try_lock_status := K.LOCK_STATUS_GRANTED }

/-- Modelled from the spec: `exists(name)` through the session; the file tree
is asked whether the normalised path names a node. -/
def hs_exists (name : StdString) (hs : HsService) : Outcome Bool × HsService :=
  (Outcome.returned (hs.nodes (normalize_name name)).isSome, hs)

/-- Modelled from the spec: `mkdir(name)` through the session; the directory
is entered in the file tree, and a path that is taken already is refused. -/
def hs_mkdir (V : Error.Code → Int) (K : Constants) (name : StdString) (hs : HsService) :
    Outcome Unit × HsService :=
  match hs.nodes (normalize_name name) with
  | some _ =>
    (Outcome.thrown (HT_THROW (V Error.Code.HYPERSPACE_FILE_EXISTS)
      ("Hyperspace 'mkdir' error, name=".toList ++ normalize_name name)), hs)
  | none => (Outcome.returned (), hs.put (normalize_name name) (some (new_dir K)))

/-- Modelled from the spec: `open(name, flags, callback)` through the session.
A node at the path is opened as it is; a missing one is created as an empty
file when `flags` carry `OPEN_FLAG_CREATE`, and refused with
`HYPERSPACE_BAD_PATHNAME`, the code `drop_table` expects for a missing table
file, when they do not.  The handle is the next one of the service. -/
def hs_open (V : Error.Code → Int) (K : Constants) (name : StdString) (flags : Nat)
    (hs : HsService) : Outcome Nat × HsService :=
  let path := normalize_name name
  let opened : HsService :=
    { hs with
      handles := fun h => if h = hs.next_handle then some path else hs.handles h
      next_handle := hs.next_handle + 1 }
  match hs.nodes path with
  | some _ => (Outcome.returned hs.next_handle, opened)
  | none =>
    if flags &&& K.OPEN_FLAG_CREATE = K.OPEN_FLAG_CREATE then
      (Outcome.returned hs.next_handle, opened.put path (some (new_file K)))
    else
      (Outcome.thrown (HT_THROW (V Error.Code.HYPERSPACE_BAD_PATHNAME)
        ("Hyperspace 'open' error, name=".toList ++ path)), hs)

/-- The node an open handle refers to. -/
def HsService.node_of (hs : HsService) (handle : Nat) : Option (StdString × HsNode) :=
  match hs.handles handle with
  | none => none
  | some path =>
    match hs.nodes path with
    | none => none
    | some node => some (path, node)

/-- The value of an attribute of the file at a path. -/
def HsService.attr (hs : HsService) (path name : StdString) : Option (List Byte) :=
  (hs.nodes path).bind (fun node => node.attrs name)

/-- The exception of a call on a handle that refers to no node. -/
def invalid_handle (V : Error.Code → Int) : Exception :=
  HT_THROW (V Error.Code.HYPERSPACE_INVALID_HANDLE) []

/-- Modelled from the spec: `close(handle)` through the session; the handle is
given back. -/
def hs_close (V : Error.Code → Int) (handle : Nat) (hs : HsService) :
    Outcome Unit × HsService :=
  match hs.handles handle with
  | none => (Outcome.thrown (invalid_handle V), hs)
  | some _ =>
    (Outcome.returned (),
      { hs with handles := fun h => if h = handle then none else hs.handles h })

/-- Modelled from the spec: `unlink(name)` through the session; the node at
the path is removed from the file tree. -/
def hs_unlink (V : Error.Code → Int) (name : StdString) (hs : HsService) :
    Outcome Unit × HsService :=
  match hs.nodes (normalize_name name) with
  | none =>
    (Outcome.thrown (HT_THROW (V Error.Code.HYPERSPACE_FILE_NOT_FOUND)
      ("Hyperspace 'unlink' error, name=".toList ++ normalize_name name)), hs)
  | some _ => (Outcome.returned (), hs.put (normalize_name name) none)

/-- Modelled from the spec: `attr_set(handle, name, value)` through the
session; the attribute of the handle's file takes the value. -/
def hs_attr_set (V : Error.Code → Int) (handle : Nat) (name : StdString)
    (value : List Byte) (hs : HsService) : Outcome Unit × HsService :=
  match hs.node_of handle with
  | none => (Outcome.thrown (invalid_handle V), hs)
  | some (path, node) => (Outcome.returned (), hs.put path (some (node.set_attr name value)))

/-- Modelled from the spec: `attr_get(handle, name, value)` through the
session; the value of the attribute, and `HYPERSPACE_ATTR_NOT_FOUND`, the code
the master's constructor expects, when the file has no such attribute. -/
def hs_attr_get (V : Error.Code → Int) (handle : Nat) (name : StdString)
    (hs : HsService) : Outcome (List Byte) × HsService :=
  match hs.node_of handle with
  | none => (Outcome.thrown (invalid_handle V), hs)
  | some (_, node) =>
    match node.attrs name with
    | none =>
      (Outcome.thrown (HT_THROW (V Error.Code.HYPERSPACE_ATTR_NOT_FOUND)
        ("Problem getting attribute '".toList ++ name ++ "' of hyperspace file".toList)), hs)
    | some value => (Outcome.returned value, hs)

/-- Modelled from the spec: `try_lock(handle, LOCK_MODE_EXCLUSIVE, statusp,
sequencerp)` through the session; the status the service reports for the
handle's file. -/
def hs_try_lock (V : Error.Code → Int) (handle : Nat) (hs : HsService) :
    Outcome Nat × HsService :=
  match hs.node_of handle with
  | none => (Outcome.thrown (invalid_handle V), hs)
  | some (_, node) => (Outcome.returned node.try_lock_status, hs)

/-- Modelled from the spec: `readdir(handle, listing)` through the session; the
entries of the handle's directory. -/
def hs_readdir (V : Error.Code → Int) (handle : Nat) (hs : HsService) :
    Outcome (List DirEntry) × HsService :=
  match hs.node_of handle with
  | none => (Outcome.thrown (invalid_handle V), hs)
  | some (path, _) => (Outcome.returned (hs.listing path), hs)

end Hypertable

namespace Hypertable

open Hyperspace

/-! ## The master's state -/

/-- A `struct sockaddr_in`: address and port. -/
structure InetAddr where
  ip : Nat
  port : Nat
  deriving DecidableEq

/-- A `RangeServerState`.  `addr` is `none` as long as nothing was assigned to
the field. -/
structure RangeServerState where
  location : StdString
  addr : Option InetAddr
  hyperspace_handle : Nat

/-- A `TableIdentifier`. -/
structure TableIdentifier where
  name : StdString
  id : Nat
  generation : Nat

/-- A call `load_range(addr, table, range, transfer_log, range_state)` on the
range-server client; a null `start_row` or `transfer_log` is `none`. -/
structure LoadRange where
  addr : Option InetAddr
  table : TableIdentifier
  start_row : Option StdString
  end_row : StdString
  transfer_log : Option StdString
  soft_limit : Nat

/-- A cell written through a metadata mutator: row key, column family and
value. -/
structure MetadataCell where
  row : StdString
  column_family : StdString
  value : StdString

/-- A call on a response callback. -/
inductive Response where
  | response_ok
  | error (code : Int) (msg : StdString)
  deriving DecidableEq

/-- What `Schema::new_instance` makes of a schema string, as far as the master
uses it: validity and error string, the text `render` produces after
`assign_ids`, the names of the access groups and the generation. -/
structure ParsedSchema where
  is_valid : Bool
  error_string : StdString
  rendered : StdString
  access_groups : List StdString
  generation : Nat

/-- The collaborators of the master whose answers do not depend on the state
modelled here, and the constants of `Key.h`, all outside the sources at hand.
`location_cells id` is what a scan of the `Location` column over the METADATA
rows of table `id` returns; the `fault` fields say which calls throw, and what
a peer answers to a dispatched `drop_table`; `address` is the master's own
"ip:port", `none` when the host lookup fails. -/
structure Collaborators where
  location_to_addr : StdString → Option InetAddr
  parse_schema : StdString → ParsedSchema
  metadata_schema : StdString
  metadata_identifier : TableIdentifier
  END_ROOT_ROW : StdString
  END_ROW_MARKER : StdString
  location_cells : Nat → List StdString
  load_range_fault : LoadRange → Option Exception
  mutator_fault : Option Exception
  drop_table_fault : Option InetAddr → Option (Int × StdString)
  address : Option StdString

/-- The `ServerMap`, a `std::map` from location to server state: its entries
in the order of their keys. -/
abbrev ServerMap := List (StdString × RangeServerState)

/-- The call `map.find(key)`, `none` standing for `end()`. -/
def ServerMap.find (map : ServerMap) (key : StdString) : Option RangeServerState :=
  (List.find? (fun e => e.1 = key) map).map Prod.snd

/-- The assignment `map[key] = value`: the entry is replaced when the key is
present and entered at its place in the order when it is not. -/
def ServerMap.assign : ServerMap → StdString → RangeServerState → ServerMap
  | [], key, value => [(key, value)]
  | e :: rest, key, value =>
    if e.1 = key then (key, value) :: rest
    else if key < e.1 then (key, value) :: e :: rest
    else e :: ServerMap.assign rest key value

/-- The call `map.erase(iter)` for the iterator at `key`. -/
def ServerMap.erase (map : ServerMap) (key : StdString) : ServerMap :=
  List.filter (fun e => e.1 ≠ key) map

/-- The master with the collaborators it changes.

The fields that start with `m_` are members of the class: `m_last_table_id`
is the 32-bit word of the atomic counter, `m_server_map_iter` is the key of
the entry the iterator refers to and `none` at `end()`, and
`m_metadata_table_ptr` tells whether the pointer is set.  `hyperspace` is the
namespace service behind `m_hyperspace_ptr`.  The rest are logs: the
directories made through the broker, the aliases set on the transport, the
cells written to METADATA, the `load_range` calls issued, and the calls made
on response callbacks. -/
structure Master where
  m_last_table_id : Nat
  m_master_file_handle : Nat
  m_servers_dir_handle : Nat
  m_server_map : ServerMap
  m_server_map_iter : Option StdString
  m_initialized : Bool
  m_metadata_table_ptr : Bool
  m_max_range_bytes : Nat
  hyperspace : HsService
  dfs_dirs : List StdString
  aliases : List (InetAddr × InetAddr)
  metadata_cells : List MetadataCell
  load_ranges : List LoadRange
  responses : List Response

/-- What a step of the master yields: how it ended, and the master after it. -/
abbrev Step (α : Type) := Outcome α × Master

/-- Sequencing of two steps: the second runs when the first returned, on the
value and the master it left; any other ending of the first is the ending of
the whole. -/
def Step.andThen {α β : Type} (r : Step α) (k : α → Master → Step β) : Step β :=
  match r with
  | (Outcome.returned a, m) => k a m
  | (Outcome.thrown e, m) => (Outcome.thrown e, m)
  | (Outcome.exited status, m) => (Outcome.exited status, m)
  | (Outcome.aborted, m) => (Outcome.aborted, m)
  | (Outcome.assert_failed, m) => (Outcome.assert_failed, m)

/-- A `try` block with its `catch (Exception &e)` handler: the handler runs
when an exception left the block, on the master as the block left it. -/
def Step.catching {α : Type} (r : Step α) (handler : Exception → Master → Step α) :
    Step α :=
  match r with
  | (Outcome.thrown e, m) => handler e m
  | other => other

/-- A call on the session behind `m_hyperspace_ptr`. -/
def Master.hs {α : Type} (m : Master) (call : HsService → Outcome α × HsService) : Step α :=
  ((call m.hyperspace).1, { m with hyperspace := (call m.hyperspace).2 })

/-- A call on a response callback. -/
def Master.respond (m : Master) (r : Response) : Master :=
  { m with responses := m.responses ++ [r] }

/-- The four bytes of a 32-bit word in memory, least significant first, as
`attr_set(..., &table_id, sizeof(int32_t))` passes them. -/
def word_bytes (v : Nat) : List Byte :=
  [v % 256, v / 256 % 256, v / 65536 % 256, v / 16777216 % 256]

/-- Embeds `atomic_inc_return` on the 32-bit counter, converted to `uint32_t`. -/
def atomic_inc_return (v : Nat) : Nat := (v + 1) % 4294967296

end Hypertable

namespace Hypertable

open Hyperspace

/-! ## The master's operations

Log output (`HT_INFO`, `HT_ERROR_OUT`, `cout`) is left out. -/

/-- The iterator `map.begin()`. -/
def ServerMap.begin (map : ServerMap) : Option StdString :=
  map.head?.map Prod.fst

/-- The iterator after `iter++`, for the iterator at `key`. -/
def ServerMap.next (map : ServerMap) (key : StdString) : Option StdString :=
  ((map.dropWhile (fun e => e.1 ≠ key)).drop 1).head?.map Prod.fst

/-- The bytes of a C string. -/
def c_str (s : StdString) : List Byte := s.map Char.toNat

namespace Master

/-- A call of `RangeServerClient::load_range`: the call is logged, and throws
when the collaborators say so. -/
def rsc_load_range (C : Collaborators) (call : LoadRange) (m : Master) : Step Unit :=
  let m := { m with load_ranges := m.load_ranges ++ [call] }
  match C.load_range_fault call with
  | some e => (Outcome.thrown e, m)
  | none => (Outcome.returned (), m)

/-- A `set` on a metadata mutator followed by `flush`: the cell is logged, and
the pair throws when the collaborators say so. -/
def mutator_set_flush (C : Collaborators) (cell : MetadataCell) (m : Master) : Step Unit :=
  match C.mutator_fault with
  | some e => (Outcome.thrown e, m)
  | none => (Outcome.returned (), { m with metadata_cells := m.metadata_cells ++ [cell] })

/-- The round-robin choice that `create_table` and `report_split` make under
the mutex: wrap the iterator from `end()` to `begin()`, assert that it is not
`end()`, copy the address of the entry it refers to, and advance it. -/
def next_server (m : Master) : Step (Option InetAddr) :=
  let m :=
    if m.m_server_map_iter = none then { m with m_server_map_iter := m.m_server_map.begin }
    else m
  match m.m_server_map_iter with
  | none => (Outcome.assert_failed, m)
  | some key =>
    (Outcome.returned ((m.m_server_map.find key).bind (fun st => st.addr)),
      { m with m_server_map_iter := m.m_server_map.next key })

/-- Embeds `Master::create_table(tablename, schemastr)`.  The wait of up to
five seconds for `m_metadata_table_ptr` is taken at its end.  The divisor of the
soft limit is taken in the natural numbers, as it is for maps of fewer than
2^30 servers, where `(int)m_server_map.size()*2` does not overflow.  The
message of the exception for a failed `load_range` is kept up to the end row:
the address and the error text that follow it in the source are formatted by
`InetAddr::string_format` and `Error::get_text`. -/
def create_table (V : Error.Code → Int) (K : Constants) (C : Collaborators)
    (tablename schemastr : StdString) (m : Master) : Step Unit :=
  let tablefile := "/hypertable/tables/".toList ++ tablename
  Step.andThen (m.hs (hs_exists tablefile)) fun table_exists m =>
  if table_exists then
    (Outcome.thrown (HT_THROW (V Error.Code.MASTER_TABLE_EXISTS) tablename), m)
  else
  let schema := C.parse_schema schemastr
  if schema.is_valid = false then
    (Outcome.thrown (HT_THROW (V Error.Code.MASTER_BAD_SCHEMA) schema.error_string), m)
  else
  let finalschema := schema.rendered
  Step.andThen (m.hs (hs_open V K tablefile
    (K.OPEN_FLAG_READ ||| K.OPEN_FLAG_WRITE ||| K.OPEN_FLAG_CREATE))) fun handle m =>
  Step.andThen
    (if tablename = "METADATA".toList then (Outcome.returned 0, m)
      else
        let table_id := atomic_inc_return m.m_last_table_id
        let m := { m with m_last_table_id := table_id }
        Step.andThen (m.hs (hs_attr_set V m.m_master_file_handle "last_table_id".toList
          (word_bytes table_id))) fun _ m => (Outcome.returned table_id, m))
    fun table_id m =>
  Step.andThen (m.hs (hs_attr_set V handle "table_id".toList (word_bytes table_id)))
    fun _ m =>
  Step.andThen (m.hs (hs_attr_set V handle "schema".toList (c_str finalschema))) fun _ m =>
  Step.andThen (m.hs (hs_close V handle)) fun _ m =>
  let table_basedir := "/hypertable/tables/".toList ++ tablename ++ "/".toList
  let m := { m with dfs_dirs := m.dfs_dirs ++ schema.access_groups.map (table_basedir ++ ·) }
  if table_id ≠ 0 then
    if m.m_metadata_table_ptr = false then
      (Outcome.thrown (HT_THROW (V Error.Code.MASTER_NO_RANGESERVERS)
        "Aborting DropTable because no RangeServers have registered".toList), m)
    else
    let metadata_key_str := dec table_id ++ ":".toList ++ C.END_ROW_MARKER
    Step.andThen (mutator_set_flush C
      { row := metadata_key_str, column_family := "StartRow".toList, value := [] } m)
      fun _ m =>
    let table : TableIdentifier :=
      { name := tablename, id := table_id, generation := schema.generation }
    Step.andThen (next_server m) fun addr m =>
    let soft_limit := m.m_max_range_bytes / min 64 (m.m_server_map.length * 2)
    let call : LoadRange :=
      { addr := addr, table := table, start_row := none, end_row := C.END_ROW_MARKER,
        transfer_log := none, soft_limit := soft_limit }
    Step.catching (rsc_load_range C call m) fun e m =>
      (Outcome.thrown (HT_THROW2 e.code e
        ("Problem issuing 'load range' command for ".toList ++ table.name ++
          "[..".toList ++ call.end_row ++ "]".toList)), m)
  else
    (Outcome.returned (), m)

/-- Embeds `Master::create_table(cb, tablename, schemastr)`. -/
def create_table_cb (V : Error.Code → Int) (K : Constants) (C : Collaborators)
    (tablename schemastr : StdString) (m : Master) : Step Unit :=
  Step.catching
    (Step.andThen (create_table V K C tablename schemastr m) fun _ m =>
      (Outcome.returned (), m.respond Response.response_ok))
    (fun e m => (Outcome.returned (), m.respond (Response.error e.code e.what)))

/-- Embeds `Master::create_hyperspace_dir(dir)`. -/
def create_hyperspace_dir (V : Error.Code → Int) (K : Constants) (dir : StdString)
    (m : Master) : Step Bool :=
  Step.catching
    (Step.andThen (m.hs (hs_exists dir)) fun dir_exists m =>
      if dir_exists then (Outcome.returned true, m)
      else Step.andThen (m.hs (hs_mkdir V K dir)) fun _ m => (Outcome.returned true, m))
    (fun _ m => (Outcome.returned false, m))

/-- One of the three directory checks of `Master::initialize()`: false when
`initialize` is to return false. -/
def initialize_dir (V : Error.Code → Int) (K : Constants) (dir : StdString)
    (m : Master) : Step Bool :=
  Step.andThen (m.hs (hs_exists dir)) fun dir_exists m =>
    if dir_exists = false then create_hyperspace_dir V K dir m
    else (Outcome.returned true, m)

/-- Embeds `Master::initialize()`. -/
def initialize_ (V : Error.Code → Int) (K : Constants) (m : Master) : Step Bool :=
  Step.catching
    (Step.andThen (initialize_dir V K "/hypertable".toList m) fun ok m =>
    if ok = false then (Outcome.returned false, m) else
    Step.andThen (initialize_dir V K "/hypertable/servers".toList m) fun ok m =>
    if ok = false then (Outcome.returned false, m) else
    Step.andThen (initialize_dir V K "/hypertable/tables".toList m) fun ok m =>
    if ok = false then (Outcome.returned false, m) else
    Step.andThen (m.hs (hs_open V K "/hypertable/master".toList
      (K.OPEN_FLAG_READ ||| K.OPEN_FLAG_WRITE ||| K.OPEN_FLAG_CREATE))) fun handle m =>
    let m := { m with m_master_file_handle := handle }
    let table_id := 0
    Step.andThen (m.hs (hs_attr_set V m.m_master_file_handle "last_table_id".toList
      (word_bytes table_id))) fun _ m =>
    Step.andThen (m.hs (hs_close V handle)) fun _ m =>
    let m := { m with m_master_file_handle := 0 }
    Step.andThen (m.hs (hs_open V K "/hypertable/root".toList
      (K.OPEN_FLAG_READ ||| K.OPEN_FLAG_WRITE ||| K.OPEN_FLAG_CREATE))) fun handle m =>
    Step.andThen (m.hs (hs_close V handle)) fun _ m =>
    (Outcome.returned true, m))
    (fun _ m => (Outcome.returned false, m))

/-- The admission of one server file, as `register_server` and
`scan_servers_directory` both do it once the server state is made: open the
file, try the exclusive lock, and either remove the file of a server whose
lock was granted or enter the state in the server map. -/
def admit_server (V : Error.Code → Int) (K : Constants) (rs_state : RangeServerState)
    (m : Master) : Step Unit :=
  let oflags := K.OPEN_FLAG_READ ||| K.OPEN_FLAG_WRITE ||| K.OPEN_FLAG_LOCK
  let hsfname := "/hypertable/servers/".toList ++ rs_state.location
  Step.andThen (m.hs (hs_open V K hsfname oflags)) fun handle m =>
  let rs_state := { rs_state with hyperspace_handle := handle }
  Step.andThen (m.hs (hs_try_lock V rs_state.hyperspace_handle)) fun lock_status m =>
  if lock_status = K.LOCK_STATUS_GRANTED then
    Step.andThen (m.hs (hs_unlink V hsfname)) fun _ m =>
    Step.andThen (m.hs (hs_close V rs_state.hyperspace_handle)) fun _ m =>
    (Outcome.returned (), m)
  else
    (Outcome.returned (),
      { m with m_server_map := m.m_server_map.assign rs_state.location rs_state })

/-- The loop of `Master::scan_servers_directory()` over the listing. -/
def scan_entries (V : Error.Code → Int) (K : Constants) : List DirEntry → Master → Step Unit
  | [], m => (Outcome.returned (), m)
  | entry :: rest, m =>
    match admit_server V K { location := entry.name, addr := none, hyperspace_handle := 0 } m with
    | (Outcome.returned _, m) => scan_entries V K rest m
    | other => other

/-- Embeds `Master::scan_servers_directory()`. -/
def scan_servers_directory (V : Error.Code → Int) (K : Constants) (m : Master) : Step Unit :=
  Step.catching
    (Step.andThen (m.hs (hs_open V K "/hypertable/servers".toList K.OPEN_FLAG_READ))
      fun handle m =>
    let m := { m with m_servers_dir_handle := handle }
    Step.andThen (m.hs (hs_readdir V m.m_servers_dir_handle)) fun listing m =>
    scan_entries V K listing m)
    (fun _ m => (Outcome.aborted, m))

/-- The block of `Master::register_server` that runs while the master is not
initialized: create the METADATA table, load the root range on the server at
`alias`, write the cell of the second-level range, and load that range. -/
def load_metadata_ranges (V : Error.Code → Int) (K : Constants) (C : Collaborators)
    (alias_ : InetAddr) (m : Master) : Step Unit :=
  Step.andThen
    (Step.catching
      (Step.andThen (create_table V K C "METADATA".toList C.metadata_schema m) fun _ m =>
        (Outcome.returned false, m))
      (fun e m =>
        if e.code ≠ V Error.Code.MASTER_TABLE_EXISTS then (Outcome.aborted, m)
        else (Outcome.returned true, m)))
    fun table_exists m =>
  let m := { m with m_metadata_table_ptr := true }
  if table_exists then (Outcome.returned (), { m with m_initialized := true }) else
  let table : TableIdentifier := { C.metadata_identifier with name := "METADATA".toList }
  Step.andThen
    (Step.catching
      (rsc_load_range C
        { addr := some alias_, table := table, start_row := none, end_row := C.END_ROOT_ROW,
          transfer_log := none, soft_limit := m.m_max_range_bytes } m)
      (fun _ m => (Outcome.returned (), m)))
    fun _ m =>
  let metadata_key_str := "0:".toList ++ C.END_ROW_MARKER
  Step.andThen
    (Step.catching
      (mutator_set_flush C
        { row := metadata_key_str, column_family := "StartRow".toList,
          value := C.END_ROOT_ROW } m)
      (fun _ m => (Outcome.exited 1, m)))
    fun _ m =>
  Step.andThen
    (Step.catching
      (rsc_load_range C
        { addr := some alias_, table := table, start_row := some C.END_ROOT_ROW,
          end_row := C.END_ROW_MARKER, transfer_log := none,
          soft_limit := m.m_max_range_bytes } m)
      (fun _ m => (Outcome.returned (), m)))
    fun _ m =>
  (Outcome.returned (), { m with m_initialized := true })

/-- The `try` block of `Master::register_server` with its handler: `some` of
the alias when the function goes on after it, `none` when it returns.  The
message of the exception of `HT_EXPECT` is the macro's, from a header that is
not at hand. -/
def register_server_admission (V : Error.Code → Int) (K : Constants) (C : Collaborators)
    (location : StdString) (addr : InetAddr) (m : Master) : Step (Option InetAddr) :=
  Step.catching
    (if (m.m_server_map.find location).isSome then
      (Outcome.thrown (HT_THROW (V Error.Code.FAILED_EXPECTATION)
        "failed expectation".toList), m)
    else
      let rs_state : RangeServerState :=
        { location := location, addr := some addr, hyperspace_handle := 0 }
      match C.location_to_addr location with
      | none =>
        (Outcome.returned none,
          m.respond (Response.error (V Error.Code.INVALID_METADATA)
            ("Unable to convert location '".toList ++ location ++ "' to address".toList)))
      | some alias_ =>
        let m := { m with aliases := m.aliases ++ [(addr, alias_)] }
        Step.andThen (admit_server V K rs_state m) fun _ m =>
        (Outcome.returned (some alias_), m.respond Response.response_ok))
    (fun e m => (Outcome.returned none, m.respond (Response.error e.code e.what)))

/-- Embeds `Master::register_server(cb, location, addr)`. -/
def register_server (V : Error.Code → Int) (K : Constants) (C : Collaborators)
    (location : StdString) (addr : InetAddr) (m : Master) : Step Unit :=
  Step.andThen (register_server_admission V K C location addr m) fun alias_ m =>
  match alias_ with
  | none => (Outcome.returned (), m)
  | some alias_ =>
    if m.m_initialized = false then load_metadata_ranges V K C alias_ m
    else (Outcome.returned (), m)

end Master

end Hypertable

namespace Hypertable

open Hyperspace

/-- The test `std::isspace` of the classic locale. -/
def isspace (c : Char) : Bool :=
  c = ' ' || c = '\t' || c = '\n' || c = '\r' || c.toNat = 11 || c.toNat = 12

/-- Embeds `boost::trim`: the string without its leading and trailing spaces. -/
def trim (s : StdString) : StdString :=
  ((s.dropWhile isspace).reverse.dropWhile isspace).reverse

/-- The insertion `std::set<String>::insert`, on the sorted list of the
elements. -/
def set_insert : List StdString → StdString → List StdString
  | [], key => [key]
  | e :: rest, key =>
    if key = e then e :: rest
    else if key < e then key :: e :: rest
    else e :: set_insert rest key

namespace Master

/-- The scan loop of `Master::drop_table`: the locations of the cells, trimmed,
without the empty string and `"!"`, as a set. -/
def unique_locations (cells : List StdString) : List StdString :=
  cells.foldl
    (fun set location_str =>
      let location_str := trim location_str
      if location_str ≠ [] ∧ location_str ≠ "!".toList then set_insert set location_str
      else set)
    []

/-- The state of the loop of `Master::drop_table` over the locations: the
addresses added to the dispatch handler, `saved_error` and `err_msg`. -/
structure DropLoop where
  added : List (Option InetAddr)
  saved_error : Int
  err_msg : StdString
deriving DecidableEq

/-- The loop of `Master::drop_table` over the set of locations. -/
def drop_loop (V : Error.Code → Int) (map : ServerMap) :
    List StdString → DropLoop → DropLoop
  | [], st => st
  | loc :: rest, st =>
    match map.find loc with
    | some rs => drop_loop V map rest { st with added := st.added ++ [rs.addr] }
    | none =>
      drop_loop V map rest
        { st with saved_error := V Error.Code.RANGESERVER_UNAVAILABLE, err_msg := loc }

/-- Modelled from the spec: the errors a `DropTableDispatchHandler` has
collected when `wait_for_completion` returns, one for each added address whose
drop failed, in the order of the additions. -/
def dispatch_errors (C : Collaborators) (added : List (Option InetAddr)) :
    List (Int × StdString) :=
  added.filterMap C.drop_table_fault

/-- Embeds `Master::drop_table(cb, table_name, if_exists)`.  The wait of up to
five seconds for `m_metadata_table_ptr` is taken at its end: the pointer is
set or it is not. -/
def drop_table (V : Error.Code → Int) (K : Constants) (C : Collaborators)
    (table_name : StdString) (if_exists : Bool) (m : Master) : Step Unit :=
  let table_file := "/hypertable/tables/".toList ++ table_name
  let saved_error := V Error.Code.OK
  Step.catching
    (match m.hs (hs_open V K table_file K.OPEN_FLAG_READ) with
    | (Outcome.thrown e, m) =>
      if if_exists = true ∧ e.code = V Error.Code.HYPERSPACE_BAD_PATHNAME then
        (Outcome.returned (), m.respond Response.response_ok)
      else
        (Outcome.thrown (HT_THROW2 e.code e
          ("Problem opening file '".toList ++ table_file ++ "'".toList)), m)
    | (Outcome.returned handle, m) =>
      Step.andThen (m.hs (hs_attr_get V handle "table_id".toList)) fun value_buf m =>
      Step.andThen (m.hs (hs_close V handle)) fun _ m =>
      if value_buf.length ≠ 4 then (Outcome.assert_failed, m) else
      let ival := le_value value_buf
      if m.m_metadata_table_ptr = false then
        (Outcome.thrown (HT_THROW (V Error.Code.MASTER_NO_RANGESERVERS)
          "Aborting DropTable because no RangeServers have registered".toList), m)
      else
      let locations := unique_locations (C.location_cells ival)
      let st : DropLoop :=
        if locations ≠ [] then
          drop_loop V m.m_server_map locations
            { added := [], saved_error := saved_error, err_msg := [] }
        else { added := [], saved_error := saved_error, err_msg := [] }
      match (if locations ≠ [] then dispatch_errors C st.added else []) with
      | error :: _ => (Outcome.returned (), m.respond (Response.error error.1 error.2))
      | [] =>
        if st.saved_error ≠ V Error.Code.OK then
          (Outcome.returned (), m.respond (Response.error st.saved_error st.err_msg))
        else
          Step.andThen (m.hs (hs_unlink V table_file)) fun _ m =>
          (Outcome.returned (), m.respond Response.response_ok)
    | (Outcome.exited status, m) => (Outcome.exited status, m)
    | (Outcome.aborted, m) => (Outcome.aborted, m)
    | (Outcome.assert_failed, m) => (Outcome.assert_failed, m))
    (fun e m => (Outcome.returned (), m.respond (Response.error e.code e.what)))

/-- The locations of a list that are not in the server map, in the order of
the list. -/
def absent_locations (map : ServerMap) (locations : List StdString) :
    List StdString :=
  locations.filter (fun loc => (map.find loc).isNone)

/-- The addresses of the locations of a list that are in the server map, in
the order of the list. -/
def present_addrs (map : ServerMap) (locations : List StdString) :
    List (Option InetAddr) :=
  locations.filterMap (fun loc => (map.find loc).map (fun rs => rs.addr))

/-- What `Master::drop_table` answers and leaves behind once the table file
is open, its `table_id` read and the metadata table there. -/
def drop_table_result (V : Error.Code → Int) (C : Collaborators) (m : Master)
    (closed : HsService) (path : StdString) (locations : List StdString) : Master :=
  match Master.dispatch_errors C (Master.present_addrs m.m_server_map locations) with
  | error :: _ =>
    Master.respond { m with hyperspace := closed } (Response.error error.1 error.2)
  | [] =>
    match (Master.absent_locations m.m_server_map locations).getLast? with
    | some loc =>
      Master.respond { m with hyperspace := closed }
        (Response.error (V Error.Code.RANGESERVER_UNAVAILABLE) loc)
    | none =>
      Master.respond { m with hyperspace := closed.put path none } Response.response_ok

/-- Embeds the constructor `Master::Master` from the reset of the table
counter to the scan of the servers directory; `exit(1)` ends the run.  The
address the master writes is `C.address`, none when the host name does not
resolve. -/
def construct (V : Error.Code → Int) (K : Constants) (C : Collaborators)
    (m : Master) : Step Unit :=
  let m := { m with m_last_table_id := 0 }
  Step.andThen (initialize_ V K m) fun ok m =>
  if ok = false then (Outcome.exited 1, m) else
  let oflags := K.OPEN_FLAG_READ ||| K.OPEN_FLAG_WRITE ||| K.OPEN_FLAG_LOCK
  Step.andThen (m.hs (hs_open V K "/hypertable/master".toList oflags)) fun handle m =>
  let m := { m with m_master_file_handle := handle }
  Step.andThen (m.hs (hs_try_lock V m.m_master_file_handle)) fun lock_status m =>
  if lock_status ≠ K.LOCK_STATUS_GRANTED then (Outcome.exited 1, m) else
  match C.address with
  | none => (Outcome.exited 1, m)
  | some addr_str =>
    Step.andThen (m.hs (hs_attr_set V m.m_master_file_handle "address".toList
      (c_str addr_str))) fun _ m =>
    Step.andThen
      (Step.catching
        (Step.andThen (m.hs (hs_attr_get V m.m_master_file_handle "last_table_id".toList))
          fun valbuf m =>
          if valbuf.length ≠ 4 then (Outcome.assert_failed, m)
          else (Outcome.returned (le_value valbuf), m))
        (fun e m =>
          if e.code = V Error.Code.HYPERSPACE_ATTR_NOT_FOUND then
            Step.andThen (m.hs (hs_attr_set V m.m_master_file_handle "last_table_id".toList
              (word_bytes 0))) fun _ m => (Outcome.returned 0, m)
          else (Outcome.thrown (HT_THROW2 e.code e e.what), m)))
      fun ival m =>
    let m := { m with m_last_table_id := ival }
    scan_servers_directory V K m

end Master

end Hypertable

namespace Hypertable

open Hyperspace

/-! ## Sample namespaces, masters and collaborators -/

/-- A file with the given attributes and `try_lock` status. -/
def file_with (attrs : List (StdString × List Byte)) (status : Nat) : HsNode :=
  { is_dir := false
    attrs := fun n => (attrs.find? (fun a => a.1 = n)).map Prod.snd
    try_lock_status := status }

/-- A namespace with the given nodes and no open handle, whose every directory
lists `listing`. -/
def namespace_of (nodes : List (StdString × HsNode)) (listing : List DirEntry) : HsService :=
  { nodes := fun p => (nodes.find? (fun f => f.1 = p)).map Prod.snd
    handles := fun _ => none
    next_handle := 1
    listing := fun _ => listing }

/-- A master before its constructor ran, on the given namespace. -/
def master_on (hs : HsService) : Master :=
  { m_last_table_id := 0, m_master_file_handle := 0, m_servers_dir_handle := 0,
    m_server_map := [], m_server_map_iter := none, m_initialized := false,
    m_metadata_table_ptr := false, m_max_range_bytes := 200000000, hyperspace := hs,
    dfs_dirs := [], aliases := [], metadata_cells := [], load_ranges := [],
    responses := [] }

/-- A schema parser that accepts every string but the empty one. -/
def sample_parse_schema (schemastr : StdString) : ParsedSchema :=
  { is_valid := !schemastr.isEmpty, error_string := "empty schema".toList,
    rendered := schemastr, access_groups := ["default".toList], generation := 1 }

/-- Collaborators that never fail: locations of the form of one letter are
resolved, `cells` is what every METADATA scan returns, and `failing` are the
addresses whose peer fails a dispatched drop. -/
def sample_collaborators (cells : List StdString) (failing : List InetAddr) : Collaborators :=
  { location_to_addr := fun location =>
      if location.length = 1 then some { ip := 10, port := 38060 } else none
    parse_schema := sample_parse_schema
    metadata_schema := "<Schema/>".toList
    metadata_identifier := { name := [], id := 0, generation := 1 }
    END_ROOT_ROW := "0:\xff\xff".toList
    END_ROW_MARKER := "\xff\xff".toList
    location_cells := fun _ => cells
    load_range_fault := fun _ => none
    mutator_fault := none
    drop_table_fault := fun addr =>
      match addr with
      | some a => if a ∈ failing then some (7, "drop failed".toList) else none
      | none => none
    address := some "10.0.0.1:38050".toList }

/-- The namespace of an installation that has run before: the three
directories, the root file, and the master file with `value` as its
`last_table_id`. -/
def installed_namespace (value : List Byte) : HsService :=
  namespace_of
    [ ("/hypertable".toList, new_dir sample_constants),
      ("/hypertable/servers".toList, new_dir sample_constants),
      ("/hypertable/tables".toList, new_dir sample_constants),
      ("/hypertable/root".toList, new_file sample_constants),
      ("/hypertable/master".toList,
        file_with [("last_table_id".toList, value)] sample_constants.LOCK_STATUS_GRANTED) ]
    []

/-- A server-map entry for the server of a location, at port `port`. -/
def sample_server (location : StdString) (port : Nat) : StdString × RangeServerState :=
  (location,
    { location := location, addr := some { ip := 10, port := port }, hyperspace_handle := 9 })

/-- The namespace of a running installation.  The master file is open on
handle 1; the table `t` has its file, with 1 as its `table_id`; the server
file of `a` is locked by its server (a `try_lock` reports 2, busy) and the one
of `b` is not. -/
def running_namespace : HsService :=
  { nodes := (namespace_of
      [ ("/hypertable/master".toList,
          file_with [("last_table_id".toList, [1, 0, 0, 0])] sample_constants.LOCK_STATUS_GRANTED),
        ("/hypertable/tables/t".toList,
          file_with [("table_id".toList, [1, 0, 0, 0])] sample_constants.LOCK_STATUS_GRANTED),
        ("/hypertable/servers/a".toList, file_with [] 2),
        ("/hypertable/servers/b".toList, file_with [] sample_constants.LOCK_STATUS_GRANTED) ]
      []).nodes
    handles := fun h => if h = 1 then some "/hypertable/master".toList else none
    next_handle := 2
    listing := fun _ => [] }

/-- A master that is running on `running_namespace`, with the given table
counter and server map. -/
def running_master (last_table_id : Nat) (servers : ServerMap) : Master :=
  { m_last_table_id := last_table_id, m_master_file_handle := 1, m_servers_dir_handle := 0,
    m_server_map := servers, m_server_map_iter := none, m_initialized := true,
    m_metadata_table_ptr := true, m_max_range_bytes := 200000000,
    hyperspace := running_namespace, dfs_dirs := [], aliases := [], metadata_cells := [],
    load_ranges := [], responses := [] }

end Hypertable

namespace Hypertable

open Hyperspace

/-! ## Exceptions on a stream (`operator<<` of `src/cc/Common/Error.cc`)

The class `Exception` is declared in `Common/Error.h`, which is not among the
sources.  The stream operator reads an exception through `code()`, `what()`,
`line()`, `func()`, `file()` and the member `prev`; an exception is taken
here as what those hand out. -/

/-- What the getters of one `Exception` object hand out: `func` and `file`
are `none` for the null pointer. -/
structure ExceptionFrame where
  code : Int
  what : StdString
  line : Int
  func : Option StdString
  file : Option StdString
  deriving DecidableEq

/-- An exception with the chain of its causes: `causes` are the objects
`e.prev`, `e.prev->prev`, ... up to the null pointer. -/
structure ExceptionChain where
  top : ExceptionFrame
  causes : List ExceptionFrame
  deriving DecidableEq

/-- The insertion of an `int` into a stream, in decimal. -/
def dec_int (i : Int) : StdString :=
  if i < 0 then '-' :: dec (-i).toNat else dec i.toNat

/-- The insertion of a C string into a stream.  The insertion of the null
pointer has no defined result; it adds nothing here. -/
def cstr (s : Option StdString) : StdString := s.getD []

/-- The expression `p ? p : "-"` on a C string. -/
def or_dash (p : Option StdString) : StdString :=
  match p with
  | some name => name
  | none => "-".toList

/-- The loop of `operator<<` over the causes: `prev_code` is the variable of
that name, `out` the text on the stream so far. -/
def put_causes : List ExceptionFrame → Int → StdString × Error.TextMap →
    StdString × Error.TextMap
  | [], _, st => st
  | prev :: rest, prev_code, (out, text_map) =>
    let out := out ++ "\n\tat ".toList ++ or_dash prev.func ++ " (".toList ++
      or_dash prev.file ++ [':'] ++ dec_int prev.line ++ "): ".toList ++ prev.what
    if prev.code ≠ prev_code then
      let (text, text_map) := Error.get_text prev.code text_map
      put_causes rest prev.code (out ++ " - ".toList ++ text, text_map)
    else
      put_causes rest prev_code (out, text_map)

/-- Embeds `operator<<(std::ostream &out, const Exception &e)`: the text on
the stream and the text map after the call, from the text `out` and the map
before it. -/
def put_exception (e : ExceptionChain) (st : StdString × Error.TextMap) :
    StdString × Error.TextMap :=
  let (out, text_map) := st
  let (text, text_map) := Error.get_text e.top.code text_map
  let out := out ++ "Hypertable::Exception: ".toList ++ e.top.what ++ " - ".toList ++ text
  let out :=
    if e.top.line ≠ 0 then
      out ++ "\n\tat ".toList ++ cstr e.top.func ++ " (".toList ++ cstr e.top.file ++ [':']
        ++ dec_int e.top.line ++ [')']
    else out
  let prev_code := e.top.code
  put_causes e.causes prev_code (out, text_map)

/-! ### The rendering as the specification words it -/

/-- The frame of the top exception: message and error text, and the position
when the exception carries a line. -/
def top_frame (text_map : Error.TextMap) (e : ExceptionFrame) : StdString :=
  "Hypertable::Exception: ".toList ++ e.what ++ " - ".toList ++
    (Error.get_text e.code text_map).1 ++
    (if e.line ≠ 0 then
      "\n\tat ".toList ++ cstr e.func ++ " (".toList ++ cstr e.file ++ [':'] ++
        dec_int e.line ++ [')']
    else [])

/-- The frame of a cause: position and message, followed by " - " and the
error text when the code of the cause differs from `before`, the code of the
frame before it. -/
def cause_frame (text_map : Error.TextMap) (before : Int) (c : ExceptionFrame) :
    StdString :=
  "\n\tat ".toList ++ or_dash c.func ++ " (".toList ++ or_dash c.file ++
    [':'] ++ dec_int c.line ++ "): ".toList ++ c.what ++
    (if c.code ≠ before then " - ".toList ++ (Error.get_text c.code text_map).1 else [])

/-- The frames of the causes in chain order, each with the code of the frame
before it; `before` is the code of the frame before the first of them. -/
def cause_frames (text_map : Error.TextMap) : Int → List ExceptionFrame → List StdString
  | _, [] => []
  | before, c :: rest => cause_frame text_map before c :: cause_frames text_map c.code rest

end Hypertable

namespace Hypertable

/-! ## The error history of the range locator (`src/cc/Hypertable/Lib/RangeLocator.h`)

`MAX_ERROR_QUEUE_LENGTH` is defined outside the header and stays a
parameter. -/

/-- The members of `RangeLocator` that the error history works on:
`m_last_errors`, front first, and the exceptions that `dump_error_history`
has put on the error log. -/
structure RangeLocator where
  m_last_errors : List ExceptionChain
  error_log : List ExceptionChain

/-- The loop `while (m_last_errors.size() > MAX_ERROR_QUEUE_LENGTH)
m_last_errors.pop_front()`. -/
def pop_excess (MAX_ERROR_QUEUE_LENGTH : Nat) : List ExceptionChain → List ExceptionChain
  | [] => []
  | e :: rest =>
    if (e :: rest).length > MAX_ERROR_QUEUE_LENGTH then pop_excess MAX_ERROR_QUEUE_LENGTH rest
    else e :: rest

/-- The exception `Exception(code, msg, line, func, file)`. -/
def Exception_at (code : Int) (msg : Hyperspace.StdString) (line : Int)
    (func file : Hyperspace.StdString) : ExceptionChain :=
  { top := { code := code, what := msg, line := line, func := some func, file := some file }
    causes := [] }

/-- The exception `Exception(code, msg, ex, line, func, file)`, with `ex` as
its cause. -/
def Exception_caused (code : Int) (msg : Hyperspace.StdString) (ex : ExceptionChain)
    (line : Int) (func file : Hyperspace.StdString) : ExceptionChain :=
  { top := { code := code, what := msg, line := line, func := some func, file := some file }
    causes := ex.top :: ex.causes }

namespace RangeLocator

/-- The body that `RECORD_ERROR` and `RECORD_ERROR2` share: `push_back` of the
exception, then the loop that pops the front. -/
def record (MAX_ERROR_QUEUE_LENGTH : Nat) (e : ExceptionChain) (r : RangeLocator) :
    RangeLocator :=
  { r with m_last_errors := pop_excess MAX_ERROR_QUEUE_LENGTH (r.m_last_errors ++ [e]) }

/-- Embeds the macro `RECORD_ERROR(code, msg)`, used at `line` of `func` in
`file`. -/
def RECORD_ERROR (MAX_ERROR_QUEUE_LENGTH : Nat) (code : Int) (msg : Hyperspace.StdString)
    (line : Int) (func file : Hyperspace.StdString) (r : RangeLocator) : RangeLocator :=
  record MAX_ERROR_QUEUE_LENGTH (Exception_at code msg line func file) r

/-- Embeds the macro `RECORD_ERROR2(code, ex, msg)`, used at `line` of `func`
in `file`. -/
def RECORD_ERROR2 (MAX_ERROR_QUEUE_LENGTH : Nat) (code : Int) (ex : ExceptionChain)
    (msg : Hyperspace.StdString) (line : Int) (func file : Hyperspace.StdString)
    (r : RangeLocator) : RangeLocator :=
  record MAX_ERROR_QUEUE_LENGTH (Exception_caused code msg ex line func file) r

/-- Embeds `RangeLocator::clear_error_history()`. -/
def clear_error_history (r : RangeLocator) : RangeLocator :=
  { r with m_last_errors := [] }

/-- Embeds `RangeLocator::dump_error_history()`: every exception of the
history goes to the error log, front first, and the history is cleared. -/
def dump_error_history (r : RangeLocator) : RangeLocator :=
  { m_last_errors := [], error_log := r.error_log ++ r.m_last_errors }

/-- A use of the error history. -/
inductive HistoryCall where
  | record_error (code : Int) (msg : Hyperspace.StdString) (line : Int)
      (func file : Hyperspace.StdString)
  | record_error2 (code : Int) (ex : ExceptionChain) (msg : Hyperspace.StdString)
      (line : Int) (func file : Hyperspace.StdString)
  | clear
  | dump

/-- The locator after one use of the history. -/
def HistoryCall.run (MAX_ERROR_QUEUE_LENGTH : Nat) (r : RangeLocator) :
    HistoryCall → RangeLocator
  | HistoryCall.record_error code msg line func file =>
    RECORD_ERROR MAX_ERROR_QUEUE_LENGTH code msg line func file r
  | HistoryCall.record_error2 code ex msg line func file =>
    RECORD_ERROR2 MAX_ERROR_QUEUE_LENGTH code ex msg line func file r
  | HistoryCall.clear => clear_error_history r
  | HistoryCall.dump => dump_error_history r

/-- The locator after a sequence of uses of the history, in order. -/
def run (MAX_ERROR_QUEUE_LENGTH : Nat) (calls : List HistoryCall) (r : RangeLocator) :
    RangeLocator :=
  calls.foldl (HistoryCall.run MAX_ERROR_QUEUE_LENGTH) r

/-- The exceptions that a sequence of uses has recorded since its last clear
or dump, oldest first (the specification's side of the history). -/
def recorded_since_reset (calls : List HistoryCall) : List ExceptionChain :=
  calls.foldl
    (fun acc call =>
      match call with
      | HistoryCall.record_error code msg line func file =>
        acc ++ [Exception_at code msg line func file]
      | HistoryCall.record_error2 code ex msg line func file =>
        acc ++ [Exception_caused code msg ex line func file]
      | HistoryCall.clear => []
      | HistoryCall.dump => [])
    []

/-- The last `n` elements of a list. -/
def last_n (n : Nat) (l : List ExceptionChain) : List ExceptionChain :=
  l.drop (l.length - n)

/-- A locator as its constructor leaves the history: empty. -/
def fresh : RangeLocator := { m_last_errors := [], error_log := [] }

end RangeLocator

end Hypertable

namespace Hypertable

open Hyperspace

/-! ## The server map and its cursor -/

instance : Inhabited RangeServerState :=
  ⟨{ location := [], addr := none, hyperspace_handle := 0 }⟩

/-- The order of a `std::map`: the keys of the entries increase strictly. -/
def ServerMap.ordered (map : ServerMap) : Prop :=
  (map.map Prod.fst).Pairwise (fun a b => a < b)

instance (map : ServerMap) : Decidable (ServerMap.ordered map) := by
  unfold ServerMap.ordered
  infer_instance

namespace Master

/-- Validity of the cursor `m_server_map_iter`: it is `end()` or refers to
an entry that is in the server map. -/
def cursor_valid (m : Master) : Prop :=
  ∀ key, m.m_server_map_iter = some key → (m.m_server_map.find key).isSome = true

instance (m : Master) : Decidable (cursor_valid m) := by
  unfold cursor_valid
  cases m.m_server_map_iter with
  | none => exact isTrue (fun key h => by cases h)
  | some k =>
    by_cases hk : (m.m_server_map.find k).isSome = true
    · exact isTrue (fun key h => by cases h; exact hk)
    · exact isFalse (fun h => hk (h k rfl))

/-- The entry an assignment selects: the one the cursor refers to, after the
wrap from `end()` to `begin()`. -/
def assignee (m : Master) : Option StdString :=
  if m.m_server_map_iter = none then m.m_server_map.begin else m.m_server_map_iter

/-- The locations that `n` consecutive assignments select, in order. -/
def assignments : Nat → Master → List StdString
  | 0, _ => []
  | n + 1, m =>
    match assignee m with
    | none => []
    | some key => key :: assignments n (next_server m).2

/-- The invariant of the server map and its cursor: the map is ordered as a
`std::map` is, and the cursor is valid. -/
def cursor_invariant (m : Master) : Prop :=
  m.m_server_map.ordered ∧ cursor_valid m

instance (m : Master) : Decidable (cursor_invariant m) := by
  unfold cursor_invariant
  infer_instance

/-- What an assignment of `create_table` leaves behind: the cursor is past the
assignee, and one more `load_range` went to the assignee, for the whole table
and with the soft limit of a first range. -/
def assigned (tablename : StdString) (m m1 : Master) : Prop :=
  ∃ key rs call, assignee m = some key ∧ m.m_server_map.find key = some rs ∧
    m1.m_server_map = m.m_server_map ∧
    m1.m_server_map_iter = m.m_server_map.next key ∧
    m1.load_ranges = m.load_ranges ++ [call] ∧ call.addr = rs.addr ∧
    call.table.name = tablename ∧ call.start_row = none ∧ call.transfer_log = none ∧
    call.soft_limit = m.m_max_range_bytes / min 64 (m.m_server_map.length * 2)

/-- What a call leaves behind that makes no assignment. -/
def unassigned (m m1 : Master) : Prop :=
  m1.load_ranges = m.load_ranges ∧ m1.m_server_map_iter = m.m_server_map_iter ∧
    m1.m_server_map = m.m_server_map ∧ m1.m_max_range_bytes = m.m_max_range_bytes

/-- Embeds `Master::server_left(location)`. -/
def server_left (V : Error.Code → Int) (K : Constants) (location : StdString)
    (m : Master) : Step Unit :=
  let hsfname := "/hypertable/servers/".toList ++ location
  match m.m_server_map.find location with
  | none => (Outcome.returned (), m)
  | some rs_state =>
    let m :=
      if m.m_server_map_iter = some location then
        { m with m_server_map_iter := m.m_server_map.next location }
      else m
    Step.andThen (m.hs (hs_try_lock V rs_state.hyperspace_handle)) fun lock_status m =>
    if lock_status ≠ K.LOCK_STATUS_GRANTED then (Outcome.returned (), m) else
    Step.andThen (m.hs (hs_unlink V hsfname)) fun _ m =>
    Step.andThen (m.hs (hs_close V rs_state.hyperspace_handle)) fun _ m =>
    (Outcome.returned (), { m with m_server_map := m.m_server_map.erase location })

/-- Embeds `Master::report_split(cb, table, range, transfer_log_dir,
soft_limit)`; `start_row` and `end_row` are the rows of `range`. -/
def report_split (C : Collaborators) (table : TableIdentifier)
    (start_row : Option StdString) (end_row : StdString)
    (transfer_log_dir : Option StdString) (soft_limit : Nat) (m : Master) : Step Unit :=
  let m := m.respond Response.response_ok
  Step.andThen (next_server m) fun addr m =>
  Step.catching
    (rsc_load_range C
      { addr := addr, table := table, start_row := start_row, end_row := end_row,
        transfer_log := transfer_log_dir, soft_limit := soft_limit } m)
    (fun _ m => (Outcome.returned (), m))

end Master

/-! ## More samples -/

/-- An exception with code `HYPERSPACE_FILE_NOT_FOUND` of the sample numbering
and message `x`, caused by one with code `LOCAL_IO_ERROR` and message `y`
that was thrown at line 17 of `f` in `a.cc`. -/
def sample_exception : ExceptionChain :=
  { top := { code := Error.sample_numbering Error.Code.HYPERSPACE_FILE_NOT_FOUND,
             what := "x".toList, line := 0, func := none, file := none }
    causes := [{ code := Error.sample_numbering Error.Code.LOCAL_IO_ERROR,
                 what := "y".toList, line := 17, func := some "f".toList,
                 file := some "a.cc".toList }] }

/-- A master on `running_namespace` that is not initialized yet. -/
def starting_master : Master :=
  { m_last_table_id := 0, m_master_file_handle := 1, m_servers_dir_handle := 0,
    m_server_map := [], m_server_map_iter := none, m_initialized := false,
    m_metadata_table_ptr := false, m_max_range_bytes := 200000000,
    hyperspace := running_namespace, dfs_dirs := [], aliases := [], metadata_cells := [],
    load_ranges := [], responses := [] }

/-- The namespace `running_namespace` with handle 9 open on the server file
of `b`, the handle the sample servers carry. -/
def serving_namespace : HsService :=
  { nodes := running_namespace.nodes
    handles := fun h =>
      if h = 1 then some "/hypertable/master".toList
      else if h = 9 then some "/hypertable/servers/b".toList
      else none
    next_handle := 10
    listing := fun _ => [] }

/-- A running master on `serving_namespace` with the given server map and
cursor. -/
def master_with_cursor (servers : ServerMap) (cursor : Option StdString) : Master :=
  { m_last_table_id := 5, m_master_file_handle := 1, m_servers_dir_handle := 0,
    m_server_map := servers, m_server_map_iter := cursor, m_initialized := true,
    m_metadata_table_ptr := true, m_max_range_bytes := 200000000,
    hyperspace := serving_namespace, dfs_dirs := [], aliases := [], metadata_cells := [],
    load_ranges := [], responses := [] }

/-- The namespace of an installation whose servers directory lists the server
`a`, whose file is locked by its server (a `try_lock` reports 2, busy). -/
def listed_namespace : HsService :=
  namespace_of
    [ ("/hypertable".toList, new_dir sample_constants),
      ("/hypertable/servers".toList, new_dir sample_constants),
      ("/hypertable/tables".toList, new_dir sample_constants),
      ("/hypertable/root".toList, new_file sample_constants),
      ("/hypertable/master".toList,
        file_with [("last_table_id".toList, [0, 0, 0, 0])] sample_constants.LOCK_STATUS_GRANTED),
      ("/hypertable/servers/a".toList, file_with [] 2) ]
    [{ name := "a".toList, is_dir := false }]

end Hypertable

namespace Hyperspace

/-! ## Path normalisation: lemmas -/

theorem size_t_pred_succ (n : Nat) (h : n + 1 ≤ SIZE_MAX) : size_t_pred (n + 1) = n := by
  unfold size_t_pred SIZE_MAX at *
  omega

theorem size_t_pred_zero : size_t_pred 0 = SIZE_MAX := by
  unfold size_t_pred SIZE_MAX
  rfl

theorem normalize_name_nil : normalize_name [] = ['/'] := by
  decide

theorem string_front_eq_iff (s : StdString) : string_front s = '/' ↔ s.head? = some '/' := by
  cases s with
  | nil => simp [string_front]
  | cons a t => simp [string_front]

/-- The code on a non-empty name, split into its last character and the rest. -/
theorem normalize_name_concat (init : StdString) (c : Char)
    (hlen : init.length + 1 ≤ SIZE_MAX) (hne : init ++ [c] ≠ ['/']) :
    normalize_name (init ++ [c]) =
      (if string_front (init ++ [c]) = '/' then [] else ['/']) ++
        (if c = '/' then init else init ++ [c]) := by
  have hpred : size_t_pred (init ++ [c]).length = init.length := by
    rw [List.length_append, List.length_singleton]
    exact size_t_pred_succ _ hlen
  unfold normalize_name
  rw [if_neg hne, hpred]
  generalize string_front (init ++ [c]) = f
  have hfind : (string_find (init ++ [c]) '/' init.length = none) ↔ ¬ c = '/' := by
    unfold string_find
    rw [List.drop_left]
    by_cases hc : c = '/'
    · simp [hc]
    · have hc2 : ¬ '/' = c := fun h => hc h.symm
      simp [hc, hc2]
  have hsub : string_substr (init ++ [c]) 0 init.length = init := by
    unfold string_substr
    rw [List.drop_zero, List.take_left]
  by_cases hc : c = '/'
  · have h1 : ¬ string_find (init ++ [c]) '/' init.length = none := by rw [hfind]; simpa using hc
    by_cases hf : f = '/'
    · rw [if_neg h1, hsub]; simp only [hc, hf, if_true, if_false, ne_eq, not_true_eq_false, List.nil_append]
    · rw [if_neg h1, hsub]; simp only [hc, hf, if_true, if_false, ne_eq, not_false_eq_true, List.nil_append]
  · have h1 : string_find (init ++ [c]) '/' init.length = none := by rw [hfind]; exact hc
    by_cases hf : f = '/'
    · simp only [h1, hc, hf, if_true, if_false, ne_eq, not_true_eq_false, List.nil_append]
    · simp only [h1, hc, hf, if_true, if_false, ne_eq, not_false_eq_true, List.nil_append]

/-- The code computes the canonical form of the specification. -/
theorem normalize_name_eq_spec (name : StdString) (hlen : name.length ≤ SIZE_MAX) :
    normalize_name name = normalize_name_spec name := by
  by_cases h1 : name = ['/']
  · subst h1; decide
  · rcases List.eq_nil_or_concat name with h | ⟨init, c, h⟩
    · subst h; decide
    · rw [List.concat_eq_append] at h
      subst h
      have hlen2 : init.length + 1 ≤ SIZE_MAX := by simpa using hlen
      rw [normalize_name_concat init c hlen2 h1]
      unfold normalize_name_spec
      rw [if_neg h1, List.getLast?_concat]
      have hfr := string_front_eq_iff (init ++ [c])
      generalize string_front (init ++ [c]) = f at hfr
      by_cases hf : f = '/'
      · have hh : (init ++ [c]).head? = some '/' := hfr.mp hf
        by_cases hc : c = '/'
        · subst hc
          simp only [hf, hh, if_true, List.nil_append, List.dropLast_concat]
        · have hc2 : ¬ some c = some '/' := by simpa using hc
          simp only [hf, hh, hc, hc2, if_true, if_false, List.nil_append]
      · have hh : ¬ (init ++ [c]).head? = some '/' := fun h => hf (hfr.mpr h)
        by_cases hc : c = '/'
        · subst hc
          have hcons : ('/' :: (init ++ ['/'])).dropLast = '/' :: init := by
            rw [← List.cons_append, List.dropLast_concat]
          simp only [hf, hh, if_true, if_false, hcons, List.singleton_append]
        · have hc2 : ¬ some c = some '/' := by simpa using hc
          simp only [hf, hh, hc, hc2, if_false, List.singleton_append]

theorem string_front_concat_of_ne_nil (init : StdString) (c : Char) (h : init ≠ []) :
    string_front (init ++ [c]) = string_front init := by
  cases init with
  | nil => exact absurd rfl h
  | cons a t => rfl

/-- Every normalised name begins with `/`. -/
theorem normalize_name_front (p : StdString) (hlen : p.length ≤ SIZE_MAX) :
    string_front (normalize_name p) = '/' := by
  by_cases h1 : p = ['/']
  · subst h1; decide
  · rcases List.eq_nil_or_concat p with h | ⟨init, c, h⟩
    · subst h; decide
    · rw [List.concat_eq_append] at h
      subst h
      have hlen2 : init.length + 1 ≤ SIZE_MAX := by simpa using hlen
      rw [normalize_name_concat init c hlen2 h1]
      by_cases hf : string_front (init ++ [c]) = '/'
      · rw [if_pos hf, List.nil_append]
        by_cases hc : c = '/'
        · rw [if_pos hc]
          have hinit : init ≠ [] := by
            intro h0
            apply h1
            rw [h0, hc]
            rfl
          rw [← string_front_concat_of_ne_nil init c hinit]
          exact hf
        · rw [if_neg hc]
          exact hf
      · rw [if_neg hf]
        rfl

/-- A name that begins with `/` is left alone by the code exactly when it is
the literal `/` or does not end with `/`. -/
theorem normalize_name_fixed_iff (q : StdString) (hlen : q.length ≤ SIZE_MAX)
    (hfront : string_front q = '/') :
    normalize_name q = q ↔ (q = ['/'] ∨ q.getLast? ≠ some '/') := by
  by_cases h1 : q = ['/']
  · subst h1
    simp [normalize_name]
  · rcases List.eq_nil_or_concat q with h | ⟨init, c, h⟩
    · subst h
      exact absurd hfront (by decide)
    · rw [List.concat_eq_append] at h
      subst h
      have hlen2 : init.length + 1 ≤ SIZE_MAX := by simpa using hlen
      rw [normalize_name_concat init c hlen2 h1, if_pos hfront, List.nil_append,
        List.getLast?_concat]
      by_cases hc : c = '/'
      · subst hc
        rw [if_pos rfl]
        constructor
        · intro h
          have := congrArg List.length h
          simp at this
        · intro h
          rcases h with h | h
          · exact absurd h h1
          · exact absurd rfl h
      · rw [if_neg hc]
        constructor
        · intro _
          right
          simpa using hc
        · intro _
          rfl

theorem double_slash_suffix_concat2 (init : StdString) (d c : Char) :
    ['/', '/'] <:+ init ++ [d] ++ [c] ↔ (d = '/' ∧ c = '/') := by
  constructor
  · rintro ⟨t, ht⟩
    have h2 : init ++ [d] ++ [c] = init ++ [d, c] := by simp
    rw [h2] at ht
    have := (List.append_inj' ht rfl).2
    simp at this
    exact ⟨this.1.symm, this.2.symm⟩
  · rintro ⟨rfl, rfl⟩
    exact ⟨init, by simp⟩

theorem normalize_name_length_le (p : StdString) (hlen : p.length ≤ SIZE_MAX) :
    (normalize_name p).length ≤ p.length + 1 := by
  by_cases h1 : p = ['/']
  · subst h1; decide
  · rcases List.eq_nil_or_concat p with h | ⟨init, c, h⟩
    · subst h; decide
    · rw [List.concat_eq_append] at h
      subst h
      have hlen2 : init.length + 1 ≤ SIZE_MAX := by simpa using hlen
      rw [normalize_name_concat init c hlen2 h1]
      split_ifs <;> (simp; try omega)

/-- Which names the code sends to a fixed point of itself. -/
theorem normalize_name_idem_iff (p : StdString) (hlen : p.length < SIZE_MAX) :
    normalize_name (normalize_name p) = normalize_name p ↔
      (p = ['/', '/'] ∨ ¬ (['/', '/'] <:+ p)) := by
  have hlen1 : p.length ≤ SIZE_MAX := Nat.le_of_lt hlen
  have hq : (normalize_name p).length ≤ SIZE_MAX :=
    Nat.le_trans (normalize_name_length_le p hlen1) hlen
  rw [normalize_name_fixed_iff _ hq (normalize_name_front p hlen1)]
  by_cases h1 : p = ['/']
  · subst h1; decide
  · rcases List.eq_nil_or_concat p with h | ⟨init, c, h⟩
    · subst h; decide
    · rw [List.concat_eq_append] at h
      subst h
      have hlen2 : init.length + 1 ≤ SIZE_MAX := by simpa using hlen1
      rw [normalize_name_concat init c hlen2 h1]
      by_cases hc : c = '/'
      · subst hc
        rw [if_pos rfl]
        rcases List.eq_nil_or_concat init with h | ⟨init2, d, h⟩
        · subst h
          exact absurd rfl h1
        · rw [List.concat_eq_append] at h
          subst h
          rw [double_slash_suffix_concat2]
          by_cases hf : string_front (init2 ++ [d] ++ ['/']) = '/'
          · rw [if_pos hf, List.nil_append, List.getLast?_concat]
            by_cases hd : d = '/'
            · subst hd
              cases init2 with
              | nil => simp
              | cons a t =>
                simp
                intro _ h
                have := congrArg List.length h
                simp at this
            · have hd2 : ¬ some d = some '/' := by simpa using hd
              simp [hd, hd2]
          · rw [if_neg hf, ← List.append_assoc, List.getLast?_concat]
            by_cases hd : d = '/'
            · subst hd
              cases init2 with
              | nil => exact absurd rfl hf
              | cons a t =>
                simp
                intro _ h
                have := congrArg List.length h
                simp at this
            · have hd2 : ¬ some d = some '/' := by simpa using hd
              simp [hd, hd2]
      · rw [if_neg hc, ← List.append_assoc, List.getLast?_concat]
        have hc2 : ¬ some c = some '/' := by simpa using hc
        have hs : ¬ (['/', '/'] <:+ init ++ [c]) := by
          rintro ⟨t, ht⟩
          have h2 : t ++ ['/', '/'] = (t ++ ['/']) ++ ['/'] := by simp
          rw [h2] at ht
          have := (List.append_inj' ht rfl).2
          simp at this
          exact hc this.symm
        simp [hc2, hs]

end Hyperspace

namespace Hyperspace

open Hypertable

/-! ## The session: lemmas -/

theorem wait_for_safe_of_safe (K : Constants) (s : Session) (h : s.m_state = K.STATE_SAFE) :
    wait_for_safe K s = (some true, s) := by
  unfold wait_for_safe
  cases s.wakeups <;> simp [wait_for_safe_loop, h]

theorem wait_for_safe_of_expired (K : Constants) (s : Session)
    (h : s.m_state = K.STATE_EXPIRED) : wait_for_safe K s = (some false, s) := by
  unfold wait_for_safe
  cases s.wakeups <;> simp [wait_for_safe_loop, h, K.expired_ne_safe]

/-- On an expired session the request loop leaves at once, the way the
operation leaves on expiry, and touches nothing. -/
theorem try_again_of_expired {σ α : Type} (E : ErrorCodes) (K : Constants) (cbuf : Request)
    (on_expired : Result α) (before_send : σ → σ)
    (on_reply : Bool → Event → σ → Result α × σ) (sends : List Int) (st : σ) (s : Session)
    (h : s.m_state = K.STATE_EXPIRED) :
    try_again E K cbuf on_expired before_send on_reply sends st s = (on_expired, st, s) := by
  cases sends <;> simp [try_again, wait_for_safe_of_expired K s h]

/-- An accepted submission: the loop hands the reply to the operation and
ends. -/
theorem try_again_accepted {σ α : Type} (E : ErrorCodes) (K : Constants) (cbuf : Request)
    (on_expired : Result α) (before_send : σ → σ)
    (on_reply : Bool → Event → σ → Result α × σ) (rest : List Int) (st : σ)
    (s s1 : Session) (ev : Event) (rs : List Event)
    (hw : wait_for_safe K s = (some true, s1)) (hr : s1.replies = ev :: rs) :
    try_again E K cbuf on_expired before_send on_reply (E.OK :: rest) st s =
      ((on_reply (ev.response_code == E.OK) ev (before_send st)).1,
        (on_reply (ev.response_code == E.OK) ev (before_send st)).2,
        after_reply cbuf rs s1) := by
  simp [try_again, hw, send_message, wait_for_reply, hr, after_reply]

/-- A rejected submission: the loop transitions to JEOPARDY and starts over
with the rest of the script. -/
theorem try_again_rejected {σ α : Type} (E : ErrorCodes) (K : Constants) (cbuf : Request)
    (on_expired : Result α) (before_send : σ → σ)
    (on_reply : Bool → Event → σ → Result α × σ) (err : Int) (rest : List Int) (st : σ)
    (s s1 : Session) (hw : wait_for_safe K s = (some true, s1)) (herr : err ≠ E.OK) :
    try_again E K cbuf on_expired before_send on_reply (err :: rest) st s =
      try_again E K cbuf on_expired before_send on_reply rest (before_send st)
        (state_transition K K.STATE_JEOPARDY
          { s1 with requests := s1.requests ++ [cbuf] }).2 := by
  simp [try_again, hw, send_message, herr]

end Hyperspace

namespace Hyperspace

open Hypertable

theorem state_transition_m_state (K : Constants) (t : Int) (s : Session) :
    (state_transition K t s).2.m_state = t := by
  unfold state_transition
  dsimp only
  split_ifs <;> rfl

theorem state_transition_fst (K : Constants) (t : Int) (s : Session) :
    (state_transition K t s).1 = s.m_state := by
  unfold state_transition
  dsimp only
  split_ifs <;> rfl

theorem state_transition_frame (K : Constants) (t : Int) (s : Session) :
    (state_transition K t s).2.wakeups = s.wakeups ∧
    (state_transition K t s).2.replies = s.replies ∧
    (state_transition K t s).2.requests = s.requests ∧
    (state_transition K t s).2.m_session_callback = s.m_session_callback ∧
    (state_transition K t s).2.m_grace_period = s.m_grace_period ∧
    (state_transition K t s).2.now = s.now ∧
    (state_transition K t s).2.transition_log = s.transition_log ++ [t] := by
  unfold state_transition
  dsimp only
  split_ifs <;> simp

theorem state_transition_callback_log (K : Constants) (t : Int) (s : Session) :
    (state_transition K t s).2.callback_log =
      s.callback_log ++ fired K s.m_session_callback s.m_state t := by
  have h1 := K.jeopardy_ne_safe
  have h2 := K.expired_ne_safe
  have h3 := K.expired_ne_jeopardy
  unfold state_transition fired
  by_cases hcb : s.m_session_callback = true <;>
  by_cases ht1 : t = K.STATE_SAFE <;>
  by_cases ht2 : t = K.STATE_JEOPARDY <;>
  by_cases ht3 : t = K.STATE_EXPIRED <;>
  by_cases ho1 : s.m_state = K.STATE_SAFE <;>
  by_cases ho2 : s.m_state = K.STATE_JEOPARDY <;>
  by_cases ho3 : s.m_state = K.STATE_EXPIRED <;>
  simp_all

theorem wait_for_safe_loop_of_safe (K : Constants) (l : List Wakeup) (s : Session)
    (h : s.m_state = K.STATE_SAFE) : wait_for_safe_loop K l s = (some true, s) := by
  cases l <;> simp [wait_for_safe_loop, h]

theorem wait_for_safe_loop_true (K : Constants) (l : List Wakeup) (s s1 : Session)
    (h : wait_for_safe_loop K l s = (some true, s1)) : s1.m_state = K.STATE_SAFE := by
  induction l generalizing s with
  | nil =>
    unfold wait_for_safe_loop at h
    by_cases hs : s.m_state = K.STATE_SAFE
    · simp [hs] at h
      rw [← h]
      exact hs
    · by_cases he : s.m_state = K.STATE_EXPIRED <;> simp [hs, he, K.expired_ne_safe] at h
  | cons w rest ih =>
    unfold wait_for_safe_loop at h
    by_cases hs : s.m_state = K.STATE_SAFE
    · simp [hs] at h
      rw [← h]
      exact hs
    · by_cases he : s.m_state = K.STATE_EXPIRED
      · simp [hs, he, K.expired_ne_safe] at h
      · simp only [ne_eq, hs, not_false_eq_true, if_true, he, if_false] at h
        exact ih _ h

/-- When `wait_for_safe` returns true the state is SAFE. -/
theorem wait_for_safe_true (K : Constants) (s s1 : Session)
    (h : wait_for_safe K s = (some true, s1)) : s1.m_state = K.STATE_SAFE :=
  wait_for_safe_loop_true K s.wakeups s s1 h

/-- One round of jeopardy and recovery: after a rejected submission on a SAFE
session whose next wake-up brings SAFE back, `wait_for_safe` succeeds again;
the request and the two transitions are logged, the callbacks `jeopardy()` and
`safe()` fire in this order when a callback is installed. -/
theorem jeopardy_round (K : Constants) (cbuf : Request) (s1 : Session) (w : Wakeup)
    (ws : List Wakeup) (hs : s1.m_state = K.STATE_SAFE) (hw : s1.wakeups = w :: ws)
    (hst : w.state = K.STATE_SAFE) :
    ∃ s2, wait_for_safe K (state_transition K K.STATE_JEOPARDY
        { s1 with requests := s1.requests ++ [cbuf] }).2 = (some true, s2) ∧
      s2.m_state = K.STATE_SAFE ∧
      s2.requests = s1.requests ++ [cbuf] ∧
      s2.transition_log = s1.transition_log ++ [K.STATE_JEOPARDY, K.STATE_SAFE] ∧
      s2.callback_log = s1.callback_log ++
        (if s1.m_session_callback = true then [CallbackCall.jeopardy, CallbackCall.safe]
          else []) ∧
      s2.wakeups = ws ∧ s2.replies = s1.replies ∧
      s2.m_session_callback = s1.m_session_callback := by
  have hjs := K.jeopardy_ne_safe
  have hje : K.STATE_JEOPARDY ≠ K.STATE_EXPIRED := fun h => K.expired_ne_jeopardy h.symm
  let sJ := (state_transition K K.STATE_JEOPARDY { s1 with requests := s1.requests ++ [cbuf] }).2
  have hJm : sJ.m_state = K.STATE_JEOPARDY := state_transition_m_state K _ _
  have hJf := state_transition_frame K K.STATE_JEOPARDY
    { s1 with requests := s1.requests ++ [cbuf] }
  have hJc := state_transition_callback_log K K.STATE_JEOPARDY
    { s1 with requests := s1.requests ++ [cbuf] }
  let sW : Session := { sJ with now := w.now, wakeups := ws }
  have hSf := state_transition_frame K K.STATE_SAFE sW
  have hSc := state_transition_callback_log K K.STATE_SAFE sW
  refine ⟨(state_transition K K.STATE_SAFE sW).2, ?_, state_transition_m_state K _ _,
    ?_, ?_, ?_, ?_, ?_, ?_⟩
  · show wait_for_safe_loop K sJ.wakeups sJ = _
    have hwk : sJ.wakeups = w :: ws := by rw [hJf.1]; exact hw
    rw [hwk]
    unfold wait_for_safe_loop
    have c1 : sJ.m_state ≠ K.STATE_SAFE := by rw [hJm]; exact hjs
    have c2 : ¬ sJ.m_state = K.STATE_EXPIRED := by rw [hJm]; exact hje
    rw [if_pos c1, if_neg c2, hst]
    exact wait_for_safe_loop_of_safe K ws _ (state_transition_m_state K _ _)
  · rw [hSf.2.2.1]; exact hJf.2.2.1
  · rw [hSf.2.2.2.2.2.2]
    show sJ.transition_log ++ [K.STATE_SAFE] = _
    rw [hJf.2.2.2.2.2.2]
    simp
  · rw [hSc]
    show sJ.callback_log ++ fired K sJ.m_session_callback sJ.m_state K.STATE_SAFE = _
    rw [hJc, hJm, hJf.2.2.2.1]
    show (s1.callback_log ++ fired K s1.m_session_callback s1.m_state K.STATE_JEOPARDY) ++
      fired K s1.m_session_callback K.STATE_JEOPARDY K.STATE_SAFE = _
    rw [hs]
    by_cases hcb : s1.m_session_callback = true
    · simp [fired, hcb, hjs]
    · simp [fired, hcb]
  · rw [hSf.1]
  · rw [hSf.2.1]; exact hJf.2.1
  · rw [hSf.2.2.2.1]; exact hJf.2.2.2.1

end Hyperspace

namespace Hyperspace

open Hypertable

/-- Rounds of jeopardy and recovery: while the transport rejects and every
wake-up brings SAFE back, the loop keeps resubmitting the same request. -/
theorem try_again_rounds {σ α : Type} (E : ErrorCodes) (K : Constants) (cbuf : Request)
    (on_expired : Result α) (before_send : σ → σ)
    (on_reply : Bool → Event → σ → Result α × σ) (rest : List Int) (wrest : List Wakeup)
    (errs : List Int) :
    ∀ (ws : List Wakeup) (st : σ) (s s1 : Session),
      (∀ e ∈ errs, e ≠ E.OK) → (∀ w ∈ ws, w.state = K.STATE_SAFE) →
      ws.length = errs.length →
      wait_for_safe K s = (some true, s1) → s1.wakeups = ws ++ wrest →
      ∃ s2 s3,
        try_again E K cbuf on_expired before_send on_reply (errs ++ rest) st s =
          try_again E K cbuf on_expired before_send on_reply rest
            (before_send^[errs.length] st) s2 ∧
        wait_for_safe K s2 = (some true, s3) ∧
        s3.requests = s1.requests ++ repeat_list errs.length [cbuf] ∧
        s3.transition_log = s1.transition_log ++
          repeat_list errs.length [K.STATE_JEOPARDY, K.STATE_SAFE] ∧
        s3.callback_log = s1.callback_log ++
          (if s1.m_session_callback = true then
            repeat_list errs.length [CallbackCall.jeopardy, CallbackCall.safe] else []) ∧
        s3.wakeups = wrest ∧ s3.replies = s1.replies ∧
        s3.m_session_callback = s1.m_session_callback := by
  induction errs with
  | nil =>
    intro ws st s s1 _ _ hlen hw hwk
    have hws : ws = [] := List.length_eq_zero.mp hlen
    subst hws
    refine ⟨s, s1, rfl, hw, ?_, ?_, ?_, ?_, rfl, rfl⟩
    · simp [repeat_list]
    · simp [repeat_list]
    · simp [repeat_list]
    · simpa using hwk
  | cons e es ih =>
    intro ws st s s1 herr hsafe hlen hw hwk
    cases ws with
    | nil => simp at hlen
    | cons w ws =>
      have hs1 : s1.m_state = K.STATE_SAFE := wait_for_safe_true K s s1 hw
      have hwk1 : s1.wakeups = w :: (ws ++ wrest) := by simpa using hwk
      obtain ⟨sA, hA, hAm, hAr, hAt, hAc, hAw, hArp, hAcb⟩ :=
        jeopardy_round K cbuf s1 w (ws ++ wrest) hs1 hwk1 (hsafe w (List.mem_cons_self _ _))
      have hlen2 : ws.length = es.length := by simpa using hlen
      obtain ⟨s2, s3, h1, h2, h3, h4, h5, h6, h7, h8⟩ :=
        ih ws (before_send st) _ sA
          (fun e he => herr e (List.mem_cons_of_mem _ he))
          (fun w hw => hsafe w (List.mem_cons_of_mem _ hw)) hlen2 hA hAw
      refine ⟨s2, s3, ?_, h2, ?_, ?_, ?_, h6, ?_, ?_⟩
      · rw [List.cons_append,
          try_again_rejected E K cbuf on_expired before_send on_reply e (es ++ rest) st s s1 hw
            (herr e (List.mem_cons_self _ _)), h1]
        rfl
      · rw [h3, hAr]
        simp [repeat_list]
      · rw [h4, hAt]
        simp [repeat_list]
      · rw [h5, hAc, hAcb]
        by_cases hcb : s1.m_session_callback = true
        · simp [hcb, repeat_list]
        · simp [hcb]
      · rw [h7, hArp]
      · rw [h8, hAcb]

end Hyperspace

namespace Hyperspace

open Hypertable

/-! ## The registry: lemmas -/

theorem update_handle_self (reg : HandleMap) (handle : Nat) (hs : ClientHandleState)
    (h : get_handle_state reg handle = some hs) : update_handle reg handle hs = reg := by
  funext x
  unfold update_handle
  by_cases hx : x = handle
  · rw [if_pos hx, hx]
    exact h.symm
  · rw [if_neg hx]

theorem get_update_handle (reg : HandleMap) (handle : Nat) (hs : ClientHandleState) :
    get_handle_state (update_handle reg handle hs) handle = some hs := by
  simp [get_handle_state, update_handle]

theorem get_update_handle_other (reg : HandleMap) (handle other : Nat)
    (hs : ClientHandleState) (h : other ≠ handle) :
    get_handle_state (update_handle reg handle hs) other = get_handle_state reg other := by
  simp [get_handle_state, update_handle, h]

/-! ## The operations on an expired session -/

namespace Session

theorem close_of_expired (E : ErrorCodes) (K : Constants) (handle : Nat) (sends : List Int)
    (s : Session) (h : s.m_state = K.STATE_EXPIRED) :
    close E K handle sends s = (expired_session E, (), s) := by
  unfold close
  exact try_again_of_expired E K _ _ _ _ sends () s h

theorem mkdir_of_expired (E : ErrorCodes) (K : Constants) (name : StdString)
    (sends : List Int) (s : Session) (h : s.m_state = K.STATE_EXPIRED) :
    mkdir E K name sends s = (expired_session E, (), s) := by
  unfold mkdir
  exact try_again_of_expired E K _ _ _ _ sends () s h

theorem unlink_of_expired (E : ErrorCodes) (K : Constants) (name : StdString)
    (sends : List Int) (s : Session) (h : s.m_state = K.STATE_EXPIRED) :
    unlink E K name sends s = (expired_session E, (), s) := by
  unfold unlink
  exact try_again_of_expired E K _ _ _ _ sends () s h

theorem exists_of_expired (E : ErrorCodes) (K : Constants) (D : Serialization)
    (name : StdString) (sends : List Int) (s : Session) (h : s.m_state = K.STATE_EXPIRED) :
    exists_ E K D name sends s = (expired_session E, (), s) := by
  unfold exists_
  exact try_again_of_expired E K _ _ _ _ sends () s h

theorem attr_set_of_expired (E : ErrorCodes) (K : Constants) (handle : Nat)
    (name : StdString) (value : List Byte) (sends : List Int) (reg : HandleMap)
    (s : Session) (h : s.m_state = K.STATE_EXPIRED) :
    attr_set E K handle name value sends reg s = (expired_session E, reg, s) := by
  unfold attr_set
  exact try_again_of_expired E K _ _ _ _ sends reg s h

theorem attr_get_of_expired (E : ErrorCodes) (K : Constants) (D : Serialization)
    (handle : Nat) (name : StdString) (value : List Byte) (sends : List Int)
    (reg : HandleMap) (s : Session) (h : s.m_state = K.STATE_EXPIRED) :
    attr_get E K D handle name value sends reg s = (expired_session E, (reg, value), s) := by
  unfold attr_get
  exact try_again_of_expired E K _ _ _ _ sends (reg, value) s h

theorem attr_del_of_expired (E : ErrorCodes) (K : Constants) (handle : Nat)
    (name : StdString) (sends : List Int) (reg : HandleMap)
    (s : Session) (h : s.m_state = K.STATE_EXPIRED) :
    attr_del E K handle name sends reg s = (expired_session E, reg, s) := by
  unfold attr_del
  exact try_again_of_expired E K _ _ _ _ sends reg s h

theorem readdir_of_expired (E : ErrorCodes) (K : Constants) (D : Serialization)
    (handle : Nat) (listing : List DirEntry) (sends : List Int)
    (s : Session) (h : s.m_state = K.STATE_EXPIRED) :
    readdir E K D handle listing sends s = (expired_session E, listing, s) := by
  unfold readdir
  exact try_again_of_expired E K _ _ _ _ sends listing s h

theorem lock_of_expired (E : ErrorCodes) (K : Constants) (D : Serialization)
    (handle mode sequencerp : Nat) (sequencer : LockSequencer)
    (handle_wakeups : List HandleWakeup) (sends : List Int) (reg : HandleMap) (s : Session)
    (hs : ClientHandleState) (hreg : get_handle_state reg handle = some hs)
    (hfree : hs.lock_status = 0) (h : s.m_state = K.STATE_EXPIRED) :
    lock E K D handle mode sequencerp sequencer handle_wakeups sends reg s =
      (expired_session E, (sequencer, 0), reg, s) := by
  unfold lock
  simp only [hreg, hfree, ne_eq, not_true_eq_false, if_false]
  rw [try_again_of_expired E K _ _ _ _ sends _ s h]
  simp [write_back, update_handle_self reg handle hs hreg]

theorem try_lock_of_expired (E : ErrorCodes) (K : Constants) (D : Serialization)
    (handle mode status : Nat) (sequencer : LockSequencer)
    (sends : List Int) (reg : HandleMap) (s : Session)
    (hs : ClientHandleState) (hreg : get_handle_state reg handle = some hs)
    (hfree : hs.lock_status = 0) (h : s.m_state = K.STATE_EXPIRED) :
    try_lock E K D handle mode status sequencer sends reg s =
      (expired_session E, (sequencer, status), reg, s) := by
  unfold try_lock
  simp only [hreg, hfree, ne_eq, not_true_eq_false, if_false]
  rw [try_again_of_expired E K _ _ _ _ sends _ s h]
  simp [write_back, update_handle_self reg handle hs hreg]

theorem release_of_expired (E : ErrorCodes) (K : Constants) (handle : Nat)
    (sends : List Int) (reg : HandleMap) (s : Session)
    (hs : ClientHandleState) (hreg : get_handle_state reg handle = some hs)
    (h : s.m_state = K.STATE_EXPIRED) :
    release E K handle sends reg s = (expired_session E, reg, s) := by
  unfold release
  simp only [hreg]
  rw [try_again_of_expired E K _ _ _ _ sends _ s h]
  simp [update_handle_self reg handle hs hreg]

/-- The call `status` touches only the requests and the replies of the session:
state, wake-ups and both logs are as they were. -/
theorem status_frame (E : ErrorCodes) (sends : List Int) (s : Session) :
    (status E sends s).2.m_state = s.m_state ∧
    (status E sends s).2.wakeups = s.wakeups ∧
    (status E sends s).2.transition_log = s.transition_log ∧
    (status E sends s).2.callback_log = s.callback_log := by
  cases sends with
  | nil => exact ⟨rfl, rfl, rfl, rfl⟩
  | cons send_result rest =>
    unfold status
    simp only [send_message, wait_for_reply]
    by_cases herr : send_result = E.OK
    · rw [if_pos herr]
      cases hrep : s.replies with
      | nil => exact ⟨rfl, rfl, rfl, rfl⟩
      | cons ev replies =>
        dsimp only
        split <;> exact ⟨rfl, rfl, rfl, rfl⟩
    · rw [if_neg herr]
      exact ⟨rfl, rfl, rfl, rfl⟩

/-- A submission the transport rejects: `status` returns the code of
`Comm::send_request`. -/
theorem status_of_rejected (E : ErrorCodes) (send_result : Int) (rest : List Int)
    (s : Session) (hrej : send_result ≠ E.OK) :
    status E (send_result :: rest) s =
      (some send_result, { s with requests := s.requests ++ [Request.status_request] }) := by
  unfold status
  simp only [send_message]
  rw [if_neg hrej]

/-- A submission the transport accepts: `status` returns the response code of
the reply, which is `OK` for an `OK` reply. -/
theorem status_of_accepted (E : ErrorCodes) (rest : List Int) (s : Session)
    (ev : Event) (replies : List Event) (hrep : s.replies = ev :: replies) :
    status E (E.OK :: rest) s =
      (some ev.response_code,
        { s with requests := s.requests ++ [Request.status_request],
                 replies := replies }) := by
  unfold status
  simp only [send_message, wait_for_reply, hrep]
  rw [if_pos trivial]
  by_cases hok : ev.response_code = E.OK
  · simp [hok]
  · simp [hok]

theorem open_state_of_expired (E : ErrorCodes) (K : Constants) (D : Serialization)
    (handle_state : ClientHandleState) (cbuf : Request) (sends : List Int)
    (reg : HandleMap) (s : Session) (h : s.m_state = K.STATE_EXPIRED) :
    (open_state E K D handle_state cbuf sends reg s).1 =
        Result.returned (to_uint64 E.HYPERSPACE_EXPIRED_SESSION) ∧
      (open_state E K D handle_state cbuf sends reg s).2.1.2 = reg ∧
      (open_state E K D handle_state cbuf sends reg s).2.2 = s := by
  unfold open_state
  simp only [try_again_of_expired E K _ _ _ _ sends _ s h, and_self]

end Session

end Hyperspace

namespace Hyperspace

open Hypertable

theorem repeat_list_singleton_comm {α : Type} (k : Nat) (c : α) :
    repeat_list k [c] ++ [c] = [c] ++ repeat_list k [c] := by
  induction k with
  | zero => rfl
  | succ n ih =>
    show ([c] ++ repeat_list n [c]) ++ [c] = [c] ++ ([c] ++ repeat_list n [c])
    rw [List.append_assoc, ih]

theorem count_jeopardy_rounds (K : Constants) (k : Nat) :
    (repeat_list k [K.STATE_JEOPARDY, K.STATE_SAFE]).count K.STATE_JEOPARDY = k := by
  induction k with
  | zero => rfl
  | succ n ih =>
    show ([K.STATE_JEOPARDY, K.STATE_SAFE] ++
      repeat_list n [K.STATE_JEOPARDY, K.STATE_SAFE]).count K.STATE_JEOPARDY = n + 1
    rw [List.count_append, ih]
    have h : K.STATE_SAFE ≠ K.STATE_JEOPARDY := fun h => K.jeopardy_ne_safe h.symm
    simp [List.count_cons, h]
    omega

/-- The request loop through `errs.length` rejected submissions, each followed
by a recovery to SAFE, and an accepted one: the operation gets the reply, and
the session has logged the retries. -/
theorem try_again_retries {σ α : Type} (E : ErrorCodes) (K : Constants) (cbuf : Request)
    (on_expired : Result α) (before_send : σ → σ)
    (on_reply : Bool → Event → σ → Result α × σ) (st : σ)
    (errs : List Int) (rest : List Int) (ws wrest : List Wakeup) (ev : Event)
    (rs : List Event) (s : Session)
    (hsafe : s.m_state = K.STATE_SAFE) (herr : ∀ e ∈ errs, e ≠ E.OK)
    (hws : ∀ w ∈ ws, w.state = K.STATE_SAFE) (hlen : ws.length = errs.length)
    (hwk : s.wakeups = ws ++ wrest) (hrep : s.replies = ev :: rs) :
    ∃ s', try_again E K cbuf on_expired before_send on_reply (errs ++ E.OK :: rest) st s =
        ((on_reply (ev.response_code == E.OK) ev (before_send^[errs.length + 1] st)).1,
          (on_reply (ev.response_code == E.OK) ev (before_send^[errs.length + 1] st)).2, s') ∧
      retried K cbuf errs.length rs wrest s s' := by
  obtain ⟨s2, s3, h1, h2, h3, h4, h5, h6, h7, _⟩ :=
    try_again_rounds E K cbuf on_expired before_send on_reply (E.OK :: rest) wrest errs ws st
      s s herr hws hlen (wait_for_safe_of_safe K s hsafe) hwk
  have hr3 : s3.replies = ev :: rs := by rw [h7]; exact hrep
  refine ⟨after_reply cbuf rs s3, ?_, ?_⟩
  · rw [h1, try_again_accepted E K cbuf on_expired before_send on_reply rest _ s2 s3 ev rs
      h2 hr3, Function.iterate_succ_apply']
  · refine ⟨wait_for_safe_true K s2 s3 h2, ?_, h4, h5, rfl, h6⟩
    show s3.requests ++ [cbuf] = _
    rw [h3, List.append_assoc, repeat_list_singleton_comm]
    rfl

end Hyperspace

namespace Hyperspace

open Hypertable

/-- An accepted submission answered by a reply whose code is not `OK`, for an
operation that throws the code of such a reply. -/
theorem try_again_error_reply {σ α : Type} (E : ErrorCodes) (K : Constants) (cbuf : Request)
    (on_expired : Result α) (before_send : σ → σ)
    (on_reply : Bool → Event → σ → Result α × σ) (rest : List Int) (st : σ)
    (s s1 : Session) (ev : Event) (rs : List Event)
    (hw : wait_for_safe K s = (some true, s1)) (hr : s1.replies = ev :: rs)
    (hc : ev.response_code ≠ E.OK)
    (hthrow : ∀ st, throws_code (on_reply false ev st).1 ev.response_code) :
    throws_code (try_again E K cbuf on_expired before_send on_reply (E.OK :: rest) st s).1
        ev.response_code ∧
      (try_again E K cbuf on_expired before_send on_reply (E.OK :: rest) st s).2.2 =
        after_reply cbuf rs s1 := by
  have hb : (ev.response_code == E.OK) = false := by simpa using hc
  rw [try_again_accepted E K cbuf on_expired before_send on_reply rest st s s1 ev rs hw hr, hb]
  exact ⟨hthrow _, rfl⟩

theorem throws_code_thrown {α : Type} (code : Int) (msg : List Char) :
    throws_code (Result.thrown (HT_THROW code msg) : Result α) code :=
  ⟨_, rfl, rfl⟩

end Hyperspace

namespace Hyperspace

open Hypertable

namespace Session

/-! ## Lock replies -/

theorem wait_while_pending_all (K : Constants) (pend : List HandleWakeup) :
    ∀ (hs : ClientHandleState) (seq : LockSequencer),
      hs.lock_status = K.LOCK_STATUS_PENDING →
      (∀ w ∈ pend, w.handle_state.lock_status = K.LOCK_STATUS_PENDING) →
      (wait_while_pending K pend hs seq).1 = false ∧
      (wait_while_pending K pend hs seq).2.1.lock_status = K.LOCK_STATUS_PENDING ∧
      (pend = [] → (wait_while_pending K pend hs seq).2.1 = hs) := by
  induction pend with
  | nil =>
    intro hs seq h _
    simp [wait_while_pending, h]
  | cons w ws ih =>
    intro hs seq h hall
    simp only [wait_while_pending, h, if_true]
    have := ih w.handle_state w.sequencer (hall w (List.mem_cons_self _ _))
      (fun x hx => hall x (List.mem_cons_of_mem _ hx))
    exact ⟨this.1, this.2.1, fun hnil => absurd hnil (List.cons_ne_nil _ _)⟩

theorem wait_while_pending_resolved (K : Constants) (pend : List HandleWakeup)
    (w : HandleWakeup) (later : List HandleWakeup)
    (hw : w.handle_state.lock_status ≠ K.LOCK_STATUS_PENDING) :
    ∀ (hs : ClientHandleState) (seq : LockSequencer),
      hs.lock_status = K.LOCK_STATUS_PENDING →
      (∀ x ∈ pend, x.handle_state.lock_status = K.LOCK_STATUS_PENDING) →
      wait_while_pending K (pend ++ w :: later) hs seq =
        (true, w.handle_state, w.sequencer, later) := by
  induction pend with
  | nil =>
    intro hs seq h _
    simp only [List.nil_append, wait_while_pending, h, if_true]
    cases later <;> simp [wait_while_pending, hw]
  | cons x xs ih =>
    intro hs seq h hall
    simp only [List.cons_append, wait_while_pending, h, if_true]
    exact ih _ _ (hall x (List.mem_cons_self _ _))
      (fun y hy => hall y (List.mem_cons_of_mem _ hy))

/-- The call `lock` on a registered unlocked handle, once the wait for SAFE has ended
and the transport has taken the request: the reply handler runs on the frame
with the sequencer installed, and its outcome is written back. -/
theorem lock_accepted (E : ErrorCodes) (K : Constants) (D : Serialization)
    (handle mode sequencerp : Nat) (sequencer : LockSequencer)
    (handle_wakeups : List HandleWakeup) (rest : List Int) (reg : HandleMap)
    (s s1 : Session) (ev : Event) (rs : List Event) (hs : ClientHandleState)
    (hreg : get_handle_state reg handle = some hs) (hfree : hs.lock_status = 0)
    (hw : wait_for_safe K s = (some true, s1)) (hr : s1.replies = ev :: rs) :
    lock E K D handle mode sequencerp sequencer handle_wakeups (E.OK :: rest) reg s =
      write_back reg handle
        ((lock_reply E K D mode (ev.response_code == E.OK) ev
            (lock_before_send mode sequencerp
              { handle_state := hs, sequencer := sequencer, status := 0,
                handle_wakeups := handle_wakeups })).1,
          (lock_reply E K D mode (ev.response_code == E.OK) ev
            (lock_before_send mode sequencerp
              { handle_state := hs, sequencer := sequencer, status := 0,
                handle_wakeups := handle_wakeups })).2,
          after_reply (Request.lock_request handle mode false) rs s1) := by
  unfold lock
  simp only [hreg, hfree, ne_eq, not_true_eq_false, if_false]
  rw [try_again_accepted E K _ _ _ _ rest _ s s1 ev rs hw hr]

/-- The same for `try_lock`, which does nothing before the submission. -/
theorem try_lock_accepted (E : ErrorCodes) (K : Constants) (D : Serialization)
    (handle mode status : Nat) (sequencer : LockSequencer)
    (rest : List Int) (reg : HandleMap)
    (s s1 : Session) (ev : Event) (rs : List Event) (hs : ClientHandleState)
    (hreg : get_handle_state reg handle = some hs) (hfree : hs.lock_status = 0)
    (hw : wait_for_safe K s = (some true, s1)) (hr : s1.replies = ev :: rs) :
    try_lock E K D handle mode status sequencer (E.OK :: rest) reg s =
      write_back reg handle
        ((try_lock_reply K D mode (ev.response_code == E.OK) ev
            { handle_state := hs, sequencer := sequencer, status := status,
              handle_wakeups := [] }).1,
          (try_lock_reply K D mode (ev.response_code == E.OK) ev
            { handle_state := hs, sequencer := sequencer, status := status,
              handle_wakeups := [] }).2,
          after_reply (Request.lock_request handle mode true) rs s1) := by
  unfold try_lock
  simp only [hreg, hfree, ne_eq, not_true_eq_false, if_false]
  rw [try_again_accepted E K _ _ _ _ rest _ s s1 ev rs hw hr]
  rfl

end Session

end Hyperspace

namespace Hyperspace

open Hypertable

namespace Session

/-- A PENDING reply while every wake-up on the handle still finds PENDING: the
call is blocked, and the handle is marked PENDING. -/
theorem lock_reply_pending_blocked (E : ErrorCodes) (K : Constants) (D : Serialization)
    (mode : Nat) (ev : Event) (f : LockFrame) (r1 : List Byte)
    (hstatus : D.decode_i32 ev.payload = Except.ok (K.LOCK_STATUS_PENDING, r1))
    (hpend : ∀ x ∈ f.handle_wakeups, x.handle_state.lock_status = K.LOCK_STATUS_PENDING) :
    (lock_reply E K D mode true ev f).1 = Result.blocked ∧
    (lock_reply E K D mode true ev f).2.handle_state.lock_status =
      K.LOCK_STATUS_PENDING ∧
    (f.handle_wakeups = [] →
      (lock_reply E K D mode true ev f).2.handle_state =
        { f.handle_state with lock_mode := mode, lock_status := K.LOCK_STATUS_PENDING }) := by
  have hne : ¬ K.LOCK_STATUS_PENDING = K.LOCK_STATUS_GRANTED :=
    fun h => K.granted_ne_pending h.symm
  have hwait := wait_while_pending_all K f.handle_wakeups
    { f.handle_state with lock_mode := mode, lock_status := K.LOCK_STATUS_PENDING }
    f.sequencer rfl hpend
  simp only [lock_reply, Bool.true_eq_false, if_false, hstatus, hne, ne_eq,
    not_true_eq_false]
  generalize wait_while_pending K f.handle_wakeups
    { f.handle_state with lock_mode := mode, lock_status := K.LOCK_STATUS_PENDING }
    f.sequencer = r at hwait
  obtain ⟨b, hs2, seq2, wk2⟩ := r
  simp only at hwait
  obtain ⟨hb, hp, hnil⟩ := hwait
  subst hb
  exact ⟨rfl, hp, fun h => hnil h⟩

/-- A PENDING reply followed by wake-ups of which `w` is the first to find a
status other than PENDING: the call goes on from what `w` finds. -/
theorem lock_reply_pending_resolved (E : ErrorCodes) (K : Constants) (D : Serialization)
    (mode : Nat) (ev : Event) (f : LockFrame) (r1 : List Byte)
    (pend : List HandleWakeup) (w : HandleWakeup) (later : List HandleWakeup)
    (hstatus : D.decode_i32 ev.payload = Except.ok (K.LOCK_STATUS_PENDING, r1))
    (hwk : f.handle_wakeups = pend ++ w :: later)
    (hpend : ∀ x ∈ pend, x.handle_state.lock_status = K.LOCK_STATUS_PENDING)
    (hw : w.handle_state.lock_status ≠ K.LOCK_STATUS_PENDING) :
    lock_reply E K D mode true ev f =
      (if w.handle_state.lock_status = K.LOCK_STATUS_CANCELLED then
          Result.thrown (HT_THROW2 E.HYPERSPACE_REQUEST_CANCELLED
            (HT_THROW E.HYPERSPACE_REQUEST_CANCELLED [])
            "lock response decode error".toList)
        else if w.handle_state.lock_status ≠ K.LOCK_STATUS_GRANTED then Result.assert_failed
        else Result.returned (),
        { status := K.LOCK_STATUS_PENDING, handle_state := w.handle_state,
          sequencer := w.sequencer, handle_wakeups := later }) := by
  have hne : ¬ K.LOCK_STATUS_PENDING = K.LOCK_STATUS_GRANTED :=
    fun h => K.granted_ne_pending h.symm
  have hwait := wait_while_pending_resolved K pend w later hw
    { f.handle_state with lock_mode := mode, lock_status := K.LOCK_STATUS_PENDING }
    f.sequencer rfl hpend
  simp only [lock_reply, hstatus, Bool.true_eq_false, if_false, hne, ne_eq,
    not_true_eq_false, hwk, hwait]
  by_cases hc : w.handle_state.lock_status = K.LOCK_STATUS_CANCELLED
  · simp [hc, HT_THROW, HT_THROW2, Exception.code]
  · by_cases hg : w.handle_state.lock_status = K.LOCK_STATUS_GRANTED
    · simp [hg, K.granted_ne_cancelled]
    · simp [hc, hg]

end Session

end Hyperspace

namespace Hyperspace

open Hypertable

/-! ## The claims -/

/-- C1: `Session::normalize_name` follows the stated canonical form for every
name a `std::string` can hold: the literal `/` maps to `/`, any other name gets
a leading `/` when it has none and loses exactly one trailing `/` when it ends
with one, and nothing else changes.  The inputs `/`, `foo`, `/foo`, `/foo/`,
`//foo` map to `/`, `/foo`, `/foo`, `/foo`, `//foo`. -/
theorem normalize_name_canonical (name : StdString) (hlen : name.length ≤ SIZE_MAX) :
    normalize_name name = normalize_name_spec name ∧
    normalize_name "/".toList = "/".toList ∧
    normalize_name "foo".toList = "/foo".toList ∧
    normalize_name "/foo".toList = "/foo".toList ∧
    normalize_name "/foo/".toList = "/foo".toList ∧
    normalize_name "//foo".toList = "//foo".toList :=
  ⟨normalize_name_eq_spec name hlen, by decide, by decide, by decide, by decide, by decide⟩

/-- C1 at the name `a//b/`: the leading `/` is added, one trailing `/` goes,
the inner `//` stays. -/
theorem normalize_name_canonical_witness :
    "a//b/".toList.length ≤ SIZE_MAX ∧
    normalize_name "a//b/".toList = "/a//b".toList :=
  ⟨by decide, (normalize_name_canonical "a//b/".toList (by decide)).1.trans (by decide)⟩

/-- C2 fails as stated: `foo//` normalises to `/foo/`, which normalises to
`/foo`, so normalising twice differs from normalising once. -/
theorem normalize_name_not_idempotent :
    normalize_name "foo//".toList = "/foo/".toList ∧
    normalize_name (normalize_name "foo//".toList) = "/foo".toList ∧
    normalize_name (normalize_name "foo//".toList) ≠ normalize_name "foo//".toList := by
  decide

/-- C2 as amended: for a path `p`, normalising twice equals normalising once
exactly when `p` is `//` or does not end with `//`; so path normalisation is
idempotent on every path that does not end in two slashes. -/
theorem normalize_name_idempotent_iff (p : StdString) (hlen : p.length < SIZE_MAX) :
    (normalize_name (normalize_name p) = normalize_name p ↔
      (p = ['/', '/'] ∨ ¬ (['/', '/'] <:+ p))) ∧
    (¬ (['/', '/'] <:+ p) → normalize_name (normalize_name p) = normalize_name p) :=
  ⟨normalize_name_idem_iff p hlen, fun h => (normalize_name_idem_iff p hlen).mpr (Or.inr h)⟩

/-- C2 as amended, at the path `/foo/`. -/
theorem normalize_name_idempotent_iff_witness :
    "/foo/".toList.length < SIZE_MAX ∧
    normalize_name (normalize_name "/foo/".toList) = normalize_name "/foo/".toList :=
  ⟨by decide,
    (normalize_name_idempotent_iff "/foo/".toList (by decide)).2 (by decide)⟩

/-- C3, where the code departs from the claim: on an EXPIRED session `open`
and `create` do not fail.  They return normally, and the value they return as
the handle is the error code `HYPERSPACE_EXPIRED_SESSION` converted to
`uint64_t`; nothing is submitted and the registry is as before. -/
theorem open_returns_normally_when_expired (E : ErrorCodes) (K : Constants)
    (D : Serialization) (name : StdString) (flags : Nat) (callback : Option Nat)
    (init_attrs : List Attribute) (sends : List Int) (reg : HandleMap) (s : Session)
    (h : s.m_state = K.STATE_EXPIRED) :
    ((Session.open_name E K D name flags callback sends reg s).1 =
        Result.returned (to_uint64 E.HYPERSPACE_EXPIRED_SESSION) ∧
      (Session.open_name E K D name flags callback sends reg s).2.2 = s) ∧
    ((Session.create E K D name flags callback init_attrs sends reg s).1 =
        Result.returned (to_uint64 E.HYPERSPACE_EXPIRED_SESSION) ∧
      (Session.create E K D name flags callback init_attrs sends reg s).2.2 = s) := by
  unfold Session.open_name Session.create
  exact ⟨⟨(Session.open_state_of_expired E K D _ _ sends reg s h).1,
      (Session.open_state_of_expired E K D _ _ sends reg s h).2.2⟩,
    ⟨(Session.open_state_of_expired E K D _ _ sends reg s h).1,
      (Session.open_state_of_expired E K D _ _ sends reg s h).2.2⟩⟩

/-- C3 at a concrete input: `open("/foo", 0, no callback)` on an expired
session returns 196616, the sample value of the error code, as a handle. -/
theorem open_returns_normally_when_expired_witness :
    (sample_session 0 false [] []).m_state = sample_constants.STATE_EXPIRED ∧
    (Session.open_name sample_codes sample_constants sample_codec "/foo".toList 0 none []
        (fun _ => none) (sample_session 0 false [] [])).1 = Result.returned 196616 ∧
    (Session.open_name sample_codes sample_constants sample_codec "/foo".toList 0 none []
        (fun _ => none) (sample_session 0 false [] [])).2.2.requests = [] :=
  ⟨rfl,
    (open_returns_normally_when_expired sample_codes sample_constants sample_codec
      "/foo".toList 0 none [] [] (fun _ => none) (sample_session 0 false [] []) rfl).1.1,
    congrArg Session.requests
      (open_returns_normally_when_expired sample_codes sample_constants sample_codec
        "/foo".toList 0 none [] [] (fun _ => none) (sample_session 0 false [] []) rfl).1.2⟩

/-- C4 fails as stated: on an EXPIRED session `state_transition(SAFE)` sets
the state to SAFE, after which `mkdir` returns normally; and `status`, which
does not wait for SAFE, returns `OK` on an EXPIRED session when the transport
takes the request and the reply is `OK`. -/
theorem expired_is_not_terminal :
    (sample_session 0 true [] [ok_reply sample_codes]).m_state =
      sample_constants.STATE_EXPIRED ∧
    (state_transition sample_constants sample_constants.STATE_SAFE
      (sample_session 0 true [] [ok_reply sample_codes])).2.m_state ≠
        sample_constants.STATE_EXPIRED ∧
    (Session.mkdir sample_codes sample_constants "/a".toList [sample_codes.OK]
      (state_transition sample_constants sample_constants.STATE_SAFE
        (sample_session 0 true [] [ok_reply sample_codes])).2).1 = Result.returned () ∧
    (Session.status sample_codes [sample_codes.OK]
      (sample_session 0 true [] [ok_reply sample_codes])).1 = some sample_codes.OK :=
  ⟨rfl, by decide, rfl, rfl⟩

/-- C4 as amended: `state_transition(s)` sets the state to `s` whatever the
state was, so a session stays EXPIRED only as long as no other state is passed
to it; `state_transition(EXPIRED)` on an EXPIRED session keeps it EXPIRED and
fires no callback; and while the state is EXPIRED, `close`, `mkdir`, `unlink`,
`exists`, `attr_set`, `attr_get`, `attr_del`, `readdir`, `release` on a
registered handle, and `lock` and `try_lock` on a registered unlocked handle
throw `HYPERSPACE_EXPIRED_SESSION`, submit nothing and leave the session as it
is.  `status` does not wait for SAFE: it submits its request once, consumes no
wake-up, calls no `state_transition` and leaves the state EXPIRED; it returns
the code of `Comm::send_request` when the transport rejects the submission,
and the response code of the reply (`OK` for an `OK` reply) when it accepts. -/
theorem expired_session_behaviour (E : ErrorCodes) (K : Constants) (D : Serialization)
    (s : Session) (h : s.m_state = K.STATE_EXPIRED) :
    (∀ t, (state_transition K t s).2.m_state = t) ∧
    (state_transition K K.STATE_EXPIRED s).2.m_state = K.STATE_EXPIRED ∧
    (state_transition K K.STATE_EXPIRED s).2.callback_log = s.callback_log ∧
    (∀ handle sends, Session.close E K handle sends s = (expired_session E, (), s)) ∧
    (∀ name sends, Session.mkdir E K name sends s = (expired_session E, (), s)) ∧
    (∀ name sends, Session.unlink E K name sends s = (expired_session E, (), s)) ∧
    (∀ name sends, Session.exists_ E K D name sends s = (expired_session E, (), s)) ∧
    (∀ handle name value sends reg,
      Session.attr_set E K handle name value sends reg s = (expired_session E, reg, s)) ∧
    (∀ handle name value sends reg,
      Session.attr_get E K D handle name value sends reg s =
        (expired_session E, (reg, value), s)) ∧
    (∀ handle name sends reg,
      Session.attr_del E K handle name sends reg s = (expired_session E, reg, s)) ∧
    (∀ handle listing sends,
      Session.readdir E K D handle listing sends s = (expired_session E, listing, s)) ∧
    (∀ handle mode sequencerp sequencer handle_wakeups sends reg hs,
      get_handle_state reg handle = some hs → hs.lock_status = 0 →
      Session.lock E K D handle mode sequencerp sequencer handle_wakeups sends reg s =
        (expired_session E, (sequencer, 0), reg, s)) ∧
    (∀ handle mode status sequencer sends reg hs,
      get_handle_state reg handle = some hs → hs.lock_status = 0 →
      Session.try_lock E K D handle mode status sequencer sends reg s =
        (expired_session E, (sequencer, status), reg, s)) ∧
    (∀ handle sends reg hs, get_handle_state reg handle = some hs →
      Session.release E K handle sends reg s = (expired_session E, reg, s)) ∧
    (∀ sends, (Session.status E sends s).2.m_state = K.STATE_EXPIRED ∧
      (Session.status E sends s).2.wakeups = s.wakeups ∧
      (Session.status E sends s).2.transition_log = s.transition_log ∧
      (Session.status E sends s).2.callback_log = s.callback_log) ∧
    (∀ send_result rest, send_result ≠ E.OK →
      Session.status E (send_result :: rest) s =
        (some send_result, { s with requests := s.requests ++ [Request.status_request] })) ∧
    (∀ rest ev replies, s.replies = ev :: replies →
      Session.status E (E.OK :: rest) s =
        (some ev.response_code,
          { s with requests := s.requests ++ [Request.status_request],
                   replies := replies })) := by
  refine ⟨fun t => state_transition_m_state K t s, state_transition_m_state K _ s, ?_,
    fun handle sends => Session.close_of_expired E K handle sends s h,
    fun name sends => Session.mkdir_of_expired E K name sends s h,
    fun name sends => Session.unlink_of_expired E K name sends s h,
    fun name sends => Session.exists_of_expired E K D name sends s h,
    fun handle name value sends reg =>
      Session.attr_set_of_expired E K handle name value sends reg s h,
    fun handle name value sends reg =>
      Session.attr_get_of_expired E K D handle name value sends reg s h,
    fun handle name sends reg => Session.attr_del_of_expired E K handle name sends reg s h,
    fun handle listing sends => Session.readdir_of_expired E K D handle listing sends s h,
    fun handle mode sequencerp sequencer handle_wakeups sends reg hs hreg hfree =>
      Session.lock_of_expired E K D handle mode sequencerp sequencer handle_wakeups sends
        reg s hs hreg hfree h,
    fun handle mode status sequencer sends reg hs hreg hfree =>
      Session.try_lock_of_expired E K D handle mode status sequencer sends reg s hs hreg
        hfree h,
    fun handle sends reg hs hreg => Session.release_of_expired E K handle sends reg s hs hreg h,
    fun sends => ?_,
    fun send_result rest hrej => Session.status_of_rejected E send_result rest s hrej,
    fun rest ev replies hrep => Session.status_of_accepted E rest s ev replies hrep⟩
  · rw [state_transition_callback_log, h]
    simp [fired, K.expired_ne_safe, K.expired_ne_jeopardy]
  · rw [← h]
    exact Session.status_frame E sends s

/-- C4 as amended, on an expired sample session: `mkdir("/a")` throws and
leaves the session alone, even with a transport that would accept. -/
theorem expired_session_behaviour_witness :
    (sample_session 0 true [] [ok_reply sample_codes]).m_state =
      sample_constants.STATE_EXPIRED ∧
    Session.mkdir sample_codes sample_constants "/a".toList [sample_codes.OK]
        (sample_session 0 true [] [ok_reply sample_codes]) =
      (expired_session sample_codes, (), sample_session 0 true [] [ok_reply sample_codes]) :=
  ⟨rfl, (expired_session_behaviour sample_codes sample_constants sample_codec
    (sample_session 0 true [] [ok_reply sample_codes]) rfl).2.2.2.2.1 "/a".toList
      [sample_codes.OK]⟩

/-- C5: retry on send failure.  On a SAFE session, when the transport rejects
the first `k` submissions and accepts the next, each wake-up after a rejection
brings the session back to SAFE, and the reply is `OK`, then `mkdir` returns
normally; it has submitted the same request `k + 1` times and
`state_transition(JEOPARDY)` was called `k` times, each followed by the
recovery to SAFE.  With a callback installed and `k = 1` the callbacks fired
are `jeopardy()` then `safe()`.  The same holds of the retry loop of every
operation, whatever it does before submitting and with the reply. -/
theorem retry_on_send_failure {σ α : Type} (E : ErrorCodes) (K : Constants)
    (cbuf : Request) (on_expired : Result α) (before_send : σ → σ)
    (on_reply : Bool → Event → σ → Result α × σ) (st : σ) (name : StdString)
    (errs : List Int) (rest : List Int) (ws wrest : List Wakeup) (ev : Event)
    (rs : List Event) (s : Session)
    (hsafe : s.m_state = K.STATE_SAFE) (herr : ∀ e ∈ errs, e ≠ E.OK)
    (hws : ∀ w ∈ ws, w.state = K.STATE_SAFE) (hlen : ws.length = errs.length)
    (hwk : s.wakeups = ws ++ wrest) (hrep : s.replies = ev :: rs)
    (hok : ev.response_code = E.OK) :
    (∃ s', Session.mkdir E K name (errs ++ E.OK :: rest) s = (Result.returned (), (), s') ∧
      retried K (Request.mkdir_request (normalize_name name)) errs.length rs wrest s s' ∧
      (s'.transition_log.drop s.transition_log.length).count K.STATE_JEOPARDY = errs.length ∧
      (s.m_session_callback = true → errs.length = 1 →
        s'.callback_log = s.callback_log ++ [CallbackCall.jeopardy, CallbackCall.safe])) ∧
    (∃ s', try_again E K cbuf on_expired before_send on_reply (errs ++ E.OK :: rest) st s =
        ((on_reply true ev (before_send^[errs.length + 1] st)).1,
          (on_reply true ev (before_send^[errs.length + 1] st)).2, s') ∧
      retried K cbuf errs.length rs wrest s s') := by
  have hb : (ev.response_code == E.OK) = true := by simp [hok]
  constructor
  · obtain ⟨s', h1, h2⟩ := try_again_retries E K (Request.mkdir_request (normalize_name name))
      (expired_session E) id
      (Session.void_reply ("Hyperspace 'mkdir' error, name=".toList ++ normalize_name name))
      () errs rest ws wrest ev rs s hsafe herr hws hlen hwk hrep
    refine ⟨s', ?_, h2, ?_, ?_⟩
    · unfold Session.mkdir
      rw [h1, hb]
      rfl
    · rw [h2.2.2.1, List.drop_left]
      exact count_jeopardy_rounds K errs.length
    · intro hcb hone
      rw [h2.2.2.2.1, if_pos hcb, hone]
      rfl
  · obtain ⟨s', h1, h2⟩ := try_again_retries E K cbuf on_expired before_send on_reply st
      errs rest ws wrest ev rs s hsafe herr hws hlen hwk hrep
    exact ⟨s', by rw [h1, hb], h2⟩

/-- C5 on a sample session with a callback: the transport fails the first send
of `mkdir("/a")` and takes the second; the call returns, the request went out
twice, JEOPARDY was entered once, and `jeopardy()` then `safe()` fired. -/
theorem retry_on_send_failure_witness :
    ∃ s', Session.mkdir sample_codes sample_constants "/a".toList [5, 0]
        (sample_session 2 true [wakeup_at 101 2]
          [ok_reply sample_codes]) = (Result.returned (), (), s') ∧
      s'.requests = [Request.mkdir_request "/a".toList, Request.mkdir_request "/a".toList] ∧
      s'.transition_log = [1, 2] ∧
      s'.callback_log = [CallbackCall.jeopardy, CallbackCall.safe] := by
  obtain ⟨⟨s', h1, h2, _, h4⟩, _⟩ :=
    retry_on_send_failure sample_codes sample_constants Request.status_request
      (expired_session sample_codes) (id : Unit → Unit)
      (Session.void_reply []) () "/a".toList [5] []
      [wakeup_at 101 2] [] (ok_reply sample_codes) []
      (sample_session 2 true [wakeup_at 101 2]
        [ok_reply sample_codes])
      rfl (by decide) (by simp [sample_constants, wakeup_at]) rfl rfl rfl rfl
  exact ⟨s', h1, h2.2.1, h2.2.2.1, h4 rfl rfl⟩

/-- C6: reply-carried error codes are surfaced unmodified.  For each of
`open`, `create`, `close`, `mkdir`, `unlink`, `exists`, `attr_set`, `attr_get`,
`attr_del`, `readdir`, `lock`, `try_lock` and `release` (the last three on a
registered handle, unlocked for the two lock calls): when the wait for SAFE
has ended with the session `s1`, the transport takes the request and the reply
carries a code other than `OK`, the call throws exactly that code; the request
was submitted once and the session is otherwise as it was when the wait ended,
its state included. -/
theorem reply_error_surfaced (E : ErrorCodes) (K : Constants) (D : Serialization)
    (rest : List Int) (s s1 : Session) (ev : Event) (rs : List Event)
    (hw : wait_for_safe K s = (some true, s1)) (hr : s1.replies = ev :: rs)
    (hc : ev.response_code ≠ E.OK) :
    (∀ cbuf, (after_reply cbuf rs s1).m_state = s1.m_state ∧
      (after_reply cbuf rs s1).requests = s1.requests ++ [cbuf] ∧
      (after_reply cbuf rs s1).transition_log = s1.transition_log ∧
      (after_reply cbuf rs s1).callback_log = s1.callback_log) ∧
    (∀ name flags callback reg,
      throws_code (Session.open_name E K D name flags callback (E.OK :: rest) reg s).1
          ev.response_code ∧
        (Session.open_name E K D name flags callback (E.OK :: rest) reg s).2.2 =
          after_reply (Request.open_request (normalize_name name) flags callback []) rs s1) ∧
    (∀ name flags callback init_attrs reg,
      throws_code (Session.create E K D name flags callback init_attrs (E.OK :: rest) reg s).1
          ev.response_code ∧
        (Session.create E K D name flags callback init_attrs (E.OK :: rest) reg s).2.2 =
          after_reply (Request.open_request (normalize_name name)
            (flags ||| K.OPEN_FLAG_CREATE ||| K.OPEN_FLAG_EXCL) callback init_attrs) rs s1) ∧
    (∀ handle,
      throws_code (Session.close E K handle (E.OK :: rest) s).1 ev.response_code ∧
        (Session.close E K handle (E.OK :: rest) s).2.2 =
          after_reply (Request.close_request handle) rs s1) ∧
    (∀ name,
      throws_code (Session.mkdir E K name (E.OK :: rest) s).1 ev.response_code ∧
        (Session.mkdir E K name (E.OK :: rest) s).2.2 =
          after_reply (Request.mkdir_request (normalize_name name)) rs s1) ∧
    (∀ name,
      throws_code (Session.unlink E K name (E.OK :: rest) s).1 ev.response_code ∧
        (Session.unlink E K name (E.OK :: rest) s).2.2 =
          after_reply (Request.delete_request (normalize_name name)) rs s1) ∧
    (∀ name,
      throws_code (Session.exists_ E K D name (E.OK :: rest) s).1 ev.response_code ∧
        (Session.exists_ E K D name (E.OK :: rest) s).2.2 =
          after_reply (Request.exists_request (normalize_name name)) rs s1) ∧
    (∀ handle name value reg,
      throws_code (Session.attr_set E K handle name value (E.OK :: rest) reg s).1
          ev.response_code ∧
        (Session.attr_set E K handle name value (E.OK :: rest) reg s).2.2 =
          after_reply (Request.attr_set_request handle name value) rs s1) ∧
    (∀ handle name value reg,
      throws_code (Session.attr_get E K D handle name value (E.OK :: rest) reg s).1
          ev.response_code ∧
        (Session.attr_get E K D handle name value (E.OK :: rest) reg s).2.2 =
          after_reply (Request.attr_get_request handle name) rs s1) ∧
    (∀ handle name reg,
      throws_code (Session.attr_del E K handle name (E.OK :: rest) reg s).1
          ev.response_code ∧
        (Session.attr_del E K handle name (E.OK :: rest) reg s).2.2 =
          after_reply (Request.attr_del_request handle name) rs s1) ∧
    (∀ handle listing,
      throws_code (Session.readdir E K D handle listing (E.OK :: rest) s).1
          ev.response_code ∧
        (Session.readdir E K D handle listing (E.OK :: rest) s).2.2 =
          after_reply (Request.readdir_request handle) rs s1) ∧
    (∀ handle mode sequencerp sequencer handle_wakeups reg hs,
      get_handle_state reg handle = some hs → hs.lock_status = 0 →
      throws_code (Session.lock E K D handle mode sequencerp sequencer handle_wakeups
          (E.OK :: rest) reg s).1 ev.response_code ∧
        (Session.lock E K D handle mode sequencerp sequencer handle_wakeups
          (E.OK :: rest) reg s).2.2.2 =
          after_reply (Request.lock_request handle mode false) rs s1) ∧
    (∀ handle mode status sequencer reg hs,
      get_handle_state reg handle = some hs → hs.lock_status = 0 →
      throws_code (Session.try_lock E K D handle mode status sequencer
          (E.OK :: rest) reg s).1 ev.response_code ∧
        (Session.try_lock E K D handle mode status sequencer (E.OK :: rest) reg s).2.2.2 =
          after_reply (Request.lock_request handle mode true) rs s1) ∧
    (∀ handle reg hs, get_handle_state reg handle = some hs →
      throws_code (Session.release E K handle (E.OK :: rest) reg s).1 ev.response_code ∧
        (Session.release E K handle (E.OK :: rest) reg s).2.2 =
          after_reply (Request.release_request handle) rs s1) := by
  refine ⟨fun _ => ⟨rfl, rfl, rfl, rfl⟩, ?_, ?_, ?_, ?_, ?_, ?_, ?_, ?_, ?_, ?_, ?_, ?_, ?_⟩
  · intro name flags callback reg
    unfold Session.open_name Session.open_state
    exact try_again_error_reply E K _ _ _ _ rest _ s s1 ev rs hw hr hc
      (fun st => throws_code_thrown _ _)
  · intro name flags callback init_attrs reg
    unfold Session.create Session.open_state
    exact try_again_error_reply E K _ _ _ _ rest _ s s1 ev rs hw hr hc
      (fun st => throws_code_thrown _ _)
  · intro handle
    unfold Session.close
    exact try_again_error_reply E K _ _ _ _ rest _ s s1 ev rs hw hr hc
      (fun st => throws_code_thrown _ _)
  · intro name
    unfold Session.mkdir
    exact try_again_error_reply E K _ _ _ _ rest _ s s1 ev rs hw hr hc
      (fun st => throws_code_thrown _ _)
  · intro name
    unfold Session.unlink
    exact try_again_error_reply E K _ _ _ _ rest _ s s1 ev rs hw hr hc
      (fun st => throws_code_thrown _ _)
  · intro name
    unfold Session.exists_
    exact try_again_error_reply E K _ _ _ _ rest _ s s1 ev rs hw hr hc
      (fun st => throws_code_thrown _ _)
  · intro handle name value reg
    unfold Session.attr_set
    exact try_again_error_reply E K _ _ _ _ rest _ s s1 ev rs hw hr hc
      (fun st => throws_code_thrown _ _)
  · intro handle name value reg
    unfold Session.attr_get
    exact try_again_error_reply E K _ _ _ _ rest _ s s1 ev rs hw hr hc
      (fun st => throws_code_thrown _ _)
  · intro handle name reg
    unfold Session.attr_del
    exact try_again_error_reply E K _ _ _ _ rest _ s s1 ev rs hw hr hc
      (fun st => throws_code_thrown _ _)
  · intro handle listing
    unfold Session.readdir
    exact try_again_error_reply E K _ _ _ _ rest _ s s1 ev rs hw hr hc
      (fun st => throws_code_thrown _ _)
  · intro handle mode sequencerp sequencer handle_wakeups reg hs hreg hfree
    unfold Session.lock
    simp only [hreg, hfree, ne_eq, not_true_eq_false, if_false, Session.write_back]
    exact try_again_error_reply E K _ _ _ _ rest _ s s1 ev rs hw hr hc
      (fun st => throws_code_thrown _ _)
  · intro handle mode status sequencer reg hs hreg hfree
    unfold Session.try_lock
    simp only [hreg, hfree, ne_eq, not_true_eq_false, if_false, Session.write_back]
    exact try_again_error_reply E K _ _ _ _ rest _ s s1 ev rs hw hr hc
      (fun st => throws_code_thrown _ _)
  · intro handle reg hs hreg
    unfold Session.release
    simp only [hreg]
    exact try_again_error_reply E K _ _ _ _ rest _ s s1 ev rs hw hr hc
      (fun st => throws_code_thrown _ _)

/-- C6 on a SAFE sample session: the reply to `unlink("/gone")` carries the
code 196611, and the call throws 196611 after one submission, the state still
SAFE. -/
theorem reply_error_surfaced_witness :
    wait_for_safe sample_constants (sample_session 2 true [] [error_reply 196611]) =
      (some true, sample_session 2 true [] [error_reply 196611]) ∧
    (196611 : Int) ≠ sample_codes.OK ∧
    throws_code (Session.unlink sample_codes sample_constants "/gone".toList
      [sample_codes.OK] (sample_session 2 true []
        [error_reply 196611])).1 196611 ∧
    (Session.unlink sample_codes sample_constants "/gone".toList
      [sample_codes.OK] (sample_session 2 true []
        [error_reply 196611])).2.2.requests =
      [Request.delete_request "/gone".toList] ∧
    (Session.unlink sample_codes sample_constants "/gone".toList
      [sample_codes.OK] (sample_session 2 true []
        [error_reply 196611])).2.2.m_state = 2 :=
  ⟨rfl, by decide,
    ((reply_error_surfaced sample_codes sample_constants sample_codec []
      (sample_session 2 true [] [error_reply 196611])
      (sample_session 2 true [] [error_reply 196611])
      (error_reply 196611) [] rfl rfl (by decide)).2.2.2.2.2.1
        "/gone".toList).1,
    rfl, rfl⟩

/-- C7: `lock` and `try_lock` require an unlocked handle.  On a registered
handle whose `lock_status` is not 0 they throw `HYPERSPACE_ALREADY_LOCKED`; on
a handle that is not registered they throw `HYPERSPACE_INVALID_HANDLE`.  In
both cases nothing is submitted: the session, the registry with the handle
state, and the caller's sequencer and status are as before. -/
theorem lock_requires_unlocked_handle (E : ErrorCodes) (K : Constants) (D : Serialization)
    (handle mode sequencerp status : Nat) (sequencer : LockSequencer)
    (handle_wakeups : List HandleWakeup) (sends : List Int) (reg : HandleMap)
    (s : Session) :
    (∀ hs, get_handle_state reg handle = some hs → hs.lock_status ≠ 0 →
      Session.lock E K D handle mode sequencerp sequencer handle_wakeups sends reg s =
        (Result.thrown (HT_THROW E.HYPERSPACE_ALREADY_LOCKED []), (sequencer, 0), reg, s) ∧
      Session.try_lock E K D handle mode status sequencer sends reg s =
        (Result.thrown (HT_THROW E.HYPERSPACE_ALREADY_LOCKED []), (sequencer, status),
          reg, s)) ∧
    (get_handle_state reg handle = none →
      Session.lock E K D handle mode sequencerp sequencer handle_wakeups sends reg s =
        (Result.thrown (HT_THROW E.HYPERSPACE_INVALID_HANDLE []), (sequencer, 0), reg, s) ∧
      Session.try_lock E K D handle mode status sequencer sends reg s =
        (Result.thrown (HT_THROW E.HYPERSPACE_INVALID_HANDLE []), (sequencer, status),
          reg, s)) := by
  constructor
  · intro hs hreg hlocked
    unfold Session.lock Session.try_lock
    simp only [hreg, ne_eq, hlocked, not_false_eq_true, if_true, and_self]
  · intro hreg
    unfold Session.lock Session.try_lock
    simp only [hreg, and_self]

/-- C7 on a sample registry whose handle 7 holds a granted lock: `lock` throws
`HYPERSPACE_ALREADY_LOCKED` (196622) and the request log stays empty; on the
unregistered handle 8 it throws `HYPERSPACE_INVALID_HANDLE` (196619). -/
theorem lock_requires_unlocked_handle_witness :
    (Session.lock sample_codes sample_constants sample_codec 7 2 0 blank_sequencer []
      [sample_codes.OK] (sample_registry 7 (sample_handle_state 7 1 5))
      (sample_session 2 false [] [])).1 = Result.thrown (HT_THROW 196622 []) ∧
    (Session.lock sample_codes sample_constants sample_codec 7 2 0 blank_sequencer []
      [sample_codes.OK] (sample_registry 7 (sample_handle_state 7 1 5))
      (sample_session 2 false [] [])).2.2.2.requests = [] ∧
    (Session.lock sample_codes sample_constants sample_codec 8 2 0 blank_sequencer []
      [sample_codes.OK] (sample_registry 7 (sample_handle_state 7 1 5))
      (sample_session 2 false [] [])).1 = Result.thrown (HT_THROW 196619 []) :=
  ⟨congrArg Prod.fst
      ((lock_requires_unlocked_handle sample_codes sample_constants sample_codec 7 2 0 0
        blank_sequencer [] [sample_codes.OK] (sample_registry 7 (sample_handle_state 7 1 5))
        (sample_session 2 false [] [])).1 (sample_handle_state 7 1 5) rfl (by decide)).1,
    rfl, rfl⟩

/-- C8 fails as stated: an `OK` reply to `try_lock` with status GRANTED and
generation 0 leaves the handle with `lock_status == GRANTED` and
`lock_generation == 0`, so GRANTED does not imply `lock_generation > 0`; the
client stores whatever generation the reply carries. -/
theorem granted_with_generation_zero :
    (Session.try_lock sample_codes sample_constants sample_codec 7 2 0 blank_sequencer
      [sample_codes.OK] (sample_registry 7 (sample_handle_state 7 0 0))
      (sample_session 2 false [] [lock_reply_event 1 0])).1 = Result.returned () ∧
    (get_handle_state (Session.try_lock sample_codes sample_constants sample_codec 7 2 0
      blank_sequencer [sample_codes.OK] (sample_registry 7 (sample_handle_state 7 0 0))
      (sample_session 2 false [] [lock_reply_event 1 0])).2.2.1 7).map
        (fun hs => (hs.lock_status, hs.lock_generation)) =
      some (sample_constants.LOCK_STATUS_GRANTED, 0) ∧
    ¬ (0 < 0) :=
  ⟨rfl, rfl, by decide⟩

/-- C8 as amended: when `lock` or `try_lock` (on a registered unlocked handle)
gets an `OK` reply whose status is GRANTED with generation `g`, it returns
normally, the handle state has `lock_status = GRANTED`, `lock_mode` = the
requested mode and `lock_generation = g`, and the caller's sequencer is the
handle's normalised name, the requested mode and generation `g`.  So after
such a call GRANTED comes with `lock_generation` equal to the sequencer's
generation, and `lock_generation > 0` exactly when the generation `g` of the
reply is. -/
theorem lock_grant_bookkeeping (E : ErrorCodes) (K : Constants) (D : Serialization)
    (handle mode sequencerp status : Nat) (sequencer : LockSequencer)
    (handle_wakeups : List HandleWakeup) (rest : List Int) (reg : HandleMap)
    (s s1 : Session) (ev : Event) (rs : List Event) (hs : ClientHandleState)
    (g : Nat) (r1 r2 : List Byte)
    (hreg : get_handle_state reg handle = some hs) (hfree : hs.lock_status = 0)
    (hw : wait_for_safe K s = (some true, s1)) (hr : s1.replies = ev :: rs)
    (hok : ev.response_code = E.OK)
    (hstatus : D.decode_i32 ev.payload = Except.ok (K.LOCK_STATUS_GRANTED, r1))
    (hgen : D.decode_i64 r1 = Except.ok (g, r2)) :
    ((Session.lock E K D handle mode sequencerp sequencer handle_wakeups (E.OK :: rest)
        reg s).1 = Result.returned () ∧
      (Session.lock E K D handle mode sequencerp sequencer handle_wakeups (E.OK :: rest)
        reg s).2.1.1 = { name := hs.normal_name, mode := mode, generation := g } ∧
      ∃ hs', get_handle_state (Session.lock E K D handle mode sequencerp sequencer
          handle_wakeups (E.OK :: rest) reg s).2.2.1 handle = some hs' ∧
        hs'.lock_status = K.LOCK_STATUS_GRANTED ∧ hs'.lock_mode = mode ∧
        hs'.lock_generation = g ∧ hs'.normal_name = hs.normal_name ∧
        (0 < hs'.lock_generation ↔ 0 < g)) ∧
    ((Session.try_lock E K D handle mode status sequencer (E.OK :: rest) reg s).1 =
        Result.returned () ∧
      (Session.try_lock E K D handle mode status sequencer (E.OK :: rest) reg s).2.1.1 =
        { name := hs.normal_name, mode := mode, generation := g } ∧
      ∃ hs', get_handle_state (Session.try_lock E K D handle mode status sequencer
          (E.OK :: rest) reg s).2.2.1 handle = some hs' ∧
        hs'.lock_status = K.LOCK_STATUS_GRANTED ∧ hs'.lock_mode = mode ∧
        hs'.lock_generation = g ∧ hs'.normal_name = hs.normal_name ∧
        (0 < hs'.lock_generation ↔ 0 < g)) := by
  have hb : (ev.response_code == E.OK) = true := by simp [hok]
  constructor
  · rw [Session.lock_accepted E K D handle mode sequencerp sequencer handle_wakeups rest reg
      s s1 ev rs hs hreg hfree hw hr, hb]
    simp [Session.lock_reply, Session.lock_before_send, Session.write_back, hstatus,
      hgen, get_update_handle]
  · rw [Session.try_lock_accepted E K D handle mode status sequencer rest reg
      s s1 ev rs hs hreg hfree hw hr, hb]
    simp [Session.try_lock_reply, Session.write_back, hstatus,
      hgen, get_update_handle]

/-- C8 as amended, on a sample session: the reply grants the exclusive lock on
handle 7 with generation 9. -/
theorem lock_grant_bookkeeping_witness :
    get_handle_state (sample_registry 7 (sample_handle_state 7 0 0)) 7 =
      some (sample_handle_state 7 0 0) ∧
    sample_codec.decode_i32 (lock_reply_event 1 9).payload =
      Except.ok (sample_constants.LOCK_STATUS_GRANTED, [9, 0, 0, 0, 0, 0, 0, 0]) ∧
    sample_codec.decode_i64 [9, 0, 0, 0, 0, 0, 0, 0] = Except.ok (9, []) ∧
    (Session.lock sample_codes sample_constants sample_codec 7 2 0 blank_sequencer []
      [sample_codes.OK] (sample_registry 7 (sample_handle_state 7 0 0))
      (sample_session 2 false [] [lock_reply_event 1 9])).2.1.1 =
        { name := "/lockfile".toList, mode := 2, generation := 9 } :=
  ⟨rfl, rfl, rfl,
    (lock_grant_bookkeeping sample_codes sample_constants sample_codec 7 2 0 0
      blank_sequencer [] [] (sample_registry 7 (sample_handle_state 7 0 0))
      (sample_session 2 false [] [lock_reply_event 1 9])
      (sample_session 2 false [] [lock_reply_event 1 9]) (lock_reply_event 1 9) []
      (sample_handle_state 7 0 0) 9 [9, 0, 0, 0, 0, 0, 0, 0] [] rfl rfl rfl rfl rfl rfl
      rfl).1.2.1⟩

/-- C9: pending lock resolution.  When `lock` (on a registered unlocked
handle) gets an `OK` reply with status PENDING, it marks the handle PENDING
and does not return while the wake-ups on the handle find PENDING.  When a
wake-up finds another status, the call ends: with
`HYPERSPACE_REQUEST_CANCELLED` as the code of the exception it throws if the
status is CANCELLED (the code is that of the exception thrown inside the
handler, which the handler rethrows), and normally if it is GRANTED. -/
theorem pending_lock_resolution (E : ErrorCodes) (K : Constants) (D : Serialization)
    (handle mode sequencerp : Nat) (sequencer : LockSequencer)
    (rest : List Int) (reg : HandleMap)
    (s s1 : Session) (ev : Event) (rs : List Event) (hs : ClientHandleState)
    (r1 : List Byte) (pend : List HandleWakeup) (w : HandleWakeup)
    (later : List HandleWakeup)
    (hreg : get_handle_state reg handle = some hs) (hfree : hs.lock_status = 0)
    (hw : wait_for_safe K s = (some true, s1)) (hr : s1.replies = ev :: rs)
    (hok : ev.response_code = E.OK)
    (hstatus : D.decode_i32 ev.payload = Except.ok (K.LOCK_STATUS_PENDING, r1))
    (hpend : ∀ x ∈ pend, x.handle_state.lock_status = K.LOCK_STATUS_PENDING) :
    ((Session.lock E K D handle mode sequencerp sequencer pend (E.OK :: rest) reg s).1 =
        Result.blocked ∧
      ∃ hs', get_handle_state (Session.lock E K D handle mode sequencerp sequencer pend
          (E.OK :: rest) reg s).2.2.1 handle = some hs' ∧
        hs'.lock_status = K.LOCK_STATUS_PENDING) ∧
    (w.handle_state.lock_status = K.LOCK_STATUS_CANCELLED →
      throws_code (Session.lock E K D handle mode sequencerp sequencer
        (pend ++ w :: later) (E.OK :: rest) reg s).1 E.HYPERSPACE_REQUEST_CANCELLED) ∧
    (w.handle_state.lock_status = K.LOCK_STATUS_GRANTED →
      (Session.lock E K D handle mode sequencerp sequencer
        (pend ++ w :: later) (E.OK :: rest) reg s).1 = Result.returned () ∧
      get_handle_state (Session.lock E K D handle mode sequencerp sequencer
        (pend ++ w :: later) (E.OK :: rest) reg s).2.2.1 handle = some w.handle_state) := by
  have hb : (ev.response_code == E.OK) = true := by simp [hok]
  refine ⟨?_, ?_, ?_⟩
  · rw [Session.lock_accepted E K D handle mode sequencerp sequencer pend rest reg
      s s1 ev rs hs hreg hfree hw hr, hb]
    have hblk := Session.lock_reply_pending_blocked E K D mode ev
      (Session.lock_before_send mode sequencerp
        { handle_state := hs, sequencer := sequencer, status := 0, handle_wakeups := pend })
      r1 hstatus hpend
    exact ⟨hblk.1, _, get_update_handle _ _ _, hblk.2.1⟩
  · intro hc
    have hne : w.handle_state.lock_status ≠ K.LOCK_STATUS_PENDING := by
      rw [hc]; exact fun h => K.pending_ne_cancelled h.symm
    rw [Session.lock_accepted E K D handle mode sequencerp sequencer (pend ++ w :: later)
      rest reg s s1 ev rs hs hreg hfree hw hr, hb,
      Session.lock_reply_pending_resolved E K D mode ev _ r1 pend w later hstatus rfl hpend
        hne]
    simp only [Session.write_back, hc, if_true]
    exact ⟨_, rfl, rfl⟩
  · intro hg
    have hne : w.handle_state.lock_status ≠ K.LOCK_STATUS_PENDING := by
      rw [hg]; exact K.granted_ne_pending
    rw [Session.lock_accepted E K D handle mode sequencerp sequencer (pend ++ w :: later)
      rest reg s s1 ev rs hs hreg hfree hw hr, hb,
      Session.lock_reply_pending_resolved E K D mode ev _ r1 pend w later hstatus rfl hpend
        hne]
    simp [Session.write_back, hg, K.granted_ne_cancelled, get_update_handle]

/-- C9 on a sample session: the reply to `lock` on handle 7 is PENDING, the
first wake-up still finds PENDING (3), the second finds CANCELLED (4), and the
call throws `HYPERSPACE_REQUEST_CANCELLED` (196620). -/
theorem pending_lock_resolution_witness :
    sample_codec.decode_i32 (status_reply_event 3).payload =
      Except.ok (sample_constants.LOCK_STATUS_PENDING, []) ∧
    (handle_wakeup 7 4 0).handle_state.lock_status = sample_constants.LOCK_STATUS_CANCELLED ∧
    throws_code (Session.lock sample_codes sample_constants sample_codec 7 2 0
      blank_sequencer ([handle_wakeup 7 3 0] ++ handle_wakeup 7 4 0 :: [])
      [sample_codes.OK] (sample_registry 7 (sample_handle_state 7 0 0))
      (sample_session 2 false [] [status_reply_event 3])).1 196620 :=
  ⟨rfl, rfl,
    (pending_lock_resolution sample_codes sample_constants sample_codec 7 2 0
      blank_sequencer [] (sample_registry 7 (sample_handle_state 7 0 0))
      (sample_session 2 false [] [status_reply_event 3])
      (sample_session 2 false [] [status_reply_event 3]) (status_reply_event 3) []
      (sample_handle_state 7 0 0) [] [handle_wakeup 7 3 0] (handle_wakeup 7 4 0) []
      rfl rfl rfl rfl rfl rfl (by simp [handle_wakeup, sample_handle_state,
        sample_constants])).2.1 rfl⟩

/-- C10: `try_lock` is non-blocking and materialises a grant at once.  On a
registered unlocked handle, for an `OK` reply that carries the status `st`:
if `st` is GRANTED and the reply carries the generation `g`, the call returns
with `st` in the caller's status variable and the handle marked GRANTED with
generation `g`; for every other status the call returns with `st` in the
status variable, and the registry (so the handle's `lock_status`, which is 0
and not PENDING, its `lock_mode` and its `lock_generation`) and the caller's
sequencer are as before.  In neither case does the call wait on the handle. -/
theorem try_lock_reports_status (E : ErrorCodes) (K : Constants) (D : Serialization)
    (handle mode status : Nat) (sequencer : LockSequencer)
    (rest : List Int) (reg : HandleMap)
    (s s1 : Session) (ev : Event) (rs : List Event) (hs : ClientHandleState)
    (st : Nat) (r1 : List Byte)
    (hreg : get_handle_state reg handle = some hs) (hfree : hs.lock_status = 0)
    (hw : wait_for_safe K s = (some true, s1)) (hr : s1.replies = ev :: rs)
    (hok : ev.response_code = E.OK)
    (hstatus : D.decode_i32 ev.payload = Except.ok (st, r1)) :
    (st = K.LOCK_STATUS_GRANTED → ∀ g r2, D.decode_i64 r1 = Except.ok (g, r2) →
      (Session.try_lock E K D handle mode status sequencer (E.OK :: rest) reg s).1 =
        Result.returned () ∧
      (Session.try_lock E K D handle mode status sequencer (E.OK :: rest) reg s).2.1.2 =
        st ∧
      ∃ hs', get_handle_state (Session.try_lock E K D handle mode status sequencer
          (E.OK :: rest) reg s).2.2.1 handle = some hs' ∧
        hs'.lock_status = K.LOCK_STATUS_GRANTED ∧ hs'.lock_generation = g) ∧
    (st ≠ K.LOCK_STATUS_GRANTED →
      Session.try_lock E K D handle mode status sequencer (E.OK :: rest) reg s =
        (Result.returned (), (sequencer, st), reg,
          after_reply (Request.lock_request handle mode true) rs s1) ∧
      get_handle_state reg handle = some hs ∧ hs.lock_status = 0 ∧
      hs.lock_status ≠ K.LOCK_STATUS_PENDING) := by
  have hb : (ev.response_code == E.OK) = true := by simp [hok]
  constructor
  · intro hg g r2 hgen
    subst hg
    rw [Session.try_lock_accepted E K D handle mode status sequencer rest reg
      s s1 ev rs hs hreg hfree hw hr, hb]
    simp [Session.try_lock_reply, Session.write_back, hstatus, hgen, get_update_handle]
  · intro hng
    refine ⟨?_, hreg, hfree, ?_⟩
    · rw [Session.try_lock_accepted E K D handle mode status sequencer rest reg
        s s1 ev rs hs hreg hfree hw hr, hb]
      simp [Session.try_lock_reply, Session.write_back, hstatus, hng,
        update_handle_self reg handle hs hreg]
    · rw [hfree]
      exact fun h => K.pending_ne_zero h.symm

/-- C10 on a sample session: the reply to `try_lock` carries the status 2 (the
lock is busy); the call returns, reports 2, and the handle is still unlocked. -/
theorem try_lock_reports_status_witness :
    sample_codec.decode_i32 (status_reply_event 2).payload = Except.ok (2, []) ∧
    (2 : Nat) ≠ sample_constants.LOCK_STATUS_GRANTED ∧
    (Session.try_lock sample_codes sample_constants sample_codec 7 2 0 blank_sequencer
      [sample_codes.OK] (sample_registry 7 (sample_handle_state 7 0 0))
      (sample_session 2 false [] [status_reply_event 2])).2.1 = (blank_sequencer, 2) ∧
    (get_handle_state (Session.try_lock sample_codes sample_constants sample_codec 7 2 0
      blank_sequencer [sample_codes.OK] (sample_registry 7 (sample_handle_state 7 0 0))
      (sample_session 2 false [] [status_reply_event 2])).2.2.1 7).map
        (fun hs => hs.lock_status) = some 0 :=
  ⟨rfl, by decide,
    congrArg (fun r => r.2.1)
      ((try_lock_reports_status sample_codes sample_constants sample_codec 7 2 0
        blank_sequencer [] (sample_registry 7 (sample_handle_state 7 0 0))
        (sample_session 2 false [] [status_reply_event 2])
        (sample_session 2 false [] [status_reply_event 2]) (status_reply_event 2) []
        (sample_handle_state 7 0 0) 2 [] rfl rfl rfl rfl rfl rfl).2 (by decide)).1,
    rfl⟩

end Hyperspace

namespace Hyperspace

open Hypertable

/-! ## Release, sequencers and expiry: lemmas -/

namespace Session

/-- The call `release` on a registered handle, once the wait for SAFE has ended
and the transport has taken the request. -/
theorem release_accepted (E : ErrorCodes) (K : Constants) (handle : Nat)
    (rest : List Int) (reg : HandleMap) (s s1 : Session) (ev : Event) (rs : List Event)
    (hs : ClientHandleState) (hreg : get_handle_state reg handle = some hs)
    (hw : wait_for_safe K s = (some true, s1)) (hr : s1.replies = ev :: rs) :
    release E K handle (E.OK :: rest) reg s =
      ((release_reply (ev.response_code == E.OK) ev hs).1,
        update_handle reg handle (release_reply (ev.response_code == E.OK) ev hs).2,
        after_reply (Request.release_request handle) rs s1) := by
  unfold release
  simp only [hreg]
  rw [try_again_accepted E K _ _ _ _ rest _ s s1 ev rs hw hr]
  rfl

end Session

theorem to_int32_of_small (i : Int) (h1 : -2147483648 ≤ i) (h2 : i < 2147483648) :
    to_int32 i = i := by
  unfold to_int32
  omega

/-- For clock readings `xtime_cmp` is negative exactly when its first argument
is the earlier time. -/
theorem xtime_cmp_neg_iff (a b : xtime) (ha : xtime_valid a) (hb : xtime_valid b) :
    xtime_cmp a b < 0 ↔ xtime_before a b := by
  unfold xtime_valid at ha hb
  unfold xtime_cmp xtime_before
  by_cases hsec : a.sec = b.sec
  · rw [if_pos hsec, to_int32_of_small _ (by omega) (by omega)]
    constructor
    · intro h
      exact Or.inr ⟨hsec, by omega⟩
    · rintro (h | ⟨_, h⟩)
      · omega
      · omega
  · rw [if_neg hsec]
    by_cases hgt : a.sec > b.sec
    · rw [if_pos hgt]
      constructor
      · intro h
        omega
      · rintro (h | ⟨h, _⟩)
        · omega
        · exact absurd h hsec
    · rw [if_neg hgt]
      constructor
      · intro _
        exact Or.inl (by omega)
      · intro _
        omega

end Hyperspace

namespace Hypertable

namespace Error

/-! ## The error texts: lemmas -/

theorem get_text_fst (error : Int) (map : TextMap) :
    (get_text error map).1 = (TextMap.text map error).getD "ERROR NOT REGISTERED".toList := by
  unfold get_text TextMap.index TextMap.text
  cases h : map error with
  | none => simp
  | some text => cases text <;> simp

theorem get_text_keeps_text (error key : Int) (map : TextMap) :
    TextMap.text (get_text error map).2 key = TextMap.text map key := by
  unfold get_text TextMap.index TextMap.text
  cases h : map error with
  | none =>
    by_cases hk : key = error
    · simp [TextMap.assign, hk, h]
    · simp [TextMap.assign, hk]
  | some text => cases text <;> simp

theorem after_lookups_keeps_text (lookups : List Int) (key : Int) :
    ∀ map : TextMap, TextMap.text (after_lookups lookups map) key = TextMap.text map key := by
  induction lookups with
  | nil => intro map; rfl
  | cons k ks ih =>
    intro map
    show TextMap.text (after_lookups ks (get_text k map).2) key = _
    rw [ih, get_text_keeps_text]

theorem foldl_assign_of_unlisted (value : Code → Int) (entries : List (Code × List Char))
    (key : Int) (h : ∀ e ∈ entries, value e.1 ≠ key) :
    ∀ map : TextMap,
      (entries.foldl (fun map e => TextMap.assign map (value e.1) (some e.2)) map) key =
        map key := by
  induction entries with
  | nil => intro map; rfl
  | cons e es ih =>
    intro map
    rw [List.foldl_cons, ih (fun x hx => h x (List.mem_cons_of_mem _ hx))]
    have hne : ¬ key = value e.1 := fun hk => h e (List.mem_cons_self _ _) hk.symm
    simp [TextMap.assign, hne]

theorem foldl_assign_of_listed (value : Code → Int) (hinj : Function.Injective value)
    (entries : List (Code × List Char)) (hnd : (entries.map Prod.fst).Nodup)
    (c : Code) (t : List Char) (hmem : (c, t) ∈ entries) :
    ∀ map : TextMap,
      (entries.foldl (fun map e => TextMap.assign map (value e.1) (some e.2)) map) (value c) =
        some (some t) := by
  induction entries with
  | nil => exact absurd hmem (List.not_mem_nil _)
  | cons e es ih =>
    intro map
    rw [List.map_cons, List.nodup_cons] at hnd
    rw [List.foldl_cons]
    rcases List.mem_cons.mp hmem with heq | hin
    · subst heq
      rw [foldl_assign_of_unlisted value es (value c)]
      · simp [TextMap.assign]
      · intro x hx hv
        have hc : x.1 = c := hinj hv
        have hx2 : x.1 ∈ es.map Prod.fst := List.mem_map_of_mem Prod.fst hx
        rw [hc] at hx2
        exact hnd.1 hx2
    · exact ih hnd.2 hin _

theorem error_info_nodup : (error_info.map Prod.fst).Nodup := by
  decide

theorem sample_numbering_injective : Function.Injective sample_numbering := by
  intro a b h
  unfold sample_numbering at h
  have h2 : a.toCtorIdx = b.toCtorIdx := by omega
  rw [← Code.ofNat_toCtorIdx a, ← Code.ofNat_toCtorIdx b, h2]

theorem sample_numbering_lt (c : Code) : sample_numbering c < 101 := by
  cases c <;> decide

end Error

end Hypertable

namespace Hyperspace

open Hypertable

/-! ## The claims, continued -/

/-- C11: `release` clears only the lock status.  On a registered handle, once
the request has been taken: after an `OK` reply the call returns, the handle's
`lock_status` is 0 and its `lock_mode` and `lock_generation` are what they
were, so that `get_sequencer` on a handle whose generation `g` is not 0 still
returns generation `g`; after a reply that carries an error code the call
throws that code and the registry, `lock_status` included, is as before. -/
theorem release_clears_lock_status (E : ErrorCodes) (K : Constants) (handle : Nat)
    (rest : List Int) (reg : HandleMap) (s s1 : Session) (ev : Event) (rs : List Event)
    (hs : ClientHandleState) (hreg : get_handle_state reg handle = some hs)
    (hw : wait_for_safe K s = (some true, s1)) (hr : s1.replies = ev :: rs) :
    (ev.response_code = E.OK →
      (Session.release E K handle (E.OK :: rest) reg s).1 = Result.returned () ∧
      (∃ hs', get_handle_state (Session.release E K handle (E.OK :: rest) reg s).2.1
          handle = some hs' ∧
        hs'.lock_status = 0 ∧ hs'.lock_mode = hs.lock_mode ∧
        hs'.lock_generation = hs.lock_generation) ∧
      (hs.lock_generation ≠ 0 → ∀ sequencer,
        Session.get_sequencer E handle sequencer
            (Session.release E K handle (E.OK :: rest) reg s).2.1 =
          (Result.returned (),
            { name := hs.normal_name, mode := hs.lock_mode,
              generation := hs.lock_generation }))) ∧
    (ev.response_code ≠ E.OK →
      throws_code (Session.release E K handle (E.OK :: rest) reg s).1 ev.response_code ∧
      (Session.release E K handle (E.OK :: rest) reg s).2.1 = reg) := by
  rw [Session.release_accepted E K handle rest reg s s1 ev rs hs hreg hw hr]
  constructor
  · intro hok
    have hb : (ev.response_code == E.OK) = true := by simp [hok]
    rw [hb]
    refine ⟨rfl, ⟨_, get_update_handle _ _ _, rfl, rfl, rfl⟩, ?_⟩
    intro hg sequencer
    simp [Session.get_sequencer, Session.release_reply, get_update_handle, hg]
  · intro herr
    have hb : (ev.response_code == E.OK) = false := by simpa using herr
    rw [hb]
    exact ⟨throws_code_thrown _ _, update_handle_self reg handle hs hreg⟩

/-- C11 on a sample session: handle 7 holds a granted lock of generation 5;
after `release` gets its `OK` reply the status is 0 and `get_sequencer` still
returns generation 5. -/
theorem release_clears_lock_status_witness :
    get_handle_state (sample_registry 7 (sample_handle_state 7 1 5)) 7 =
      some (sample_handle_state 7 1 5) ∧
    (get_handle_state (Session.release sample_codes sample_constants 7 [sample_codes.OK]
      (sample_registry 7 (sample_handle_state 7 1 5))
      (sample_session 2 false [] [ok_reply sample_codes])).2.1 7).map
        (fun hs => (hs.lock_status, hs.lock_generation)) = some (0, 5) ∧
    Session.get_sequencer sample_codes 7 blank_sequencer
        (Session.release sample_codes sample_constants 7 [sample_codes.OK]
          (sample_registry 7 (sample_handle_state 7 1 5))
          (sample_session 2 false [] [ok_reply sample_codes])).2.1 =
      (Result.returned (), { name := "/lockfile".toList, mode := 0, generation := 5 }) :=
  ⟨rfl, rfl,
    ((release_clears_lock_status sample_codes sample_constants 7 []
      (sample_registry 7 (sample_handle_state 7 1 5))
      (sample_session 2 false [] [ok_reply sample_codes])
      (sample_session 2 false [] [ok_reply sample_codes]) (ok_reply sample_codes) []
      (sample_handle_state 7 1 5) rfl rfl rfl).1 rfl).2.2 (by decide) blank_sequencer⟩

/-- C12: `get_sequencer` is local.  It works on the handle registry alone: the
session, and with it the transport and the wait for SAFE, is no argument of
it.  For a registered handle it throws `HYPERSPACE_NOT_LOCKED` if and only if
the handle's `lock_generation` is 0, and otherwise returns with the sequencer
set to the handle's normalised name, `lock_mode` and `lock_generation`; for an
unregistered handle it throws `HYPERSPACE_INVALID_HANDLE`.  A throwing call
leaves the caller's sequencer alone. -/
theorem get_sequencer_is_local (E : ErrorCodes) (handle : Nat) (sequencer : LockSequencer)
    (reg : HandleMap) :
    (∀ hs, get_handle_state reg handle = some hs →
      ((∃ e, Session.get_sequencer E handle sequencer reg = (Result.thrown e, sequencer)) ↔
        hs.lock_generation = 0) ∧
      (hs.lock_generation = 0 →
        Session.get_sequencer E handle sequencer reg =
          (Result.thrown (HT_THROW E.HYPERSPACE_NOT_LOCKED []), sequencer)) ∧
      (hs.lock_generation ≠ 0 →
        Session.get_sequencer E handle sequencer reg =
          (Result.returned (),
            { name := hs.normal_name, mode := hs.lock_mode,
              generation := hs.lock_generation }))) ∧
    (get_handle_state reg handle = none →
      Session.get_sequencer E handle sequencer reg =
        (Result.thrown (HT_THROW E.HYPERSPACE_INVALID_HANDLE []), sequencer)) := by
  constructor
  · intro hs hreg
    by_cases hg : hs.lock_generation = 0
    · simp [Session.get_sequencer, hreg, hg]
    · simp [Session.get_sequencer, hreg, hg]
  · intro hreg
    simp [Session.get_sequencer, hreg]

/-- C12 on a sample registry: handle 7 was never locked (generation 0) and
`get_sequencer` throws `HYPERSPACE_NOT_LOCKED` (196624); handle 8 is not
registered and it throws `HYPERSPACE_INVALID_HANDLE` (196619). -/
theorem get_sequencer_is_local_witness :
    Session.get_sequencer sample_codes 7 blank_sequencer
        (sample_registry 7 (sample_handle_state 7 0 0)) =
      (Result.thrown (HT_THROW 196624 []), blank_sequencer) ∧
    Session.get_sequencer sample_codes 8 blank_sequencer
        (sample_registry 7 (sample_handle_state 7 0 0)) =
      (Result.thrown (HT_THROW 196619 []), blank_sequencer) :=
  ⟨((get_sequencer_is_local sample_codes 7 blank_sequencer
      (sample_registry 7 (sample_handle_state 7 0 0))).1 (sample_handle_state 7 0 0)
        rfl).2.1 rfl,
    (get_sequencer_is_local sample_codes 8 blank_sequencer
      (sample_registry 7 (sample_handle_state 7 0 0))).2 rfl⟩

/-- C13 fails as stated: at the instant `now == expire_time` the call
`expired()` returns false, and it returns true one nanosecond later. -/
theorem not_expired_at_expire_time :
    (session_at 160 160 0).now = (session_at 160 160 0).m_expire_time ∧
    Session.expired (session_at 160 160 0) = false ∧
    Session.expired (session_at 160 160 1) = true :=
  ⟨rfl, by decide, by decide⟩

/-- C13 as amended: for clock readings, `expired()` returns true exactly when
`expire_time` is before `now`, that is when `now > expire_time`; at
`now == expire_time` it returns false. -/
theorem expired_iff_past_expire_time (s : Session) (hexp : xtime_valid s.m_expire_time)
    (hnow : xtime_valid s.now) :
    (Session.expired s = true ↔ xtime_before s.m_expire_time s.now) ∧
    (s.now = s.m_expire_time → Session.expired s = false) := by
  have h := xtime_cmp_neg_iff s.m_expire_time s.now hexp hnow
  constructor
  · unfold Session.expired
    by_cases hc : xtime_cmp s.m_expire_time s.now < 0
    · simp [hc, h.mp hc]
    · have hnb : ¬ xtime_before s.m_expire_time s.now := fun hb => hc (h.mpr hb)
      simp [hc, hnb]
  · intro heq
    unfold Session.expired
    have hc : ¬ xtime_cmp s.m_expire_time s.now < 0 := by
      rw [h, heq]
      unfold xtime_before
      omega
    simp [hc]

/-- C13 as amended, on a session that expires at second 160 and whose clock
reads second 161. -/
theorem expired_iff_past_expire_time_witness :
    xtime_valid (session_at 160 161 0).m_expire_time ∧
    xtime_valid (session_at 160 161 0).now ∧
    xtime_before (session_at 160 161 0).m_expire_time (session_at 160 161 0).now ∧
    Session.expired (session_at 160 161 0) = true :=
  ⟨by decide, by decide, by decide,
    ((expired_iff_past_expire_time (session_at 160 161 0) (by decide) (by decide)).1).mpr
      (by decide)⟩

end Hyperspace

namespace Hypertable

namespace Error

/-- C20: `Error::get_text` is the table lookup with a sentinel.  Whatever codes
were looked up before: for a code that no entry of `error_info` carries it
returns "ERROR NOT REGISTERED", and for the code of an entry it returns the
text of that entry (the enumerators having distinct values); so
`LOCAL_IO_ERROR` gives "HYPERTABLE local i/o error", and 999999 gives the
sentinel under a numbering that does not use it. -/
theorem get_text_is_table_lookup (value : Code → Int) (hinj : Function.Injective value)
    (lookups : List Int) :
    (∀ code, (∀ e ∈ error_info, value e.1 ≠ code) →
      (get_text code (after_lookups lookups (build_text_map value))).1 =
        "ERROR NOT REGISTERED".toList) ∧
    (∀ c t, (c, t) ∈ error_info →
      (get_text (value c) (after_lookups lookups (build_text_map value))).1 = t) ∧
    (get_text (value Code.LOCAL_IO_ERROR) (after_lookups lookups (build_text_map value))).1 =
      "HYPERTABLE local i/o error".toList := by
  have hlisted : ∀ c t, (c, t) ∈ error_info →
      (get_text (value c) (after_lookups lookups (build_text_map value))).1 = t := by
    intro c t hmem
    rw [get_text_fst, after_lookups_keeps_text]
    unfold TextMap.text build_text_map build_text_map_from
    rw [foldl_assign_of_listed value hinj error_info error_info_nodup c t hmem]
    rfl
  refine ⟨?_, hlisted, hlisted _ _ (by decide)⟩
  intro code hun
  rw [get_text_fst, after_lookups_keeps_text]
  unfold TextMap.text build_text_map build_text_map_from
  rw [foldl_assign_of_unlisted value error_info code hun]
  rfl

/-- C20 under the sample numbering, after the codes 999999 and 5 were looked
up: 999999 gives the sentinel and 5, the sample value of `LOCAL_IO_ERROR`,
gives its text. -/
theorem get_text_is_table_lookup_witness :
    Function.Injective sample_numbering ∧
    (get_text 999999 (after_lookups [999999, 5] (build_text_map sample_numbering))).1 =
      "ERROR NOT REGISTERED".toList ∧
    (get_text 5 (after_lookups [999999, 5] (build_text_map sample_numbering))).1 =
      "HYPERTABLE local i/o error".toList := by
  refine ⟨sample_numbering_injective, ?_, ?_⟩
  · refine (get_text_is_table_lookup sample_numbering sample_numbering_injective
      [999999, 5]).1 999999 ?_
    intro e _ h
    have := sample_numbering_lt e.1
    omega
  · exact (get_text_is_table_lookup sample_numbering sample_numbering_injective
      [999999, 5]).2.2

end Error

end Hypertable

namespace Hypertable

open Hyperspace

/-! ## The master: sequencing of steps -/

theorem Step.andThen_eq_returned {α β : Type} (r : Step α) (k : α → Master → Step β)
    (b : β) (m' : Master) :
    Step.andThen r k = (Outcome.returned b, m') ↔
      ∃ a m1, r = (Outcome.returned a, m1) ∧ k a m1 = (Outcome.returned b, m') := by
  rcases r with ⟨o, m⟩
  cases o with
  | returned a =>
    constructor
    · intro h
      exact ⟨a, m, rfl, h⟩
    · rintro ⟨a1, m1, h1, h2⟩
      cases h1
      exact h2
  | thrown e => simp [Step.andThen]
  | exited status => simp [Step.andThen]
  | aborted => simp [Step.andThen]
  | assert_failed => simp [Step.andThen]

theorem Step.catching_eq_returned {α : Type} (r : Step α)
    (handler : Exception → Master → Step α) (b : α) (m' : Master) :
    Step.catching r handler = (Outcome.returned b, m') ↔
      r = (Outcome.returned b, m') ∨
        ∃ e m1, r = (Outcome.thrown e, m1) ∧ handler e m1 = (Outcome.returned b, m') := by
  rcases r with ⟨o, m⟩
  cases o with
  | returned a => simp [Step.catching]
  | thrown e =>
    constructor
    · intro h
      exact Or.inr ⟨e, m, rfl, h⟩
    · rintro (h | ⟨e1, m1, h1, h2⟩)
      · cases h
      · cases h1
        exact h2
  | exited status => simp [Step.catching]
  | aborted => simp [Step.catching]
  | assert_failed => simp [Step.catching]

theorem Step.andThen_returned {α β : Type} (a : α) (m : Master) (k : α → Master → Step β) :
    Step.andThen (Outcome.returned a, m) k = k a m := rfl

theorem Step.andThen_thrown {α β : Type} (e : Exception) (m : Master)
    (k : α → Master → Step β) :
    Step.andThen ((Outcome.thrown e, m) : Step α) k = (Outcome.thrown e, m) := rfl

theorem Step.catching_returned {α : Type} (a : α) (m : Master)
    (handler : Exception → Master → Step α) :
    Step.catching (Outcome.returned a, m) handler = (Outcome.returned a, m) := rfl

theorem Step.catching_thrown {α : Type} (e : Exception) (m : Master)
    (handler : Exception → Master → Step α) :
    Step.catching (Outcome.thrown e, m) handler = handler e m := rfl

theorem Step.andThen_preserves {α β : Type} (P : Master → Prop) (r : Step α)
    (k : α → Master → Step β) (hr : P r.2) (hk : ∀ a m, P m → P (k a m).2) :
    P (Step.andThen r k).2 := by
  rcases r with ⟨o, m⟩
  cases o <;> simp only [Step.andThen] <;> first | exact hk _ _ hr | exact hr

theorem Step.catching_preserves {α : Type} (P : Master → Prop) (r : Step α)
    (handler : Exception → Master → Step α) (hr : P r.2)
    (hk : ∀ e m, P m → P (handler e m).2) :
    P (Step.catching r handler).2 := by
  rcases r with ⟨o, m⟩
  cases o <;> simp only [Step.catching] <;> first | exact hk _ _ hr | exact hr

theorem Master.hs_eq_returned {α : Type} (m : Master)
    (call : HsService → Outcome α × HsService) (a : α) (m1 : Master) :
    m.hs call = (Outcome.returned a, m1) ↔
      ∃ hs1, call m.hyperspace = (Outcome.returned a, hs1) ∧
        m1 = { m with hyperspace := hs1 } := by
  unfold Master.hs
  constructor
  · intro h
    refine ⟨(call m.hyperspace).2, ?_, ?_⟩
    · exact Prod.ext (by simpa using congrArg Prod.fst h) rfl
    · exact (congrArg Prod.snd h).symm
  · rintro ⟨hs1, h, rfl⟩
    rw [h]

theorem Master.hs_of_eq {α : Type} (m : Master)
    (call : HsService → Outcome α × HsService) (o : Outcome α) (hs1 : HsService)
    (h : call m.hyperspace = (o, hs1)) :
    m.hs call = (o, { m with hyperspace := hs1 }) := by
  unfold Master.hs
  rw [h]

/-! ## The namespace service: what a call that returned has done -/

theorem HsService.node_of_eq_some (hs : HsService) (handle : Nat) (path : StdString)
    (node : HsNode) :
    hs.node_of handle = some (path, node) ↔
      hs.handles handle = some path ∧ hs.nodes path = some node := by
  unfold HsService.node_of
  cases hh : hs.handles handle with
  | none => simp
  | some p =>
    dsimp only
    cases hn : hs.nodes p with
    | none =>
      dsimp only
      constructor
      · intro h
        cases h
      · rintro ⟨h1, h2⟩
        cases h1
        rw [hn] at h2
        cases h2
    | some n =>
      dsimp only
      constructor
      · intro h
        cases h
        exact ⟨rfl, hn⟩
      · rintro ⟨h1, h2⟩
        cases h1
        rw [hn] at h2
        cases h2
        rfl

theorem hs_open_returned (V : Error.Code → Int) (K : Constants) (name : StdString)
    (flags : Nat) (hs hs1 : HsService) (handle : Nat)
    (h : hs_open V K name flags hs = (Outcome.returned handle, hs1)) :
    hs1.handles handle = some (normalize_name name) ∧
      (∃ node, hs1.nodes (normalize_name name) = some node) ∧
      (∀ p node, hs.nodes p = some node → hs1.nodes p = some node) ∧
      hs1.listing = hs.listing := by
  unfold hs_open at h
  dsimp only at h
  split at h
  · rename_i node hnode
    cases h
    exact ⟨by simp, ⟨node, hnode⟩, fun p node1 hp => hp, rfl⟩
  · rename_i hnode
    split at h
    · cases h
      refine ⟨by simp [HsService.put], ⟨new_file K, by simp [HsService.put]⟩, ?_, rfl⟩
      intro p node1 hp
      have hne : p ≠ normalize_name name := by
        intro hc
        rw [hc, hnode] at hp
        cases hp
      simp [HsService.put, hne, hp]
    · cases h

theorem hs_open_attr (V : Error.Code → Int) (K : Constants) (name : StdString)
    (flags : Nat) (hs hs1 : HsService) (handle : Nat)
    (h : hs_open V K name flags hs = (Outcome.returned handle, hs1))
    (path attr : StdString) (value : List Byte) (hv : hs.attr path attr = some value) :
    hs1.attr path attr = some value := by
  obtain ⟨_, _, hkeep, _⟩ := hs_open_returned V K name flags hs hs1 handle h
  unfold HsService.attr at hv ⊢
  cases hp : hs.nodes path with
  | none => rw [hp] at hv; cases hv
  | some node =>
    rw [hkeep path node hp]
    rw [hp] at hv
    exact hv

theorem hs_close_returned (V : Error.Code → Int) (handle : Nat) (hs hs1 : HsService)
    (h : hs_close V handle hs = (Outcome.returned (), hs1)) :
    hs1.nodes = hs.nodes ∧ hs1.handles handle = none ∧
      (∀ h1, h1 ≠ handle → hs1.handles h1 = hs.handles h1) ∧ hs1.listing = hs.listing := by
  unfold hs_close at h
  split at h
  · cases h
  · cases h
    exact ⟨rfl, by simp, fun h1 hne => by simp [hne], rfl⟩

theorem hs_attr_set_returned (V : Error.Code → Int) (handle : Nat) (name : StdString)
    (value : List Byte) (hs hs1 : HsService)
    (h : hs_attr_set V handle name value hs = (Outcome.returned (), hs1)) :
    ∃ path node, hs.handles handle = some path ∧ hs.nodes path = some node ∧
      hs1 = hs.put path (some (node.set_attr name value)) := by
  unfold hs_attr_set at h
  split at h
  · cases h
  · rename_i path node hnode
    cases h
    obtain ⟨h1, h2⟩ := (HsService.node_of_eq_some hs handle path node).mp hnode
    exact ⟨path, node, h1, h2, rfl⟩

theorem hs_attr_set_attr (V : Error.Code → Int) (handle : Nat) (name : StdString)
    (value : List Byte) (hs hs1 : HsService)
    (h : hs_attr_set V handle name value hs = (Outcome.returned (), hs1)) :
    ∃ path, hs.handles handle = some path ∧ hs1.attr path name = some value ∧
      hs1.handles = hs.handles ∧
      (∀ p a, a ≠ name → hs1.attr p a = hs.attr p a) ∧
      (∀ p, (hs1.nodes p).isSome = (hs.nodes p).isSome) := by
  obtain ⟨path, node, hh, hn, rfl⟩ := hs_attr_set_returned V handle name value hs hs1 h
  refine ⟨path, hh, by simp [HsService.attr, HsService.put, HsNode.set_attr], rfl, ?_, ?_⟩
  · intro p a ha
    by_cases hp : p = path
    · subst hp
      simp [HsService.attr, HsService.put, HsNode.set_attr, ha, hn]
    · simp [HsService.attr, HsService.put, hp]
  · intro p
    by_cases hp : p = path
    · subst hp
      simp [HsService.put, hn]
    · simp [HsService.put, hp]

theorem hs_attr_get_returned (V : Error.Code → Int) (handle : Nat) (name : StdString)
    (value : List Byte) (hs hs1 : HsService)
    (h : hs_attr_get V handle name hs = (Outcome.returned value, hs1)) :
    hs1 = hs ∧ ∃ path, hs.handles handle = some path ∧ hs.attr path name = some value := by
  unfold hs_attr_get at h
  split at h
  · cases h
  · rename_i path node hnode
    split at h
    · cases h
    · rename_i value1 hval
      cases h
      obtain ⟨h1, h2⟩ := (HsService.node_of_eq_some hs handle path node).mp hnode
      exact ⟨rfl, path, h1, by simp [HsService.attr, h2, hval]⟩

theorem hs_try_lock_state (V : Error.Code → Int) (handle : Nat) (hs : HsService) :
    (hs_try_lock V handle hs).2 = hs := by
  unfold hs_try_lock
  split <;> rfl

theorem hs_exists_state (name : StdString) (hs : HsService) : (hs_exists name hs).2 = hs := rfl

theorem hs_mkdir_attr (V : Error.Code → Int) (K : Constants) (name : StdString)
    (hs : HsService) (path attr : StdString) (value : List Byte)
    (hv : hs.attr path attr = some value) :
    (hs_mkdir V K name hs).2.attr path attr = some value := by
  unfold hs_mkdir
  split
  · exact hv
  · rename_i hnone
    have hne : path ≠ normalize_name name := by
      intro hc
      rw [hc] at hv
      simp [HsService.attr, hnone] at hv
    simpa [HsService.attr, HsService.put, hne] using hv


theorem hs_close_attr (V : Error.Code → Int) (handle : Nat) (hs hs1 : HsService)
    (h : hs_close V handle hs = (Outcome.returned (), hs1)) (path attr : StdString) :
    hs1.attr path attr = hs.attr path attr := by
  obtain ⟨hn, _⟩ := hs_close_returned V handle hs hs1 h
  unfold HsService.attr
  rw [hn]

/-! ## The master: startup -/

theorem Master.initialize_returned (V : Error.Code → Int) (K : Constants) (m m1 : Master)
    (h : Master.initialize_ V K m = (Outcome.returned true, m1)) :
    m1.hyperspace.attr (normalize_name "/hypertable/master".toList) "last_table_id".toList =
      some (word_bytes 0) := by
  unfold Master.initialize_ at h
  rw [Step.catching_eq_returned] at h
  rcases h with h | ⟨e, m2, _, h⟩
  swap
  · cases h
  rw [Step.andThen_eq_returned] at h
  obtain ⟨ok1, ma, _, h⟩ := h
  split at h
  · cases h
  rw [Step.andThen_eq_returned] at h
  obtain ⟨ok2, mb, _, h⟩ := h
  split at h
  · cases h
  rw [Step.andThen_eq_returned] at h
  obtain ⟨ok3, mc, _, h⟩ := h
  split at h
  · cases h
  rw [Step.andThen_eq_returned] at h
  obtain ⟨handle, md, hopen, h⟩ := h
  rw [Master.hs_eq_returned] at hopen
  obtain ⟨hs1, hopen, rfl⟩ := hopen
  dsimp only at h
  rw [Step.andThen_eq_returned] at h
  obtain ⟨_, me, hset, h⟩ := h
  rw [Master.hs_eq_returned] at hset
  obtain ⟨hs2, hset, rfl⟩ := hset
  rw [Step.andThen_eq_returned] at h
  obtain ⟨_, mf, hclose, h⟩ := h
  rw [Master.hs_eq_returned] at hclose
  obtain ⟨hs3, hclose, rfl⟩ := hclose
  rw [Step.andThen_eq_returned] at h
  obtain ⟨handle2, mg, hopen2, h⟩ := h
  rw [Master.hs_eq_returned] at hopen2
  obtain ⟨hs4, hopen2, rfl⟩ := hopen2
  rw [Step.andThen_eq_returned] at h
  obtain ⟨_, mh, hclose2, h⟩ := h
  rw [Master.hs_eq_returned] at hclose2
  obtain ⟨hs5, hclose2, rfl⟩ := hclose2
  cases h
  dsimp only at hset hclose hopen2 hclose2 ⊢
  obtain ⟨hhandle, _, _, _⟩ := hs_open_returned V K _ _ _ _ _ hopen
  obtain ⟨path, hpath, hattr, _, _, _⟩ := hs_attr_set_attr V _ _ _ _ _ hset
  rw [hhandle] at hpath
  cases hpath
  rw [hs_close_attr V _ _ _ hclose2]
  apply hs_open_attr V K _ _ _ _ _ hopen2
  rw [hs_close_attr V _ _ _ hclose]
  exact hattr

theorem hs_attr_get_of_attr (V : Error.Code → Int) (handle : Nat) (name path : StdString)
    (value : List Byte) (hs : HsService) (hh : hs.handles handle = some path)
    (hv : hs.attr path name = some value) :
    hs_attr_get V handle name hs = (Outcome.returned value, hs) := by
  unfold HsService.attr at hv
  cases hn : hs.nodes path with
  | none => rw [hn] at hv; cases hv
  | some node =>
    rw [hn] at hv
    have hnode : hs.node_of handle = some (path, node) :=
      (HsService.node_of_eq_some hs handle path node).mpr ⟨hh, hn⟩
    unfold hs_attr_get
    rw [hnode]
    dsimp only
    have hv2 : node.attrs name = some value := hv
    rw [hv2]

theorem Master.admit_server_last_table_id (V : Error.Code → Int) (K : Constants)
    (rs_state : RangeServerState) (m : Master) :
    (Master.admit_server V K rs_state m).2.m_last_table_id = m.m_last_table_id := by
  unfold Master.admit_server
  dsimp only
  apply Step.andThen_preserves (fun m1 => m1.m_last_table_id = m.m_last_table_id)
  · rfl
  intro handle m1 h1
  apply Step.andThen_preserves (fun m1 => m1.m_last_table_id = m.m_last_table_id)
  · exact h1
  intro status m2 h2
  split
  · apply Step.andThen_preserves (fun m1 => m1.m_last_table_id = m.m_last_table_id)
    · exact h2
    intro _ m3 h3
    apply Step.andThen_preserves (fun m1 => m1.m_last_table_id = m.m_last_table_id)
    · exact h3
    intro _ m4 h4
    exact h4
  · exact h2

theorem Master.scan_entries_last_table_id (V : Error.Code → Int) (K : Constants)
    (listing : List DirEntry) (m : Master) :
    (Master.scan_entries V K listing m).2.m_last_table_id = m.m_last_table_id := by
  induction listing generalizing m with
  | nil => rfl
  | cons entry rest ih =>
    unfold Master.scan_entries
    have hserver := Master.admit_server_last_table_id V K
      { location := entry.name, addr := none, hyperspace_handle := 0 } m
    split
    · rename_i m1 heq
      rw [heq] at hserver
      rw [ih m1]
      exact hserver
    · exact hserver

theorem Master.scan_servers_directory_last_table_id (V : Error.Code → Int) (K : Constants)
    (m : Master) :
    (Master.scan_servers_directory V K m).2.m_last_table_id = m.m_last_table_id := by
  unfold Master.scan_servers_directory
  apply Step.catching_preserves (fun m1 => m1.m_last_table_id = m.m_last_table_id)
  · apply Step.andThen_preserves (fun m1 => m1.m_last_table_id = m.m_last_table_id)
    · rfl
    intro handle m1 h1
    dsimp only
    apply Step.andThen_preserves (fun m1 => m1.m_last_table_id = m.m_last_table_id)
    · exact h1
    intro listing m2 h2
    rw [Master.scan_entries_last_table_id]
    exact h2
  · intro e m1 h1
    exact h1

theorem normalize_name_take (name : StdString) (h : string_front name = '/') :
    ∃ n, normalize_name name = name.take n := by
  unfold normalize_name
  by_cases h1 : name = ['/']
  · rw [if_pos h1]
    exact ⟨name.length, (List.take_length name).symm⟩
  · rw [if_neg h1]
    dsimp only
    rw [if_neg (not_not.mpr h)]
    by_cases h2 : string_find name '/' (size_t_pred name.length) = none
    · rw [if_pos h2]
      exact ⟨name.length, by rw [List.nil_append, List.take_length]⟩
    · rw [if_neg h2]
      refine ⟨size_t_pred name.length, ?_⟩
      rw [List.nil_append]
      unfold string_substr
      rw [List.drop_zero]

theorem server_file_ne_master_file (location : StdString) :
    normalize_name ("/hypertable/servers/".toList ++ location) ≠
      normalize_name "/hypertable/master".toList := by
  have hm : normalize_name "/hypertable/master".toList = "/hypertable/master".toList := rfl
  rw [hm]
  obtain ⟨n, hn⟩ := normalize_name_take ("/hypertable/servers/".toList ++ location) rfl
  rw [hn]
  intro hc
  have h13 := congrArg (List.take 13) hc
  have hlen := congrArg List.length hc
  rw [List.take_take] at h13
  rw [List.length_take] at hlen
  have h18 : ("/hypertable/master".toList).length = 18 := rfl
  rw [h18] at hlen
  have hn13 : min 13 n = 13 := by omega
  rw [hn13] at h13
  rw [List.take_append_of_le_length (by decide)] at h13
  revert h13
  decide


theorem hs_open_keeps_attr (V : Error.Code → Int) (K : Constants) (name : StdString)
    (flags : Nat) (hs : HsService) (path attr : StdString) (value : List Byte)
    (hv : hs.attr path attr = some value) :
    (hs_open V K name flags hs).2.attr path attr = some value := by
  rcases hr : hs_open V K name flags hs with ⟨o, hs1⟩
  cases o with
  | returned handle => exact hs_open_attr V K name flags hs hs1 handle hr path attr value hv
  | thrown e =>
    unfold hs_open at hr
    dsimp only at hr
    split at hr
    · cases hr
    · split at hr
      · cases hr
      · cases hr
        exact hv
  | exited status =>
    unfold hs_open at hr
    dsimp only at hr
    split at hr
    · cases hr
    · split at hr <;> cases hr
  | aborted =>
    unfold hs_open at hr
    dsimp only at hr
    split at hr
    · cases hr
    · split at hr <;> cases hr
  | assert_failed =>
    unfold hs_open at hr
    dsimp only at hr
    split at hr
    · cases hr
    · split at hr <;> cases hr

theorem hs_close_keeps_attr (V : Error.Code → Int) (handle : Nat) (hs : HsService)
    (path attr : StdString) :
    (hs_close V handle hs).2.attr path attr = hs.attr path attr := by
  unfold hs_close
  split <;> rfl

theorem hs_unlink_keeps_attr (V : Error.Code → Int) (name : StdString) (hs : HsService)
    (path attr : StdString) (hne : path ≠ normalize_name name) :
    (hs_unlink V name hs).2.attr path attr = hs.attr path attr := by
  unfold hs_unlink
  split
  · rfl
  · simp [HsService.attr, HsService.put, hne]

theorem Master.admit_server_keeps_master_attr (V : Error.Code → Int) (K : Constants)
    (rs_state : RangeServerState) (m : Master) (attr : StdString) (value : List Byte)
    (hv : m.hyperspace.attr (normalize_name "/hypertable/master".toList) attr = some value) :
    (Master.admit_server V K rs_state m).2.hyperspace.attr
      (normalize_name "/hypertable/master".toList) attr = some value := by
  unfold Master.admit_server
  dsimp only
  apply Step.andThen_preserves (fun m1 =>
    m1.hyperspace.attr (normalize_name "/hypertable/master".toList) attr = some value)
  · exact hs_open_keeps_attr V K _ _ _ _ _ _ hv
  intro handle m1 h1
  apply Step.andThen_preserves (fun m1 =>
    m1.hyperspace.attr (normalize_name "/hypertable/master".toList) attr = some value)
  · show (hs_try_lock V handle m1.hyperspace).2.attr _ attr = some value
    rw [hs_try_lock_state]
    exact h1
  intro status m2 h2
  split
  · apply Step.andThen_preserves (fun m1 =>
      m1.hyperspace.attr (normalize_name "/hypertable/master".toList) attr = some value)
    · show (hs_unlink V _ m2.hyperspace).2.attr _ attr = some value
      rw [hs_unlink_keeps_attr V _ _ _ _ (server_file_ne_master_file rs_state.location).symm]
      exact h2
    intro _ m3 h3
    apply Step.andThen_preserves (fun m1 =>
      m1.hyperspace.attr (normalize_name "/hypertable/master".toList) attr = some value)
    · show (hs_close V _ m3.hyperspace).2.attr _ attr = some value
      rw [hs_close_keeps_attr]
      exact h3
    intro _ m4 h4
    exact h4
  · exact h2

theorem Master.scan_entries_keeps_master_attr (V : Error.Code → Int) (K : Constants)
    (listing : List DirEntry) (m : Master) (attr : StdString) (value : List Byte)
    (hv : m.hyperspace.attr (normalize_name "/hypertable/master".toList) attr = some value) :
    (Master.scan_entries V K listing m).2.hyperspace.attr
      (normalize_name "/hypertable/master".toList) attr = some value := by
  induction listing generalizing m with
  | nil => exact hv
  | cons entry rest ih =>
    unfold Master.scan_entries
    have hserver := Master.admit_server_keeps_master_attr V K
      { location := entry.name, addr := none, hyperspace_handle := 0 } m attr value hv
    split
    · rename_i m1 heq
      rw [heq] at hserver
      exact ih m1 hserver
    · exact hserver

theorem Master.scan_servers_directory_keeps_master_attr (V : Error.Code → Int)
    (K : Constants) (m : Master) (attr : StdString) (value : List Byte)
    (hv : m.hyperspace.attr (normalize_name "/hypertable/master".toList) attr = some value) :
    (Master.scan_servers_directory V K m).2.hyperspace.attr
      (normalize_name "/hypertable/master".toList) attr = some value := by
  unfold Master.scan_servers_directory
  apply Step.catching_preserves (fun m1 =>
    m1.hyperspace.attr (normalize_name "/hypertable/master".toList) attr = some value)
  · apply Step.andThen_preserves (fun m1 =>
      m1.hyperspace.attr (normalize_name "/hypertable/master".toList) attr = some value)
    · exact hs_open_keeps_attr V K _ _ _ _ _ _ hv
    intro handle m1 h1
    dsimp only
    apply Step.andThen_preserves (fun m1 =>
      m1.hyperspace.attr (normalize_name "/hypertable/master".toList) attr = some value)
    · show (hs_readdir V _ m1.hyperspace).2.attr _ attr = some value
      have hrd : (hs_readdir V handle m1.hyperspace).2 = m1.hyperspace := by
        unfold hs_readdir
        split <;> rfl
      rw [hrd]
      exact h1
    intro listing m2 h2
    exact Master.scan_entries_keeps_master_attr V K listing m2 attr value h2
  · intro e m1 h1
    exact h1

theorem le_value_word_bytes_zero : le_value (word_bytes 0) = 0 := by decide

theorem Step.eq_of_is_returned (r : Step Unit) (h : r.1.is_returned = true) :
    r = (Outcome.returned (), r.2) := by
  rcases r with ⟨o, m⟩
  cases o <;> first | rfl | cases h

/-! ## The master: tables and servers -/

theorem Master.rsc_load_range_frame (C : Collaborators) (call : LoadRange) (m : Master) :
    (Master.rsc_load_range C call m).2.hyperspace = m.hyperspace ∧
      (Master.rsc_load_range C call m).2.m_last_table_id = m.m_last_table_id ∧
      (Master.rsc_load_range C call m).2.m_server_map = m.m_server_map := by
  unfold Master.rsc_load_range
  dsimp only
  split <;> exact ⟨rfl, rfl, rfl⟩

theorem Master.mutator_set_flush_frame (C : Collaborators) (cell : MetadataCell) (m : Master) :
    (Master.mutator_set_flush C cell m).2.hyperspace = m.hyperspace ∧
      (Master.mutator_set_flush C cell m).2.m_last_table_id = m.m_last_table_id ∧
      (Master.mutator_set_flush C cell m).2.m_server_map = m.m_server_map := by
  unfold Master.mutator_set_flush
  split <;> exact ⟨rfl, rfl, rfl⟩

theorem Master.next_server_frame (m : Master) :
    (Master.next_server m).2.hyperspace = m.hyperspace ∧
      (Master.next_server m).2.m_last_table_id = m.m_last_table_id ∧
      (Master.next_server m).2.m_server_map = m.m_server_map := by
  unfold Master.next_server
  dsimp only
  split <;> split <;> exact ⟨rfl, rfl, rfl⟩



theorem Master.create_table_server_map (V : Error.Code → Int) (K : Constants)
    (C : Collaborators) (tablename schemastr : StdString) (m : Master) :
    (Master.create_table V K C tablename schemastr m).2.m_server_map = m.m_server_map := by
  unfold Master.create_table
  dsimp only
  apply Step.andThen_preserves (fun m1 => m1.m_server_map = m.m_server_map) _ _ rfl
  intro table_exists m1 h1
  split
  · exact h1
  split
  · exact h1
  apply Step.andThen_preserves (fun m1 => m1.m_server_map = m.m_server_map) _ _ h1
  intro handle m2 h2
  apply Step.andThen_preserves (fun m1 => m1.m_server_map = m.m_server_map)
  · split
    · exact h2
    · apply Step.andThen_preserves (fun m1 => m1.m_server_map = m.m_server_map) _ _ h2
      intro _ m3 h3
      exact h3
  intro table_id m3 h3
  apply Step.andThen_preserves (fun m1 => m1.m_server_map = m.m_server_map) _ _ h3
  intro _ m4 h4
  apply Step.andThen_preserves (fun m1 => m1.m_server_map = m.m_server_map) _ _ h4
  intro _ m5 h5
  apply Step.andThen_preserves (fun m1 => m1.m_server_map = m.m_server_map) _ _ h5
  intro _ m6 h6
  split
  · split
    · exact h6
    · apply Step.andThen_preserves (fun m1 => m1.m_server_map = m.m_server_map)
      · rw [(Master.mutator_set_flush_frame C _ _).2.2]
        exact h6
      intro _ m7 h7
      apply Step.andThen_preserves (fun m1 => m1.m_server_map = m.m_server_map)
      · rw [(Master.next_server_frame _).2.2]
        exact h7
      intro addr m8 h8
      apply Step.catching_preserves (fun m1 => m1.m_server_map = m.m_server_map)
      · rw [(Master.rsc_load_range_frame C _ _).2.2]
        exact h8
      · intro e m9 h9
        exact h9
  · exact h6



theorem hs_open_handles (V : Error.Code → Int) (K : Constants) (name : StdString)
    (flags : Nat) (hs hs1 : HsService) (handle : Nat)
    (h : hs_open V K name flags hs = (Outcome.returned handle, hs1)) :
    handle = hs.next_handle ∧ ∀ h1, h1 ≠ hs.next_handle → hs1.handles h1 = hs.handles h1 := by
  unfold hs_open at h
  dsimp only at h
  split at h
  · cases h
    exact ⟨rfl, fun h1 hne => by simp [hne]⟩
  · split at h
    · cases h
      exact ⟨rfl, fun h1 hne => by simp [HsService.put, hne]⟩
    · cases h

theorem atomic_inc_return_of_lt (v : Nat) (h : v < 4294967295) :
    atomic_inc_return v = v + 1 := by
  unfold atomic_inc_return
  omega

theorem ServerMap.find_assign_self (map : ServerMap) (key : StdString)
    (value : RangeServerState) : (ServerMap.assign map key value).find key = some value := by
  induction map with
  | nil => simp [ServerMap.assign, ServerMap.find]
  | cons e rest ih =>
    unfold ServerMap.assign
    split
    · simp [ServerMap.find]
    · rename_i hne
      split
      · simp [ServerMap.find]
      · unfold ServerMap.find at ih ⊢
        rw [List.find?_cons_of_neg _ (by simpa using hne)]
        exact ih

theorem hs_unlink_of_node (V : Error.Code → Int) (name : StdString) (hs : HsService)
    (node : HsNode) (h : hs.nodes (normalize_name name) = some node) :
    hs_unlink V name hs = (Outcome.returned (), hs.put (normalize_name name) none) := by
  unfold hs_unlink
  rw [h]

theorem hs_close_of_handle (V : Error.Code → Int) (handle : Nat) (hs : HsService)
    (path : StdString) (h : hs.handles handle = some path) :
    hs_close V handle hs =
      (Outcome.returned (),
        { hs with handles := fun h1 => if h1 = handle then none else hs.handles h1 }) := by
  unfold hs_close
  rw [h]

/-- The admission of a server file that opens: with the lock granted the file
is removed and the handle closed, and otherwise the state is entered in the
map. -/
theorem Master.admit_server_of_open (V : Error.Code → Int) (K : Constants)
    (rs_state : RangeServerState) (m : Master) (handle status : Nat) (hs1 : HsService)
    (hopen : hs_open V K ("/hypertable/servers/".toList ++ rs_state.location)
      (K.OPEN_FLAG_READ ||| K.OPEN_FLAG_WRITE ||| K.OPEN_FLAG_LOCK) m.hyperspace =
        (Outcome.returned handle, hs1))
    (hlock : hs_try_lock V handle hs1 = (Outcome.returned status, hs1)) :
    ∃ m1, Master.admit_server V K rs_state m = (Outcome.returned (), m1) ∧
      m1.m_initialized = m.m_initialized ∧ m1.responses = m.responses ∧
      m1.aliases = m.aliases ∧
      (status = K.LOCK_STATUS_GRANTED →
        m1.m_server_map = m.m_server_map ∧
        m1.hyperspace.nodes
          (normalize_name ("/hypertable/servers/".toList ++ rs_state.location)) = none ∧
        m1.hyperspace.handles handle = none) ∧
      (status ≠ K.LOCK_STATUS_GRANTED →
        m1.m_server_map = m.m_server_map.assign rs_state.location
          { rs_state with hyperspace_handle := handle } ∧
        m1.hyperspace = hs1) := by
  obtain ⟨hhandle, ⟨node, hnode⟩, _, _⟩ := hs_open_returned V K _ _ _ _ _ hopen
  unfold Master.admit_server
  dsimp only
  rw [Master.hs_of_eq _ _ _ _ hopen, Step.andThen_returned]
  rw [Master.hs_of_eq _ _ _ _ hlock, Step.andThen_returned]
  by_cases hg : status = K.LOCK_STATUS_GRANTED
  · rw [if_pos hg]
    rw [Master.hs_of_eq _ _ _ _ (hs_unlink_of_node V _ hs1 node hnode), Step.andThen_returned]
    have hh2 : (hs1.put (normalize_name ("/hypertable/servers/".toList ++ rs_state.location))
        none).handles handle = some
          (normalize_name ("/hypertable/servers/".toList ++ rs_state.location)) := hhandle
    rw [Master.hs_of_eq _ _ _ _ (hs_close_of_handle V handle _ _ hh2), Step.andThen_returned]
    refine ⟨_, rfl, rfl, rfl, rfl, fun _ => ⟨rfl, ?_, ?_⟩, fun hne => absurd hg hne⟩
    · simp [HsService.put]
    · simp
  · rw [if_neg hg]
    exact ⟨_, rfl, rfl, rfl, rfl, fun he => absurd he hg, fun _ => ⟨rfl, rfl⟩⟩

theorem Master.load_metadata_ranges_server_map (V : Error.Code → Int) (K : Constants)
    (C : Collaborators) (alias_ : InetAddr) (m : Master) :
    (Master.load_metadata_ranges V K C alias_ m).2.m_server_map = m.m_server_map := by
  unfold Master.load_metadata_ranges
  apply Step.andThen_preserves (fun m1 => m1.m_server_map = m.m_server_map)
  · apply Step.catching_preserves (fun m1 => m1.m_server_map = m.m_server_map)
    · apply Step.andThen_preserves (fun m1 => m1.m_server_map = m.m_server_map)
      · exact Master.create_table_server_map V K C _ _ m
      · intro _ m1 h1
        exact h1
    · intro e m1 h1
      split <;> exact h1
  intro table_exists m1 h1
  dsimp only
  split
  · exact h1
  apply Step.andThen_preserves (fun m1 => m1.m_server_map = m.m_server_map)
  · apply Step.catching_preserves (fun m1 => m1.m_server_map = m.m_server_map)
    · rw [(Master.rsc_load_range_frame C _ _).2.2]
      exact h1
    · intro e m2 h2
      exact h2
  intro _ m2 h2
  apply Step.andThen_preserves (fun m1 => m1.m_server_map = m.m_server_map)
  · apply Step.catching_preserves (fun m1 => m1.m_server_map = m.m_server_map)
    · rw [(Master.mutator_set_flush_frame C _ _).2.2]
      exact h2
    · intro e m3 h3
      exact h3
  intro _ m3 h3
  apply Step.andThen_preserves (fun m1 => m1.m_server_map = m.m_server_map)
  · apply Step.catching_preserves (fun m1 => m1.m_server_map = m.m_server_map)
    · rw [(Master.rsc_load_range_frame C _ _).2.2]
      exact h3
    · intro e m4 h4
      exact h4
  intro _ m4 h4
  exact h4

theorem Master.drop_loop_eq (V : Error.Code → Int) (map : ServerMap)
    (locations : List StdString) (st : Master.DropLoop) :
    Master.drop_loop V map locations st =
      { added := st.added ++ Master.present_addrs map locations
        saved_error :=
          if Master.absent_locations map locations = [] then st.saved_error
          else V Error.Code.RANGESERVER_UNAVAILABLE
        err_msg := ((Master.absent_locations map locations).getLast?).getD st.err_msg } := by
  induction locations generalizing st with
  | nil => simp [Master.drop_loop, Master.present_addrs, Master.absent_locations]
  | cons loc rest ih =>
    unfold Master.drop_loop
    cases hfind : map.find loc with
    | some rs =>
      dsimp only
      rw [ih]
      have h1 : Master.present_addrs map (loc :: rest) =
          rs.addr :: Master.present_addrs map rest := by
        simp [Master.present_addrs, hfind]
      have h2 : Master.absent_locations map (loc :: rest) =
          Master.absent_locations map rest := by
        simp [Master.absent_locations, hfind]
      rw [h1, h2]
      simp
    | none =>
      dsimp only
      rw [ih]
      have h1 : Master.present_addrs map (loc :: rest) = Master.present_addrs map rest := by
        simp [Master.present_addrs, hfind]
      have h2 : Master.absent_locations map (loc :: rest) =
          loc :: Master.absent_locations map rest := by
        simp [Master.absent_locations, hfind]
      rw [h1, h2]
      cases habs : Master.absent_locations map rest with
      | nil => simp
      | cons a l =>
        simp only [List.getLast?_cons_cons]
        rw [List.getLast?_eq_getLast _ (List.cons_ne_nil a l)]
        simp

/-! ## The master: dropping a table -/

theorem Master.drop_table_of_open (V : Error.Code → Int) (K : Constants) (C : Collaborators)
    (table_name : StdString) (if_exists : Bool) (m : Master) (handle : Nat)
    (hs1 : HsService) (value_buf : List Byte)
    (hopen : hs_open V K ("/hypertable/tables/".toList ++ table_name) K.OPEN_FLAG_READ
      m.hyperspace = (Outcome.returned handle, hs1))
    (hattr : hs_attr_get V handle "table_id".toList hs1 = (Outcome.returned value_buf, hs1))
    (hlen : value_buf.length = 4)
    (hptr : m.m_metadata_table_ptr = true)
    (hcode : V Error.Code.RANGESERVER_UNAVAILABLE ≠ V Error.Code.OK) :
    Master.drop_table V K C table_name if_exists m =
      (Outcome.returned (),
        Master.drop_table_result V C m
          { hs1 with handles := fun h1 => if h1 = handle then none else hs1.handles h1 }
          (normalize_name ("/hypertable/tables/".toList ++ table_name))
          (Master.unique_locations (C.location_cells (le_value value_buf)))) := by
  obtain ⟨hhandle, ⟨node, hnode⟩, _, _⟩ := hs_open_returned V K _ _ _ _ _ hopen
  have hclose := hs_close_of_handle V handle hs1 _ hhandle
  unfold Master.drop_table Master.drop_table_result
  dsimp only
  rw [Master.hs_of_eq _ _ _ _ hopen]
  dsimp only
  rw [Master.hs_of_eq _ _ _ _ hattr, Step.andThen_returned]
  rw [Master.hs_of_eq _ _ _ _ hclose, Step.andThen_returned]
  rw [if_neg (not_not.mpr hlen)]
  dsimp only
  rw [if_neg (by rw [hptr]; decide)]
  generalize Master.unique_locations (C.location_cells (le_value value_buf)) = locations
  have hst : (if locations ≠ [] then
        Master.drop_loop V m.m_server_map locations
          { added := [], saved_error := V Error.Code.OK, err_msg := [] }
      else { added := [], saved_error := V Error.Code.OK, err_msg := [] }) =
      Master.drop_loop V m.m_server_map locations
        { added := [], saved_error := V Error.Code.OK, err_msg := [] } := by
    cases locations with
    | nil => rfl
    | cons loc rest => rfl
  rw [hst, Master.drop_loop_eq]
  dsimp only
  have hde : (if locations ≠ [] then
        Master.dispatch_errors C ([] ++ Master.present_addrs m.m_server_map locations)
      else []) =
      Master.dispatch_errors C (Master.present_addrs m.m_server_map locations) := by
    cases locations with
    | nil => rfl
    | cons loc rest => rfl
  rw [hde]
  cases hd : Master.dispatch_errors C (Master.present_addrs m.m_server_map locations) with
  | cons error tail => rfl
  | nil =>
    dsimp only
    cases ha : (Master.absent_locations m.m_server_map locations).getLast? with
    | none =>
      have hnil : Master.absent_locations m.m_server_map locations = [] :=
        List.getLast?_eq_none_iff.mp ha
      rw [if_pos hnil, if_neg (not_not.mpr rfl)]
      have hnode2 : ({ hs1 with
          handles := fun h1 => if h1 = handle then none else hs1.handles h1 } :
            HsService).nodes (normalize_name ("/hypertable/tables/".toList ++ table_name)) =
          some node := hnode
      rw [Master.hs_of_eq _ _ _ _ (hs_unlink_of_node V _ _ node hnode2), Step.andThen_returned]
      rfl
    | some loc =>
      have hne : Master.absent_locations m.m_server_map locations ≠ [] := by
        intro hc
        rw [hc] at ha
        cases ha
      rw [if_neg hne, if_pos hcode]
      rfl

theorem Outcome.eq_of_result {α β : Type} (r : Outcome α × β) (a : α)
    (h : r.1.result = some a) : r = (Outcome.returned a, r.2) := by
  rcases r with ⟨o, m⟩
  cases o with
  | returned value =>
    have hv : value = a := Option.some.inj h
    rw [hv]
  | thrown e => cases h
  | exited status => cases h
  | aborted => cases h
  | assert_failed => cases h

theorem Master.absent_locations_eq_nil (map : ServerMap) (locations : List StdString) :
    Master.absent_locations map locations = [] ↔
      ∀ loc ∈ locations, (map.find loc).isSome = true := by
  unfold Master.absent_locations
  rw [List.filter_eq_nil_iff]
  constructor
  · intro h loc hloc
    have := h loc hloc
    cases hf : map.find loc with
    | none => rw [hf] at this; simp at this
    | some rs => rfl
  · intro h loc hloc
    have := h loc hloc
    cases hf : map.find loc with
    | none => rw [hf] at this; simp at this
    | some rs => simp

theorem Master.dispatch_errors_eq_nil (C : Collaborators) (map : ServerMap)
    (locations : List StdString) :
    Master.dispatch_errors C (Master.present_addrs map locations) = [] ↔
      ∀ loc ∈ locations, ∀ rs, map.find loc = some rs → C.drop_table_fault rs.addr = none := by
  unfold Master.dispatch_errors Master.present_addrs
  rw [List.filterMap_eq_nil_iff]
  constructor
  · intro h loc hloc rs hrs
    apply h
    rw [List.mem_filterMap]
    exact ⟨loc, hloc, by rw [hrs]; rfl⟩
  · intro h addr haddr
    rw [List.mem_filterMap] at haddr
    obtain ⟨loc, hloc, hmap⟩ := haddr
    cases hf : map.find loc with
    | none => rw [hf] at hmap; cases hmap
    | some rs =>
      rw [hf] at hmap
      have : rs.addr = addr := Option.some.inj hmap
      rw [← this]
      exact h loc hloc rs hf

theorem Master.mem_of_absent_getLast (map : ServerMap) (locations : List StdString)
    (loc : StdString) (h : (Master.absent_locations map locations).getLast? = some loc) :
    loc ∈ locations ∧ map.find loc = none := by
  have hmem : loc ∈ Master.absent_locations map locations := List.mem_of_getLast?_eq_some h
  unfold Master.absent_locations at hmem
  rw [List.mem_filter] at hmem
  refine ⟨hmem.1, ?_⟩
  cases hf : map.find loc with
  | none => rfl
  | some rs =>
    have := hmem.2
    rw [hf] at this
    simp at this

end Hypertable

namespace Hypertable

open Hyperspace

/-- C14 (as the code has it): the startup does not keep a `last_table_id` that
is there already.  Whenever the constructor runs to its end, whatever the
namespace held before, the attribute `last_table_id` of `/hypertable/master`
is the word 0 and so is the table counter in memory: `initialize` writes 0
without looking, and the constructor then reads that 0 back. -/
theorem Master.startup_resets_last_table_id (V : Error.Code → Int) (K : Constants)
    (C : Collaborators) (m m1 : Master)
    (h : Master.construct V K C m = (Outcome.returned (), m1)) :
    m1.m_last_table_id = 0 ∧
      m1.hyperspace.attr (normalize_name "/hypertable/master".toList)
        "last_table_id".toList = some (word_bytes 0) := by
  unfold Master.construct at h
  dsimp only at h
  rw [Step.andThen_eq_returned] at h
  obtain ⟨ok, ma, hinit, h⟩ := h
  split at h
  · cases h
  rename_i hok
  have hok : ok = true := by simpa using hok
  subst hok
  have hattr := Master.initialize_returned V K _ _ hinit
  rw [Step.andThen_eq_returned] at h
  obtain ⟨handle, mb, hopen, h⟩ := h
  rw [Master.hs_eq_returned] at hopen
  obtain ⟨hs1, hopen, rfl⟩ := hopen
  dsimp only at h
  rw [Step.andThen_eq_returned] at h
  obtain ⟨status, mc, hlock, h⟩ := h
  rw [Master.hs_eq_returned] at hlock
  obtain ⟨hs2, hlock, rfl⟩ := hlock
  have hs2eq : hs2 = hs1 := by
    have := hs_try_lock_state V handle hs1
    dsimp only at hlock
    rw [hlock] at this
    exact this
  subst hs2eq
  split at h
  · cases h
  split at h
  · cases h
  rename_i addr_str haddr
  rw [Step.andThen_eq_returned] at h
  obtain ⟨_, md, hset, h⟩ := h
  rw [Master.hs_eq_returned] at hset
  obtain ⟨hs3, hset, rfl⟩ := hset
  dsimp only at hset h
  obtain ⟨hhandle, _, _, _⟩ := hs_open_returned V K _ _ _ _ _ hopen
  obtain ⟨path, hpath, _, hhandles, hother, _⟩ := hs_attr_set_attr V _ _ _ _ _ hset
  have hattr3 : hs3.attr (normalize_name "/hypertable/master".toList) "last_table_id".toList =
      some (word_bytes 0) := by
    rw [hother _ _ (by decide)]
    exact hs_open_attr V K _ _ _ _ _ hopen _ _ _ hattr
  have hget := hs_attr_get_of_attr V handle "last_table_id".toList _ _ hs3
    (by rw [hhandles]; exact hhandle) hattr3
  rw [Master.hs_of_eq _ _ _ _ hget] at h
  rw [Step.andThen_returned] at h
  rw [if_neg (by decide)] at h
  rw [Step.catching_returned, Step.andThen_returned] at h
  dsimp only at h
  have hscan := Master.scan_servers_directory_last_table_id V K
    { ma with hyperspace := hs3, m_master_file_handle := handle,
              m_last_table_id := le_value (word_bytes 0) }
  rw [h] at hscan
  refine ⟨hscan, ?_⟩
  have hkeep := Master.scan_servers_directory_keeps_master_attr V K
    { ma with hyperspace := hs3, m_master_file_handle := handle,
              m_last_table_id := le_value (word_bytes 0) }
    "last_table_id".toList (word_bytes 0) hattr3
  rw [h] at hkeep
  exact hkeep

/-- The startup on a namespace whose master file holds `last_table_id` 5: the
constructor runs to its end, and counter and attribute are 0. -/
theorem Master.startup_resets_last_table_id_witness :
    (installed_namespace [5, 0, 0, 0]).attr (normalize_name "/hypertable/master".toList)
        "last_table_id".toList = some [5, 0, 0, 0] ∧
      ∃ m1, Master.construct Error.sample_numbering sample_constants
          (sample_collaborators [] []) (master_on (installed_namespace [5, 0, 0, 0])) =
            (Outcome.returned (), m1) ∧
        m1.m_last_table_id = 0 ∧
        m1.hyperspace.attr (normalize_name "/hypertable/master".toList)
          "last_table_id".toList = some [0, 0, 0, 0] :=
  ⟨by decide!, _,
    Step.eq_of_is_returned _ (by decide!),
    Master.startup_resets_last_table_id Error.sample_numbering sample_constants
      (sample_collaborators [] []) (master_on (installed_namespace [5, 0, 0, 0])) _
      (Step.eq_of_is_returned _ (by decide!))⟩

/-- C15 (as amended): table ids.  A `create_table` that returns has, for the
table named METADATA, written 0 as `table_id` of the table file and left the
table counter as it was; for any other table it has advanced the counter to
(previous + 1) mod 2^32, written that word as `table_id` of the table file and
as `last_table_id` of the file the master's handle is open on.  Below
2^32 - 1 the new id is previous + 1, hence greater than the previous one and
not 0. -/
theorem Master.create_table_allocates (V : Error.Code → Int) (K : Constants)
    (C : Collaborators) (tablename schemastr : StdString) (m m1 : Master)
    (h : Master.create_table V K C tablename schemastr m = (Outcome.returned (), m1)) :
    (tablename = "METADATA".toList →
        m1.m_last_table_id = m.m_last_table_id ∧
        m1.hyperspace.attr (normalize_name ("/hypertable/tables/".toList ++ tablename))
          "table_id".toList = some (word_bytes 0)) ∧
      (tablename ≠ "METADATA".toList →
        m1.m_last_table_id = (m.m_last_table_id + 1) % 4294967296 ∧
        m1.hyperspace.attr (normalize_name ("/hypertable/tables/".toList ++ tablename))
          "table_id".toList = some (word_bytes m1.m_last_table_id) ∧
        (∀ path, m.hyperspace.handles m.m_master_file_handle = some path →
          m.hyperspace.handles m.hyperspace.next_handle = none →
          m1.hyperspace.attr path "last_table_id".toList =
            some (word_bytes m1.m_last_table_id)) ∧
        (m.m_last_table_id < 4294967295 →
          m1.m_last_table_id = m.m_last_table_id + 1 ∧ m1.m_last_table_id ≠ 0)) := by
  unfold Master.create_table at h
  dsimp only at h
  rw [Step.andThen_eq_returned] at h
  obtain ⟨table_exists, ma, hex, h⟩ := h
  rw [Master.hs_eq_returned] at hex
  obtain ⟨hs0, hex, rfl⟩ := hex
  have hs0eq : hs0 = m.hyperspace := (congrArg Prod.snd hex).symm
  subst hs0eq
  split at h
  · cases h
  split at h
  · cases h
  rw [Step.andThen_eq_returned] at h
  obtain ⟨handle, mb, hopen, h⟩ := h
  rw [Master.hs_eq_returned] at hopen
  obtain ⟨hs1, hopen, rfl⟩ := hopen
  dsimp only at hopen
  obtain ⟨hhandle, _, _, _⟩ := hs_open_returned V K _ _ _ _ _ hopen
  obtain ⟨hnext, hold⟩ := hs_open_handles V K _ _ _ _ _ hopen
  rw [Step.andThen_eq_returned] at h
  obtain ⟨table_id, mc, hid, h⟩ := h
  rw [Step.andThen_eq_returned] at h
  obtain ⟨_, md, hset1, h⟩ := h
  rw [Master.hs_eq_returned] at hset1
  obtain ⟨hs3, hset1, rfl⟩ := hset1
  rw [Step.andThen_eq_returned] at h
  obtain ⟨_, me, hset2, h⟩ := h
  rw [Master.hs_eq_returned] at hset2
  obtain ⟨hs4, hset2, rfl⟩ := hset2
  rw [Step.andThen_eq_returned] at h
  obtain ⟨_, mf, hclose, h⟩ := h
  rw [Master.hs_eq_returned] at hclose
  obtain ⟨hs5, hclose, rfl⟩ := hclose
  dsimp only at hset1 hset2 hclose h
  -- what the rest of the function leaves alone
  have htail : m1.hyperspace = hs5 ∧ m1.m_last_table_id = mc.m_last_table_id := by
    have hm1 := (congrArg Prod.snd h).symm
    dsimp only at hm1
    rw [hm1]
    split
    · split
      · exact ⟨rfl, rfl⟩
      · constructor
        · apply Step.andThen_preserves (fun m2 => m2.hyperspace = hs5)
          · rw [(Master.mutator_set_flush_frame C _ _).1]
          intro _ m7 h7
          apply Step.andThen_preserves (fun m2 => m2.hyperspace = hs5)
          · rw [(Master.next_server_frame _).1]
            exact h7
          intro addr m8 h8
          apply Step.catching_preserves (fun m2 => m2.hyperspace = hs5)
          · rw [(Master.rsc_load_range_frame C _ _).1]
            exact h8
          · intro e m9 h9
            exact h9
        · apply Step.andThen_preserves (fun m2 => m2.m_last_table_id = mc.m_last_table_id)
          · rw [(Master.mutator_set_flush_frame C _ _).2.1]
          intro _ m7 h7
          apply Step.andThen_preserves (fun m2 => m2.m_last_table_id = mc.m_last_table_id)
          · rw [(Master.next_server_frame _).2.1]
            exact h7
          intro addr m8 h8
          apply Step.catching_preserves (fun m2 => m2.m_last_table_id = mc.m_last_table_id)
          · rw [(Master.rsc_load_range_frame C _ _).2.1]
            exact h8
          · intro e m9 h9
            exact h9
    · exact ⟨rfl, rfl⟩
  obtain ⟨hhs, hlast⟩ := htail
  obtain ⟨path1, hpath1, hattr1, _, hother1, _⟩ := hs_attr_set_attr V _ _ _ _ _ hset1
  obtain ⟨path2, _, _, _, hother2, _⟩ := hs_attr_set_attr V _ _ _ _ _ hset2
  -- the attributes after the closing of the table file
  have hkeep1 : m1.hyperspace.attr path1 "table_id".toList = some (word_bytes table_id) := by
    rw [hhs, hs_close_attr V _ _ _ hclose, hother2 _ _ (by decide)]
    exact hattr1
  have hkeep2 : ∀ p, m1.hyperspace.attr p "last_table_id".toList =
      mc.hyperspace.attr p "last_table_id".toList := by
    intro p
    rw [hhs, hs_close_attr V _ _ _ hclose, hother2 _ _ (by decide), hother1 _ _ (by decide)]
  split at hid
  · rename_i hmeta
    cases hid
    dsimp only at hpath1 hlast
    rw [hhandle] at hpath1
    have hp1 := Option.some.inj hpath1
    subst hp1
    exact ⟨fun _ => ⟨hlast, hkeep1⟩, fun hne => absurd hmeta hne⟩
  · rename_i hmeta
    dsimp only at hid
    rw [Step.andThen_eq_returned] at hid
    obtain ⟨_, mg, hset0, hid⟩ := hid
    rw [Master.hs_eq_returned] at hset0
    obtain ⟨hs2, hset0, rfl⟩ := hset0
    cases hid
    dsimp only at hset0 hpath1 hlast hkeep2
    obtain ⟨path0, hpath0, hattr0, hhandles0, _, _⟩ := hs_attr_set_attr V _ _ _ _ _ hset0
    rw [hhandles0, hhandle] at hpath1
    have hp1 := Option.some.inj hpath1
    subst hp1
    refine ⟨fun he => absurd he hmeta, fun _ => ⟨hlast, ?_, ?_, ?_⟩⟩
    · rw [hlast]
      exact hkeep1
    · intro path hmaster hfresh
      have hne : m.m_master_file_handle ≠ m.hyperspace.next_handle := by
        intro hc
        rw [hc, hfresh] at hmaster
        cases hmaster
      rw [hold _ hne, hmaster] at hpath0
      have hp0 := Option.some.inj hpath0
      subst hp0
      rw [hkeep2, hlast]
      exact hattr0
    · intro hlt
      rw [hlast, atomic_inc_return_of_lt _ hlt]
      exact ⟨rfl, by omega⟩

/-- C15 as the claim has it fails at the top of the counter: with
`last_table_id` at 2^32 - 1, creating the table `u` returns, the table gets
the id 0 (the id of METADATA), and the counter is 0, below where it was. -/
theorem Master.create_table_wraps_to_zero :
    ∃ m1, Master.create_table Error.sample_numbering sample_constants
        (sample_collaborators [] []) "u".toList "<Schema/>".toList
        (running_master 4294967295 [sample_server "a".toList 38060]) =
          (Outcome.returned (), m1) ∧
      m1.hyperspace.attr "/hypertable/tables/u".toList "table_id".toList =
        some [0, 0, 0, 0] ∧
      m1.m_last_table_id = 0 :=
  ⟨_, Step.eq_of_is_returned _ (by decide!), by decide!, by decide!⟩

/-- C15 as amended, on a sample: with the counter at 5, creating the table `u`
returns, the table gets the id 6, and 6 is the counter and the `last_table_id`
of the master file. -/
theorem Master.create_table_allocates_witness :
    ∃ m1, Master.create_table Error.sample_numbering sample_constants
        (sample_collaborators [] []) "u".toList "<Schema/>".toList
        (running_master 5 [sample_server "a".toList 38060]) = (Outcome.returned (), m1) ∧
      m1.m_last_table_id = 6 ∧
      m1.hyperspace.attr (normalize_name "/hypertable/tables/u".toList) "table_id".toList =
        some (word_bytes m1.m_last_table_id) ∧
      m1.hyperspace.attr "/hypertable/master".toList "last_table_id".toList =
        some (word_bytes m1.m_last_table_id) :=
  ⟨_, Step.eq_of_is_returned _ (by decide!),
    ((Master.create_table_allocates Error.sample_numbering sample_constants
      (sample_collaborators [] []) "u".toList "<Schema/>".toList
      (running_master 5 [sample_server "a".toList 38060]) _
      (Step.eq_of_is_returned _ (by decide!))).2 (by decide)).1,
    ((Master.create_table_allocates Error.sample_numbering sample_constants
      (sample_collaborators [] []) "u".toList "<Schema/>".toList
      (running_master 5 [sample_server "a".toList 38060]) _
      (Step.eq_of_is_returned _ (by decide!))).2 (by decide)).2.1,
    ((Master.create_table_allocates Error.sample_numbering sample_constants
      (sample_collaborators [] []) "u".toList "<Schema/>".toList
      (running_master 5 [sample_server "a".toList 38060]) _
      (Step.eq_of_is_returned _ (by decide!))).2 (by decide)).2.2.1
        "/hypertable/master".toList (by decide!) (by decide!)⟩

/-- C16: `create_table` rejects before it changes anything.  When the table
file exists, or when the schema is not valid, `create_table` throws and leaves
the master and its collaborators as they were (no file, no attribute, no
broker directory, the counter as it was); the code is `MASTER_TABLE_EXISTS`
when the file exists and `MASTER_BAD_SCHEMA` otherwise, and the variant with a
callback does no more than hand code and message to the callback. -/
theorem Master.create_table_rejects_first (V : Error.Code → Int) (K : Constants)
    (C : Collaborators) (tablename schemastr : StdString) (m : Master)
    (h : (m.hyperspace.nodes
          (normalize_name ("/hypertable/tables/".toList ++ tablename))).isSome = true ∨
        (C.parse_schema schemastr).is_valid = false) :
    ∃ e, Master.create_table V K C tablename schemastr m = (Outcome.thrown e, m) ∧
      Master.create_table_cb V K C tablename schemastr m =
        (Outcome.returned (), m.respond (Response.error e.code e.what)) ∧
      e.code =
        (if (m.hyperspace.nodes
            (normalize_name ("/hypertable/tables/".toList ++ tablename))).isSome = true
          then V Error.Code.MASTER_TABLE_EXISTS else V Error.Code.MASTER_BAD_SCHEMA) := by
  have key : ∃ e, Master.create_table V K C tablename schemastr m = (Outcome.thrown e, m) ∧
      e.code =
        (if (m.hyperspace.nodes
            (normalize_name ("/hypertable/tables/".toList ++ tablename))).isSome = true
          then V Error.Code.MASTER_TABLE_EXISTS else V Error.Code.MASTER_BAD_SCHEMA) := by
    unfold Master.create_table
    dsimp only
    by_cases hex : (m.hyperspace.nodes
        (normalize_name ("/hypertable/tables/".toList ++ tablename))).isSome = true
    · refine ⟨HT_THROW (V Error.Code.MASTER_TABLE_EXISTS) tablename, ?_, ?_⟩
      · simp only [Master.hs, hs_exists, hex, Step.andThen, if_true]
      · rw [if_pos hex]
        rfl
    · have hinvalid : (C.parse_schema schemastr).is_valid = false := by
        rcases h with h | h
        · exact absurd h hex
        · exact h
      refine ⟨HT_THROW (V Error.Code.MASTER_BAD_SCHEMA)
        (C.parse_schema schemastr).error_string, ?_, ?_⟩
      · simp only [Master.hs, hs_exists, hex, Step.andThen, hinvalid, if_true]
        simp
      · rw [if_neg hex]
        rfl
  obtain ⟨e, h1, h2⟩ := key
  refine ⟨e, h1, ?_, h2⟩
  unfold Master.create_table_cb
  rw [h1]
  rfl

/-- C16 on samples: the table `t` exists, and the empty schema is not valid. -/
theorem Master.create_table_rejects_first_witness :
    (∃ e, Master.create_table Error.sample_numbering sample_constants
        (sample_collaborators [] []) "t".toList "<Schema/>".toList (running_master 5 []) =
          (Outcome.thrown e, running_master 5 []) ∧
        e.code = Error.sample_numbering Error.Code.MASTER_TABLE_EXISTS) ∧
      (∃ e, Master.create_table Error.sample_numbering sample_constants
        (sample_collaborators [] []) "u".toList [] (running_master 5 []) =
          (Outcome.thrown e, running_master 5 []) ∧
        e.code = Error.sample_numbering Error.Code.MASTER_BAD_SCHEMA) := by
  constructor
  · obtain ⟨e, h1, _, h3⟩ := Master.create_table_rejects_first Error.sample_numbering
      sample_constants (sample_collaborators [] []) "t".toList "<Schema/>".toList
      (running_master 5 []) (Or.inl (by decide!))
    exact ⟨e, h1, by rw [h3]; decide!⟩
  · obtain ⟨e, h1, _, h3⟩ := Master.create_table_rejects_first Error.sample_numbering
      sample_constants (sample_collaborators [] []) "u".toList [] (running_master 5 [])
      (Or.inr (by decide))
    exact ⟨e, h1, by rw [h3]; decide!⟩

/-- C17: server admission decides on the lock.  Take a location that is not
in the server map, whose server file opens, and let `status` be what
`try_lock` reports for it.  Then `register_server`, when the location
resolves to an address, answers `response_ok` and goes on to the loading of
the METADATA ranges if the master is not initialized; after it the location
is in the server map exactly when `status` is not GRANTED, and with GRANTED
the map is as before, the server file is gone and the handle is closed.  The
same holds for the pass of the loop of `scan_servers_directory` over a
directory entry with that name. -/
theorem Master.admission_decides_on_lock (V : Error.Code → Int) (K : Constants)
    (C : Collaborators) (location : StdString) (addr alias_ : InetAddr) (m : Master)
    (handle status : Nat) (hs1 : HsService)
    (habsent : m.m_server_map.find location = none)
    (hopen : hs_open V K ("/hypertable/servers/".toList ++ location)
      (K.OPEN_FLAG_READ ||| K.OPEN_FLAG_WRITE ||| K.OPEN_FLAG_LOCK) m.hyperspace =
        (Outcome.returned handle, hs1))
    (hlock : hs_try_lock V handle hs1 = (Outcome.returned status, hs1)) :
    (C.location_to_addr location = some alias_ →
      ∃ m1, Master.register_server_admission V K C location addr m =
          (Outcome.returned (some alias_), m1) ∧
        Master.register_server V K C location addr m =
          (if m.m_initialized = false then Master.load_metadata_ranges V K C alias_ m1
            else (Outcome.returned (), m1)) ∧
        m1.responses = m.responses ++ [Response.response_ok] ∧
        ((((Master.register_server V K C location addr m).2.m_server_map.find
            location).isSome = true) ↔ status ≠ K.LOCK_STATUS_GRANTED) ∧
        (status = K.LOCK_STATUS_GRANTED →
          (Master.register_server V K C location addr m).2.m_server_map = m.m_server_map ∧
          m1.hyperspace.nodes
            (normalize_name ("/hypertable/servers/".toList ++ location)) = none ∧
          m1.hyperspace.handles handle = none)) ∧
      (∀ (is_dir : Bool) (rest : List DirEntry),
        ∃ m1, Master.scan_entries V K ({ name := location, is_dir := is_dir } :: rest) m =
            Master.scan_entries V K rest m1 ∧
          (((m1.m_server_map.find location).isSome = true) ↔
            status ≠ K.LOCK_STATUS_GRANTED) ∧
          (status = K.LOCK_STATUS_GRANTED →
            m1.m_server_map = m.m_server_map ∧
            m1.hyperspace.nodes
              (normalize_name ("/hypertable/servers/".toList ++ location)) = none ∧
            m1.hyperspace.handles handle = none)) := by
  constructor
  · intro halias
    obtain ⟨m1, hserver, hinit, hresp, _, hgranted, hother⟩ :=
      Master.admit_server_of_open V K
        { location := location, addr := some addr, hyperspace_handle := 0 }
        { m with aliases := m.aliases ++ [(addr, alias_)] } handle status hs1 hopen hlock
    have hadm : Master.register_server_admission V K C location addr m =
        (Outcome.returned (some alias_), m1.respond Response.response_ok) := by
      unfold Master.register_server_admission
      rw [habsent]
      simp only [Option.isSome_none, Bool.false_eq_true, if_false]
      rw [halias]
      dsimp only
      rw [hserver]
      rfl
    have hreg : Master.register_server V K C location addr m =
        (if m.m_initialized = false then
          Master.load_metadata_ranges V K C alias_ (m1.respond Response.response_ok)
          else (Outcome.returned (), m1.respond Response.response_ok)) := by
      unfold Master.register_server
      rw [hadm, Step.andThen_returned]
      dsimp only
      have : (m1.respond Response.response_ok).m_initialized = m.m_initialized := hinit
      rw [this]
    have hmap : (Master.register_server V K C location addr m).2.m_server_map =
        m1.m_server_map := by
      rw [hreg]
      split
      · rw [Master.load_metadata_ranges_server_map]
        rfl
      · rfl
    refine ⟨m1.respond Response.response_ok, hadm, hreg, ?_, ?_, ?_⟩
    · show m1.responses ++ [Response.response_ok] = m.responses ++ [Response.response_ok]
      rw [hresp]
    · rw [hmap]
      by_cases hg : status = K.LOCK_STATUS_GRANTED
      · rw [(hgranted hg).1]
        show ((m.m_server_map.find location).isSome = true) ↔ _
        rw [habsent]
        simp [hg]
      · rw [(hother hg).1, ServerMap.find_assign_self]
        simp [hg]
    · intro hg
      rw [hmap]
      exact ⟨(hgranted hg).1, (hgranted hg).2.1, (hgranted hg).2.2⟩
  · intro is_dir rest
    obtain ⟨m1, hserver, _, _, _, hgranted, hother⟩ :=
      Master.admit_server_of_open V K
        { location := location, addr := none, hyperspace_handle := 0 } m handle status hs1
        hopen hlock
    refine ⟨m1, ?_, ?_, ?_⟩
    · show Master.scan_entries V K ({ name := location, is_dir := is_dir } :: rest) m = _
      rw [Master.scan_entries]
      dsimp only
      rw [hserver]
    · by_cases hg : status = K.LOCK_STATUS_GRANTED
      · rw [(hgranted hg).1, habsent]
        simp [hg]
      · rw [(hother hg).1, ServerMap.find_assign_self]
        simp [hg]
    · intro hg
      exact hgranted hg

/-- C17 on samples: the server file of `a` is locked by its server and the one
of `b` is not, so registering `a` enters it and registering `b` removes the
file. -/
theorem Master.admission_decides_on_lock_witness :
    ((Master.register_server Error.sample_numbering sample_constants
        (sample_collaborators [] []) "a".toList { ip := 10, port := 38060 }
        (running_master 5 [])).2.m_server_map.find "a".toList).isSome = true ∧
      (Master.register_server Error.sample_numbering sample_constants
        (sample_collaborators [] []) "b".toList { ip := 10, port := 38060 }
        (running_master 5 [])).2.m_server_map = [] := by
  constructor
  · exact ((Master.admission_decides_on_lock Error.sample_numbering sample_constants
      (sample_collaborators [] []) "a".toList { ip := 10, port := 38060 }
      { ip := 10, port := 38060 } (running_master 5 []) 2 2
      (hs_open Error.sample_numbering sample_constants "/hypertable/servers/a".toList 7
        running_namespace).2 rfl
      (Outcome.eq_of_result _ _ (by decide!))
      (Outcome.eq_of_result _ _ (by decide!))).1 (by decide!)).choose_spec.2.2.2.1.mpr
        (by decide)
  · exact (((Master.admission_decides_on_lock Error.sample_numbering sample_constants
      (sample_collaborators [] []) "b".toList { ip := 10, port := 38060 }
      { ip := 10, port := 38060 } (running_master 5 []) 2 1
      (hs_open Error.sample_numbering sample_constants "/hypertable/servers/b".toList 7
        running_namespace).2 rfl
      (Outcome.eq_of_result _ _ (by decide!))
      (Outcome.eq_of_result _ _ (by decide!))).1 (by decide!)).choose_spec.2.2.2.2
        (by decide)).1

/-- C18: `drop_table` with an unavailable server.  Take a table whose file
opens and holds a four-byte `table_id`, with the metadata table there, and let
the locations be those collected from the METADATA scan.  Then `drop_table`
returns, and after it the table file is gone exactly when every collected
location is in the server map and the drop dispatched to each of them
succeeds.  When a collected location is absent from the map and the
dispatched drops succeed, the callback gets `RANGESERVER_UNAVAILABLE` with a
collected location that is absent from the map as the message, and the table
file stays. -/
theorem Master.drop_table_unlinks_iff (V : Error.Code → Int) (K : Constants)
    (C : Collaborators) (table_name : StdString) (if_exists : Bool) (m : Master)
    (handle : Nat) (hs1 : HsService) (value_buf : List Byte)
    (hopen : hs_open V K ("/hypertable/tables/".toList ++ table_name) K.OPEN_FLAG_READ
      m.hyperspace = (Outcome.returned handle, hs1))
    (hattr : hs_attr_get V handle "table_id".toList hs1 = (Outcome.returned value_buf, hs1))
    (hlen : value_buf.length = 4)
    (hptr : m.m_metadata_table_ptr = true)
    (hcode : V Error.Code.RANGESERVER_UNAVAILABLE ≠ V Error.Code.OK) :
    (Master.drop_table V K C table_name if_exists m).1 = Outcome.returned () ∧
      ((Master.drop_table V K C table_name if_exists m).2.hyperspace.nodes
          (normalize_name ("/hypertable/tables/".toList ++ table_name)) = none ↔
        (∀ loc ∈ Master.unique_locations (C.location_cells (le_value value_buf)),
          (m.m_server_map.find loc).isSome = true) ∧
        (∀ loc ∈ Master.unique_locations (C.location_cells (le_value value_buf)),
          ∀ rs, m.m_server_map.find loc = some rs → C.drop_table_fault rs.addr = none)) ∧
      ((∃ loc ∈ Master.unique_locations (C.location_cells (le_value value_buf)),
          m.m_server_map.find loc = none) →
        (∀ loc ∈ Master.unique_locations (C.location_cells (le_value value_buf)),
          ∀ rs, m.m_server_map.find loc = some rs → C.drop_table_fault rs.addr = none) →
        ∃ loc ∈ Master.unique_locations (C.location_cells (le_value value_buf)),
          m.m_server_map.find loc = none ∧
          (Master.drop_table V K C table_name if_exists m).2.responses =
            m.responses ++ [Response.error (V Error.Code.RANGESERVER_UNAVAILABLE) loc] ∧
          (Master.drop_table V K C table_name if_exists m).2.hyperspace.nodes
            (normalize_name ("/hypertable/tables/".toList ++ table_name)) ≠ none) := by
  obtain ⟨_, ⟨node, hnode⟩, _, _⟩ := hs_open_returned V K _ _ _ _ _ hopen
  rw [Master.drop_table_of_open V K C table_name if_exists m handle hs1 value_buf hopen hattr
    hlen hptr hcode]
  generalize Master.unique_locations (C.location_cells (le_value value_buf)) = locations
  refine ⟨rfl, ?_, ?_⟩
  · rw [← Master.absent_locations_eq_nil, ← Master.dispatch_errors_eq_nil]
    unfold Master.drop_table_result
    cases hd : Master.dispatch_errors C (Master.present_addrs m.m_server_map locations) with
    | cons error tail =>
      dsimp only
      constructor
      · intro hc
        have : hs1.nodes (normalize_name ("/hypertable/tables/".toList ++ table_name)) =
            none := hc
        rw [hnode] at this
        cases this
      · rintro ⟨_, hc⟩
        cases hc
    | nil =>
      dsimp only
      cases ha : (Master.absent_locations m.m_server_map locations).getLast? with
      | some loc =>
        dsimp only
        constructor
        · intro hc
          have : hs1.nodes (normalize_name ("/hypertable/tables/".toList ++ table_name)) =
              none := hc
          rw [hnode] at this
          cases this
        · rintro ⟨hc, _⟩
          rw [hc] at ha
          cases ha
      | none =>
        dsimp only
        constructor
        · intro _
          exact ⟨List.getLast?_eq_none_iff.mp ha, rfl⟩
        · intro _
          simp [Master.respond, HsService.put]
  · rintro ⟨loc0, hloc0, habsent0⟩ hsucceed
    have hd := (Master.dispatch_errors_eq_nil C m.m_server_map locations).mpr hsucceed
    unfold Master.drop_table_result
    rw [hd]
    dsimp only
    cases ha : (Master.absent_locations m.m_server_map locations).getLast? with
    | none =>
      have hall := (Master.absent_locations_eq_nil m.m_server_map locations).mp
        (List.getLast?_eq_none_iff.mp ha) loc0 hloc0
      rw [habsent0] at hall
      cases hall
    | some loc =>
      dsimp only
      obtain ⟨hmem, hnone⟩ := Master.mem_of_absent_getLast m.m_server_map locations loc ha
      refine ⟨loc, hmem, hnone, rfl, ?_⟩
      intro hc
      have : hs1.nodes (normalize_name ("/hypertable/tables/".toList ++ table_name)) =
          none := hc
      rw [hnode] at this
      cases this

/-- C18 on a sample: the table `t` has ranges on `a`, which is in the server
map, and on `b`, which is not; the callback gets `RANGESERVER_UNAVAILABLE`
with `b`, and the table file stays. -/
theorem Master.drop_table_unlinks_iff_witness :
    (Master.drop_table Error.sample_numbering sample_constants
        (sample_collaborators ["a".toList, "b".toList] []) "t".toList false
        (running_master 5 [sample_server "a".toList 38060])).2.responses =
      [Response.error (Error.sample_numbering Error.Code.RANGESERVER_UNAVAILABLE)
        "b".toList] ∧
    (Master.drop_table Error.sample_numbering sample_constants
        (sample_collaborators ["a".toList, "b".toList] []) "t".toList false
        (running_master 5 [sample_server "a".toList 38060])).2.hyperspace.nodes
      (normalize_name "/hypertable/tables/t".toList) ≠ none := by
  have h := (Master.drop_table_unlinks_iff Error.sample_numbering sample_constants
    (sample_collaborators ["a".toList, "b".toList] []) "t".toList false
    (running_master 5 [sample_server "a".toList 38060]) 2
    (hs_open Error.sample_numbering sample_constants "/hypertable/tables/t".toList 1
      running_namespace).2 [1, 0, 0, 0]
    (Outcome.eq_of_result _ _ (by decide!))
    (hs_attr_get_of_attr _ _ _ "/hypertable/tables/t".toList _ _ (by decide!) (by decide!))
    (by decide) rfl (by decide)).2.2
    ⟨"b".toList, by decide!, rfl⟩ (by decide!)
  obtain ⟨loc, _, _, hresp, hnode⟩ := h
  refine ⟨?_, hnode⟩
  decide!

/-- C19 (as amended): what `drop_table` reports.  Under the conditions of C18
the callback gets exactly one call: when a dispatched drop failed, the first
error the dispatch handler holds; otherwise, when collected locations are
absent from the server map, `RANGESERVER_UNAVAILABLE` with the last absent
location in the order of the location set; and `response_ok` when neither is
the case. -/
theorem Master.drop_table_reports (V : Error.Code → Int) (K : Constants)
    (C : Collaborators) (table_name : StdString) (if_exists : Bool) (m : Master)
    (handle : Nat) (hs1 : HsService) (value_buf : List Byte)
    (hopen : hs_open V K ("/hypertable/tables/".toList ++ table_name) K.OPEN_FLAG_READ
      m.hyperspace = (Outcome.returned handle, hs1))
    (hattr : hs_attr_get V handle "table_id".toList hs1 = (Outcome.returned value_buf, hs1))
    (hlen : value_buf.length = 4)
    (hptr : m.m_metadata_table_ptr = true)
    (hcode : V Error.Code.RANGESERVER_UNAVAILABLE ≠ V Error.Code.OK) :
    (Master.drop_table V K C table_name if_exists m).2.responses =
      m.responses ++
        [match Master.dispatch_errors C (Master.present_addrs m.m_server_map
            (Master.unique_locations (C.location_cells (le_value value_buf)))) with
          | error :: _ => Response.error error.1 error.2
          | [] =>
            match (Master.absent_locations m.m_server_map
                (Master.unique_locations
                  (C.location_cells (le_value value_buf)))).getLast? with
            | some loc => Response.error (V Error.Code.RANGESERVER_UNAVAILABLE) loc
            | none => Response.response_ok] := by
  rw [Master.drop_table_of_open V K C table_name if_exists m handle hs1 value_buf hopen hattr
    hlen hptr hcode]
  unfold Master.drop_table_result
  generalize Master.unique_locations (C.location_cells (le_value value_buf)) = locations
  cases hd : Master.dispatch_errors C (Master.present_addrs m.m_server_map locations) with
  | cons error tail => rfl
  | nil =>
    dsimp only
    cases ha : (Master.absent_locations m.m_server_map locations).getLast? with
    | some loc => rfl
    | none => rfl

/-- C19 on a sample: the table `t` has ranges on `b` and `c`, neither in the
server map, and the callback gets `RANGESERVER_UNAVAILABLE` with `c`. -/
theorem Master.drop_table_reports_witness :
    (Master.drop_table Error.sample_numbering sample_constants
        (sample_collaborators ["b".toList, "c".toList] []) "t".toList false
        (running_master 5 [sample_server "a".toList 38060])).2.responses =
      [Response.error (Error.sample_numbering Error.Code.RANGESERVER_UNAVAILABLE)
        "c".toList] := by
  have h := Master.drop_table_reports Error.sample_numbering sample_constants
    (sample_collaborators ["b".toList, "c".toList] []) "t".toList false
    (running_master 5 [sample_server "a".toList 38060]) 2
    (hs_open Error.sample_numbering sample_constants "/hypertable/tables/t".toList 1
      running_namespace).2 [1, 0, 0, 0]
    (Outcome.eq_of_result _ _ (by decide!))
    (hs_attr_get_of_attr _ _ _ "/hypertable/tables/t".toList _ _ (by decide!) (by decide!))
    (by decide) rfl (by decide)
  rw [h]
  decide!

/-- C19 as the claim has it fails twice.  With ranges on `b` and `c`, both
absent from the server map, `b` is the first absent location the loop meets
and the message names `c`.  With ranges on `a`, whose drop fails, and on `b`,
which is absent, the callback gets the error of the dispatch and not
`RANGESERVER_UNAVAILABLE`. -/
theorem Master.drop_table_reports_last_error :
    (Master.unique_locations ["b".toList, "c".toList] = ["b".toList, "c".toList] ∧
      (Master.drop_table Error.sample_numbering sample_constants
          (sample_collaborators ["b".toList, "c".toList] []) "t".toList false
          (running_master 5 [sample_server "a".toList 38060])).2.responses =
        [Response.error (Error.sample_numbering Error.Code.RANGESERVER_UNAVAILABLE)
          "c".toList]) ∧
      (Master.drop_table Error.sample_numbering sample_constants
          (sample_collaborators ["a".toList, "b".toList] [{ ip := 10, port := 38060 }])
          "t".toList false (running_master 5 [sample_server "a".toList 38060])).2.responses =
        [Response.error 7 "drop failed".toList] := by
  decide!

end Hypertable

/-! ## Rendering, error history and the cursor of the server map: lemmas -/

namespace Hypertable

open Hyperspace

theorem cause_frames_cons (text_map : Error.TextMap) (before : Int) (c : ExceptionFrame)
    (rest : List ExceptionFrame) :
    cause_frames text_map before (c :: rest) =
      cause_frame text_map before c :: cause_frames text_map c.code rest := rfl

theorem cause_frames_of_text_eq (tm1 tm2 : Error.TextMap)
    (h : ∀ key, Error.TextMap.text tm1 key = Error.TextMap.text tm2 key)
    (causes : List ExceptionFrame) :
    ∀ before, cause_frames tm1 before causes = cause_frames tm2 before causes := by
  induction causes with
  | nil => intro before; rfl
  | cons c rest ih =>
    intro before
    rw [cause_frames_cons, cause_frames_cons, ih]
    unfold cause_frame
    rw [Error.get_text_fst, Error.get_text_fst, h]

theorem put_causes_eq (causes : List ExceptionFrame) :
    ∀ (prev_code : Int) (out : StdString) (text_map : Error.TextMap),
      (put_causes causes prev_code (out, text_map)).1 =
        out ++ (cause_frames text_map prev_code causes).flatten := by
  induction causes with
  | nil =>
    intro prev_code out text_map
    simp [put_causes, cause_frames]
  | cons c rest ih =>
    intro prev_code out text_map
    unfold put_causes
    dsimp only
    by_cases hcode : c.code = prev_code
    · rw [if_neg (not_not.mpr hcode), ih, cause_frames_cons]
      unfold cause_frame
      rw [if_neg (not_not.mpr hcode), hcode]
      simp
    · rw [if_pos hcode, ih]
      rw [cause_frames_of_text_eq _ text_map
        (fun key => Error.get_text_keeps_text c.code key text_map)]
      rw [cause_frames_cons]
      unfold cause_frame
      rw [if_pos hcode]
      simp

theorem cause_frames_length (text_map : Error.TextMap) (causes : List ExceptionFrame) :
    ∀ before, (cause_frames text_map before causes).length = causes.length := by
  induction causes with
  | nil => intro before; rfl
  | cons c rest ih =>
    intro before
    simp [cause_frames, ih]

theorem put_exception_eq (e : ExceptionChain) (out : StdString) (text_map : Error.TextMap) :
    (put_exception e (out, text_map)).1 =
      out ++ top_frame text_map e.top ++
        (cause_frames text_map e.top.code e.causes).flatten := by
  unfold put_exception
  dsimp only
  rw [put_causes_eq]
  rw [cause_frames_of_text_eq _ text_map
    (fun key => Error.get_text_keeps_text e.top.code key text_map)]
  unfold top_frame
  by_cases hline : e.top.line = 0
  · simp [hline]
  · simp [hline]

theorem cause_frames_eq_zipWith (text_map : Error.TextMap) (causes : List ExceptionFrame) :
    ∀ before, cause_frames text_map before causes =
      List.zipWith (cause_frame text_map) (before :: causes.map (fun c => c.code)) causes := by
  induction causes with
  | nil => intro before; rfl
  | cons c rest ih =>
    intro before
    rw [cause_frames_cons, ih]
    rfl

end Hypertable

namespace Hypertable

open Hyperspace
namespace RangeLocator

theorem pop_excess_eq (n : Nat) (l : List ExceptionChain) :
    pop_excess n l = last_n n l := by
  induction l with
  | nil => simp [pop_excess, last_n]
  | cons e rest ih =>
    unfold pop_excess
    by_cases h : (e :: rest).length > n
    · rw [if_pos h, ih]
      unfold last_n
      have hlen : (e :: rest).length - n = (rest.length - n) + 1 := by
        simp only [List.length_cons] at h ⊢
        omega
      rw [hlen, List.drop_succ_cons]
    · rw [if_neg h]
      unfold last_n
      have hlen : (e :: rest).length - n = 0 := by omega
      rw [hlen, List.drop_zero]

theorem last_n_length (n : Nat) (l : List ExceptionChain) : (last_n n l).length ≤ n := by
  unfold last_n
  rw [List.length_drop]
  omega

theorem last_n_append_singleton (n : Nat) (l : List ExceptionChain) (e : ExceptionChain) :
    last_n n (last_n n l ++ [e]) = last_n n (l ++ [e]) := by
  unfold last_n
  by_cases h : l.length ≤ n
  · have h0 : l.length - n = 0 := by omega
    rw [h0, List.drop_zero]
  · have h1 : (List.drop (l.length - n) l).length = n := by
      rw [List.length_drop]
      omega
    rw [List.length_append, List.length_append, h1, List.length_singleton]
    have h2 : l.length + 1 - n = (l.length - n) + 1 := by omega
    rw [h2]
    have h3 : n + 1 - n = 1 := by omega
    rw [h3]
    rw [← List.drop_drop]
    congr 1
    rw [List.drop_append_of_le_length (by omega)]

theorem last_n_nil (n : Nat) : last_n n [] = [] := by
  simp [last_n]

theorem run_append (n : Nat) (calls : List HistoryCall) (call : HistoryCall)
    (r : RangeLocator) :
    run n (calls ++ [call]) r = HistoryCall.run n (run n calls r) call := by
  unfold run
  rw [List.foldl_append]
  rfl

theorem run_history (n : Nat) (calls : List HistoryCall) :
    (run n calls fresh).m_last_errors = last_n n (recorded_since_reset calls) := by
  induction calls using List.reverseRecOn with
  | nil =>
    show [] = last_n n []
    rw [last_n_nil]
  | append_singleton calls call ih =>
    rw [run_append]
    unfold recorded_since_reset
    rw [List.foldl_append]
    cases call with
    | record_error code msg line func file =>
      show pop_excess n ((run n calls fresh).m_last_errors ++ [_]) = _
      rw [pop_excess_eq, ih, last_n_append_singleton]
      rfl
    | record_error2 code ex msg line func file =>
      show pop_excess n ((run n calls fresh).m_last_errors ++ [_]) = _
      rw [pop_excess_eq, ih, last_n_append_singleton]
      rfl
    | clear =>
      show [] = last_n n []
      rw [last_n_nil]
    | dump =>
      show [] = last_n n []
      rw [last_n_nil]

end RangeLocator
end Hypertable

namespace Hypertable

open Hyperspace

/-! ## The server map: order, lookup and cursor -/

theorem ServerMap.find_isSome_iff (map : ServerMap) (key : StdString) :
    (map.find key).isSome = true ↔ key ∈ map.map Prod.fst := by
  unfold ServerMap.find
  induction map with
  | nil => simp
  | cons e rest ih =>
    by_cases he : e.1 = key
    · simp [List.find?_cons, he]
    · have he2 : ¬ key = e.1 := fun h => he h.symm
      rw [List.find?_cons_of_neg _ (by simpa using he), ih]
      simp [he2]

theorem ServerMap.mem_keys_assign (map : ServerMap) (key : StdString)
    (value : RangeServerState) (b : StdString) :
    b ∈ (map.assign key value).map Prod.fst ↔ b = key ∨ b ∈ map.map Prod.fst := by
  induction map with
  | nil => simp [ServerMap.assign]
  | cons e rest ih =>
    unfold ServerMap.assign
    split
    · rename_i heq
      simp only [List.map_cons, List.mem_cons]
      rw [heq]
      tauto
    · split
      · simp only [List.map_cons, List.mem_cons]
      · simp only [List.map_cons, List.mem_cons]
        rw [ih]
        tauto

theorem ServerMap.assign_ordered (map : ServerMap) (key : StdString) (value : RangeServerState)
    (h : map.ordered) : (map.assign key value).ordered := by
  unfold ServerMap.ordered at h ⊢
  induction map with
  | nil => simp [ServerMap.assign]
  | cons e rest ih =>
    unfold ServerMap.assign
    rw [List.map_cons, List.pairwise_cons] at h
    split
    · rename_i heq
      rw [List.map_cons, List.pairwise_cons]
      exact ⟨fun b hb => heq ▸ h.1 b hb, h.2⟩
    · rename_i hne
      split
      · rename_i hlt
        rw [List.map_cons, List.pairwise_cons, List.map_cons, List.pairwise_cons]
        refine ⟨?_, h⟩
        intro b hb
        rcases List.mem_cons.mp hb with hb | hb
        · rw [hb]; exact hlt
        · exact lt_trans hlt (h.1 b hb)
      · rename_i hnlt
        rw [List.map_cons, List.pairwise_cons]
        refine ⟨?_, ih h.2⟩
        have hlt : e.1 < key := by
          rcases lt_trichotomy e.1 key with h1 | h1 | h1
          · exact h1
          · exact absurd h1 hne
          · exact absurd h1 hnlt
        intro b hb
        rcases (ServerMap.mem_keys_assign rest key value b).mp hb with hb | hb
        · rw [hb]; exact hlt
        · exact h.1 b hb

theorem ServerMap.keys_erase (map : ServerMap) (key : StdString) :
    (map.erase key).map Prod.fst = (map.map Prod.fst).filter (fun k => k ≠ key) := by
  unfold ServerMap.erase
  induction map with
  | nil => rfl
  | cons e rest ih =>
    simp only [ne_eq, decide_not] at ih ⊢
    by_cases he : e.1 = key
    · simp [List.filter_cons, he, ih]
    · simp [List.filter_cons, he, ih]

theorem ServerMap.erase_ordered (map : ServerMap) (key : StdString) (h : map.ordered) :
    (map.erase key).ordered := by
  unfold ServerMap.ordered at h ⊢
  rw [ServerMap.keys_erase]
  exact List.Pairwise.filter _ h

theorem ServerMap.mem_keys_erase (map : ServerMap) (key b : StdString) :
    b ∈ (map.erase key).map Prod.fst ↔ b ∈ map.map Prod.fst ∧ b ≠ key := by
  rw [ServerMap.keys_erase, List.mem_filter]
  simp

theorem ServerMap.next_of_split (A B : ServerMap) (key : StdString) (value : RangeServerState)
    (h : ServerMap.ordered (A ++ (key, value) :: B)) :
    ServerMap.next (A ++ (key, value) :: B) key = B.head?.map Prod.fst := by
  unfold ServerMap.next
  induction A with
  | nil => simp [List.dropWhile_cons]
  | cons a A ih =>
    unfold ServerMap.ordered at h ih
    rw [List.cons_append, List.map_cons, List.pairwise_cons] at h
    have hlt : a.1 < key := h.1 key (by simp)
    have hne : a.1 ≠ key := ne_of_lt hlt
    rw [List.cons_append, List.dropWhile_cons]
    simp only [hne, ne_eq, not_false_eq_true, decide_True, if_true]
    exact ih h.2

theorem ServerMap.find_of_split (A B : ServerMap) (key : StdString) (value : RangeServerState)
    (h : ServerMap.ordered (A ++ (key, value) :: B)) :
    ServerMap.find (A ++ (key, value) :: B) key = some value := by
  unfold ServerMap.find
  induction A with
  | nil => simp
  | cons a A ih =>
    unfold ServerMap.ordered at h ih
    rw [List.cons_append, List.map_cons, List.pairwise_cons] at h
    have hlt : a.1 < key := h.1 key (by simp)
    have hne : a.1 ≠ key := ne_of_lt hlt
    rw [List.cons_append, List.find?_cons_of_neg _ (by simpa using hne)]
    exact ih h.2

theorem ServerMap.split_of_mem (map : ServerMap) (key : StdString)
    (h : key ∈ map.map Prod.fst) :
    ∃ A B value, map = A ++ (key, value) :: B := by
  rw [List.mem_map] at h
  obtain ⟨e, he, hk⟩ := h
  obtain ⟨A, B, hAB⟩ := List.append_of_mem he
  refine ⟨A, B, e.2, ?_⟩
  rw [hAB, ← hk]

theorem ServerMap.next_gt (map : ServerMap) (key next_key : StdString) (h : map.ordered)
    (hnext : map.next key = some next_key) :
    next_key ∈ map.map Prod.fst ∧ key < next_key := by
  by_cases hmem : key ∈ map.map Prod.fst
  · obtain ⟨A, B, value, rfl⟩ := ServerMap.split_of_mem map key hmem
    rw [ServerMap.next_of_split A B key value h] at hnext
    cases B with
    | nil => cases hnext
    | cons b B =>
      have hb : b.1 = next_key := by simpa using hnext
      subst hb
      refine ⟨by simp, ?_⟩
      unfold ServerMap.ordered at h
      rw [List.map_append, List.pairwise_append] at h
      have h2 := h.2.1
      rw [List.map_cons, List.pairwise_cons] at h2
      exact h2.1 b.1 (by simp)
  · exfalso
    unfold ServerMap.next at hnext
    have hall : List.dropWhile (fun e => decide (e.1 ≠ key)) map = [] := by
      rw [List.dropWhile_eq_nil_iff]
      intro e he
      have : e.1 ≠ key := fun hc => hmem (List.mem_map.mpr ⟨e, he, hc⟩)
      simpa using this
    rw [hall] at hnext
    cases hnext

end Hypertable

namespace Hypertable

open Hyperspace
namespace Master

/-! ## The master: the round-robin cursor -/

theorem next_server_of_assignee (m : Master) (key : StdString)
    (h : assignee m = some key) :
    next_server m =
      (Outcome.returned ((m.m_server_map.find key).bind (fun st => st.addr)),
        { m with m_server_map_iter := m.m_server_map.next key }) := by
  unfold assignee at h
  unfold next_server
  by_cases hnone : m.m_server_map_iter = none
  · rw [if_pos hnone] at h
    simp only [hnone, if_true]
    rw [h]
  · rw [if_neg hnone] at h
    simp only [hnone, if_false]
    rw [h]

theorem next_server_of_no_assignee (m : Master) (h : assignee m = none) :
    next_server m = (Outcome.assert_failed, m) := by
  unfold assignee at h
  unfold next_server
  by_cases hnone : m.m_server_map_iter = none
  · rw [if_pos hnone] at h
    simp only [hnone, if_true]
    rw [h]
    dsimp only
    congr 1
    cases m
    simp at hnone h ⊢
    rw [hnone]
  · rw [if_neg hnone] at h
    exact absurd h hnone

theorem assignee_of_valid (m : Master) (hne : m.m_server_map ≠ []) (hvalid : cursor_valid m) :
    ∃ key, assignee m = some key ∧ key ∈ m.m_server_map.map Prod.fst := by
  unfold assignee
  cases hc : m.m_server_map_iter with
  | none =>
    rw [if_pos rfl]
    cases hm : m.m_server_map with
    | nil => exact absurd hm hne
    | cons e rest => exact ⟨e.1, rfl, by simp⟩
  | some key =>
    rw [if_neg (by simp)]
    exact ⟨key, rfl, (ServerMap.find_isSome_iff _ _).mp (hvalid key hc)⟩

theorem assignments_congr (n : Nat) :
    ∀ m1 m2 : Master, m1.m_server_map = m2.m_server_map →
      m1.m_server_map_iter = m2.m_server_map_iter → assignments n m1 = assignments n m2 := by
  induction n with
  | zero => intro m1 m2 _ _; rfl
  | succ n ih =>
    intro m1 m2 hmap hiter
    have hasg : assignee m1 = assignee m2 := by
      unfold assignee
      rw [hmap, hiter]
    unfold assignments
    rw [← hasg]
    cases h1 : assignee m1 with
    | none => rfl
    | some key =>
      dsimp only
      rw [next_server_of_assignee m1 key h1, next_server_of_assignee m2 key (hasg ▸ h1)]
      dsimp only
      congr 1
      apply ih
      · exact hmap
      · show m1.m_server_map.next key = m2.m_server_map.next key
        rw [hmap]

theorem assignments_run (B1 : ServerMap) :
    ∀ (A B2 : ServerMap) (key : StdString) (value : RangeServerState) (m : Master) (j : Nat),
      m.m_server_map = A ++ (key, value) :: (B1 ++ B2) → m.m_server_map.ordered →
      assignee m = some key →
      assignments (B1.length + 1 + j) m =
        ((key, value) :: B1).map Prod.fst ++
          assignments j { m with m_server_map_iter := B2.head?.map Prod.fst } := by
  induction B1 with
  | nil =>
    intro A B2 key value m j hmap hord hasg
    have hstep : assignments (0 + 1 + j) m =
        key :: assignments j (next_server m).2 := by
      rw [show 0 + 1 + j = j + 1 by omega]
      conv_lhs => unfold assignments
      rw [hasg]
    rw [List.length_nil, hstep, next_server_of_assignee m key hasg]
    have hnext : m.m_server_map.next key = B2.head?.map Prod.fst := by
      rw [hmap] at hord ⊢
      exact ServerMap.next_of_split A ([] ++ B2) key value hord
    rw [hnext]
    rfl
  | cons b B1 ih =>
    intro A B2 key value m j hmap hord hasg
    have hstep : assignments ((b :: B1).length + 1 + j) m =
        key :: assignments (B1.length + 1 + j) (next_server m).2 := by
      rw [show (b :: B1).length + 1 + j = (B1.length + 1 + j) + 1 by
        simp only [List.length_cons]; omega]
      conv_lhs => unfold assignments
      rw [hasg]
    rw [hstep, next_server_of_assignee m key hasg]
    have hnext : m.m_server_map.next key = some b.1 := by
      rw [hmap] at hord ⊢
      rw [ServerMap.next_of_split A (b :: B1 ++ B2) key value hord]
      rfl
    rw [hnext]
    have hmap2 : ({ m with m_server_map_iter := some b.1 } : Master).m_server_map =
        (A ++ [(key, value)]) ++ (b.1, b.2) :: (B1 ++ B2) := by
      show m.m_server_map = _
      rw [hmap]
      simp
    rw [ih (A ++ [(key, value)]) B2 b.1 b.2 { m with m_server_map_iter := some b.1 } j hmap2
      hord (by unfold assignee; simp)]
    simp

/-- The locations that `n` consecutive assignments select on a map of `n`
servers: those from the assignee to the end of the map, then those from the
beginning of the map up to the assignee. -/
theorem assignments_rotation (m : Master) (hord : m.m_server_map.ordered)
    (hne : m.m_server_map ≠ []) (hvalid : cursor_valid m) :
    ∃ A B : ServerMap, m.m_server_map = A ++ B ∧ B ≠ [] ∧
      assignee m = B.head?.map Prod.fst ∧
      assignments m.m_server_map.length m = B.map Prod.fst ++ A.map Prod.fst := by
  obtain ⟨key, hasg, hmem⟩ := assignee_of_valid m hne hvalid
  obtain ⟨A, B, value, hmap⟩ := ServerMap.split_of_mem _ key hmem
  refine ⟨A, (key, value) :: B, hmap, by simp, by rw [hasg]; rfl, ?_⟩
  have hlen : m.m_server_map.length = B.length + 1 + A.length := by
    rw [hmap]
    simp only [List.length_append, List.length_cons]
    omega
  rw [hlen, assignments_run B A [] key value m A.length (by rw [hmap]; simp) hord hasg]
  congr 1
  cases A with
  | nil => rfl
  | cons a A =>
    have hmap2 : ({ m with m_server_map_iter := ([] : ServerMap).head?.map Prod.fst } :
        Master).m_server_map = [] ++ (a.1, a.2) :: (A ++ ((key, value) :: B)) := by
      show m.m_server_map = _
      rw [hmap]
      simp
    have := assignments_run A [] ((key, value) :: B) a.1 a.2
      { m with m_server_map_iter := ([] : ServerMap).head?.map Prod.fst } 0 hmap2 hord
      (by unfold assignee; simp [ServerMap.begin, hmap])
    rw [show (a :: A).length = A.length + 1 + 0 by simp]
    rw [this]
    simp [assignments]

end Master
end Hypertable

namespace Hypertable

open Hyperspace

theorem Step.andThen_post {α β : Type} (P Q : Master → Prop) (r : Step α)
    (k : α → Master → Step β) (hr : P r.2) (hPQ : ∀ m, P m → Q m)
    (hk : ∀ a m, P m → Q (k a m).2) : Q (Step.andThen r k).2 := by
  rcases r with ⟨o, m⟩
  cases o <;> simp only [Step.andThen] <;> first | exact hk _ _ hr | exact hPQ _ hr

namespace Master

theorem create_table_assignment (V : Error.Code → Int) (K : Constants) (C : Collaborators)
    (tablename schemastr : StdString) (m : Master) (hvalid : cursor_valid m) :
    unassigned m (create_table V K C tablename schemastr m).2 ∨
      assigned tablename m (create_table V K C tablename schemastr m).2 := by
  unfold create_table
  dsimp only
  apply Step.andThen_post (unassigned m) _ _ _ ⟨rfl, rfl, rfl, rfl⟩ (fun m1 h => Or.inl h)
  intro table_exists m1 h1
  split
  · exact Or.inl h1
  split
  · exact Or.inl h1
  apply Step.andThen_post (unassigned m) _ _ _ h1 (fun m1 h => Or.inl h)
  intro handle m2 h2
  refine Step.andThen_post (unassigned m)
    (fun m1 => unassigned m m1 ∨ assigned tablename m m1) _ _ ?_ (fun m1 h => Or.inl h) ?_
  · split
    · exact h2
    · apply Step.andThen_preserves (unassigned m) _ _ h2
      intro _ m3 h3
      exact h3
  intro table_id m3 h3
  apply Step.andThen_post (unassigned m) _ _ _ h3 (fun m1 h => Or.inl h)
  intro _ m4 h4
  apply Step.andThen_post (unassigned m) _ _ _ h4 (fun m1 h => Or.inl h)
  intro _ m5 h5
  apply Step.andThen_post (unassigned m) _ _ _ h5 (fun m1 h => Or.inl h)
  intro _ m6 h6
  split
  swap
  · exact Or.inl h6
  split
  · exact Or.inl h6
  refine Step.andThen_post (unassigned m)
    (fun m1 => unassigned m m1 ∨ assigned tablename m m1) _ _ ?_ (fun m1 h => Or.inl h) ?_
  · obtain ⟨a, b, c, d⟩ := h6
    unfold mutator_set_flush
    split
    · exact ⟨a, b, c, d⟩
    · exact ⟨a, b, c, d⟩
  intro _ m7 h7
  obtain ⟨hl7, hi7, hm7, hx7⟩ := h7
  have hasg7 : assignee m7 = assignee m := by
    unfold assignee
    rw [hi7, hm7]
  cases hasg : assignee m with
  | none =>
    rw [next_server_of_no_assignee m7 (hasg7.trans hasg)]
    exact Or.inl ⟨hl7, hi7, hm7, hx7⟩
  | some key =>
    rw [next_server_of_assignee m7 key (hasg7.trans hasg), Step.andThen_returned]
    have hmem : (m.m_server_map.find key).isSome = true := by
      unfold assignee at hasg
      by_cases hnone : m.m_server_map_iter = none
      · rw [if_pos hnone] at hasg
        rw [ServerMap.find_isSome_iff]
        unfold ServerMap.begin at hasg
        cases hmap : m.m_server_map with
        | nil => rw [hmap] at hasg; cases hasg
        | cons e rest =>
          rw [hmap] at hasg
          have : e.1 = key := by simpa using hasg
          simp [this]
      · rw [if_neg hnone] at hasg
        exact hvalid key hasg
    obtain ⟨rs, hrs⟩ := Option.isSome_iff_exists.mp hmem
    right
    refine ⟨key, rs,
      { addr := (m7.m_server_map.find key).bind (fun st => st.addr),
        table := { name := tablename, id := table_id,
                   generation := (C.parse_schema schemastr).generation },
        start_row := none, end_row := C.END_ROW_MARKER, transfer_log := none,
        soft_limit := m7.m_max_range_bytes / min 64 (m7.m_server_map.length * 2) },
      hasg, hrs, ?_, ?_, ?_, ?_, rfl, rfl, rfl, ?_⟩
    · apply Step.catching_preserves (fun m1 => m1.m_server_map = m.m_server_map)
      · rw [(rsc_load_range_frame C _ _).2.2]
        exact hm7
      · intro e m9 h9
        exact h9
    · apply Step.catching_preserves (fun m1 => m1.m_server_map_iter = m.m_server_map.next key)
      · unfold rsc_load_range
        dsimp only
        split
        · show m7.m_server_map.next key = _
          rw [hm7]
        · show m7.m_server_map.next key = _
          rw [hm7]
      · intro e m9 h9
        exact h9
    · apply Step.catching_preserves (fun m1 => m1.load_ranges = m.load_ranges ++ [_])
      · unfold rsc_load_range
        dsimp only
        split
        · show m7.load_ranges ++ [_] = _
          rw [hl7]
        · show m7.load_ranges ++ [_] = _
          rw [hl7]
      · intro e m9 h9
        exact h9
    · show (m7.m_server_map.find key).bind (fun st => st.addr) = rs.addr
      rw [hm7, hrs]
      rfl
    · show m7.m_max_range_bytes / min 64 (m7.m_server_map.length * 2) = _
      rw [hx7, hm7]

end Master
end Hypertable

namespace Hypertable

open Hyperspace
namespace Master

/-! ## The master: the invariant of map and cursor -/

theorem cursor_invariant_of_same (m m1 : Master) (h : cursor_invariant m)
    (hmap : m1.m_server_map = m.m_server_map)
    (hiter : m1.m_server_map_iter = m.m_server_map_iter) : cursor_invariant m1 := by
  unfold cursor_invariant cursor_valid at h ⊢
  rw [hmap, hiter]
  exact h

theorem cursor_invariant_of_next (m m1 : Master) (key : StdString) (h : cursor_invariant m)
    (hmap : m1.m_server_map = m.m_server_map)
    (hiter : m1.m_server_map_iter = m.m_server_map.next key) : cursor_invariant m1 := by
  unfold cursor_invariant cursor_valid at h ⊢
  rw [hmap, hiter]
  refine ⟨h.1, ?_⟩
  intro k hk
  rw [ServerMap.find_isSome_iff]
  exact (ServerMap.next_gt _ _ _ h.1 hk).1

theorem cursor_invariant_of_assign (m m1 : Master) (key : StdString)
    (value : RangeServerState) (h : cursor_invariant m)
    (hmap : m1.m_server_map = m.m_server_map.assign key value)
    (hiter : m1.m_server_map_iter = m.m_server_map_iter) : cursor_invariant m1 := by
  unfold cursor_invariant cursor_valid at h ⊢
  rw [hmap, hiter]
  refine ⟨ServerMap.assign_ordered _ _ _ h.1, ?_⟩
  intro k hk
  rw [ServerMap.find_isSome_iff, ServerMap.mem_keys_assign]
  exact Or.inr ((ServerMap.find_isSome_iff _ _).mp (h.2 k hk))

theorem create_table_cursor_invariant (V : Error.Code → Int) (K : Constants)
    (C : Collaborators) (tablename schemastr : StdString) (m : Master)
    (h : cursor_invariant m) :
    cursor_invariant (create_table V K C tablename schemastr m).2 := by
  rcases create_table_assignment V K C tablename schemastr m h.2 with hu | ha
  · exact cursor_invariant_of_same m _ h hu.2.2.1 hu.2.1
  · obtain ⟨key, rs, call, _, _, hmap, hiter, _⟩ := ha
    exact cursor_invariant_of_next m _ key h hmap hiter

theorem report_split_cursor (C : Collaborators) (table : TableIdentifier)
    (start_row : Option StdString) (end_row : StdString)
    (transfer_log_dir : Option StdString) (soft_limit : Nat) (m : Master) :
    (report_split C table start_row end_row transfer_log_dir soft_limit m).2.m_server_map =
        m.m_server_map ∧
      ((assignee m = none ∧
          (report_split C table start_row end_row transfer_log_dir soft_limit
            m).2.m_server_map_iter = m.m_server_map_iter ∧
          (report_split C table start_row end_row transfer_log_dir soft_limit
            m).2.load_ranges = m.load_ranges) ∨
        ∃ key, assignee m = some key ∧
          (report_split C table start_row end_row transfer_log_dir soft_limit
            m).2.m_server_map_iter = m.m_server_map.next key ∧
          (report_split C table start_row end_row transfer_log_dir soft_limit
            m).2.load_ranges = m.load_ranges ++
              [{ addr := (m.m_server_map.find key).bind (fun st => st.addr), table := table,
                 start_row := start_row, end_row := end_row,
                 transfer_log := transfer_log_dir, soft_limit := soft_limit }]) := by
  unfold report_split
  dsimp only
  have hasg : assignee (m.respond Response.response_ok) = assignee m := rfl
  cases h : assignee m with
  | none =>
    rw [next_server_of_no_assignee _ (hasg.trans h)]
    exact ⟨rfl, Or.inl ⟨rfl, rfl, rfl⟩⟩
  | some key =>
    rw [next_server_of_assignee _ key (hasg.trans h), Step.andThen_returned]
    unfold rsc_load_range
    dsimp only
    split
    · exact ⟨rfl, Or.inr ⟨key, rfl, rfl, rfl⟩⟩
    · exact ⟨rfl, Or.inr ⟨key, rfl, rfl, rfl⟩⟩

theorem report_split_cursor_invariant (C : Collaborators) (table : TableIdentifier)
    (start_row : Option StdString) (end_row : StdString)
    (transfer_log_dir : Option StdString) (soft_limit : Nat) (m : Master)
    (h : cursor_invariant m) :
    cursor_invariant
      (report_split C table start_row end_row transfer_log_dir soft_limit m).2 := by
  obtain ⟨hmap, hcases⟩ :=
    report_split_cursor C table start_row end_row transfer_log_dir soft_limit m
  rcases hcases with ⟨_, hiter, _⟩ | ⟨key, _, hiter, _⟩
  · exact cursor_invariant_of_same m _ h hmap hiter
  · exact cursor_invariant_of_next m _ key h hmap hiter

theorem admit_server_cursor_invariant (V : Error.Code → Int) (K : Constants)
    (rs_state : RangeServerState) (m : Master) (h : cursor_invariant m) :
    cursor_invariant (admit_server V K rs_state m).2 := by
  unfold admit_server
  dsimp only
  apply Step.andThen_preserves cursor_invariant _ _
    (cursor_invariant_of_same m _ h rfl rfl)
  intro handle m1 h1
  apply Step.andThen_preserves cursor_invariant _ _
    (cursor_invariant_of_same m1 _ h1 rfl rfl)
  intro status m2 h2
  split
  · apply Step.andThen_preserves cursor_invariant _ _
      (cursor_invariant_of_same m2 _ h2 rfl rfl)
    intro _ m3 h3
    apply Step.andThen_preserves cursor_invariant _ _
      (cursor_invariant_of_same m3 _ h3 rfl rfl)
    intro _ m4 h4
    exact h4
  · exact cursor_invariant_of_assign m2 _ _ _ h2 rfl rfl

theorem load_metadata_ranges_cursor_invariant (V : Error.Code → Int) (K : Constants)
    (C : Collaborators) (alias_ : InetAddr) (m : Master) (h : cursor_invariant m) :
    cursor_invariant (load_metadata_ranges V K C alias_ m).2 := by
  have hload : ∀ (call : LoadRange) (m1 : Master), cursor_invariant m1 →
      cursor_invariant (rsc_load_range C call m1).2 := by
    intro call m1 h1
    exact cursor_invariant_of_same m1 _ h1 (rsc_load_range_frame C call m1).2.2 (by
      unfold rsc_load_range
      dsimp only
      split <;> rfl)
  unfold load_metadata_ranges
  apply Step.andThen_preserves cursor_invariant
  · apply Step.catching_preserves cursor_invariant
    · apply Step.andThen_preserves cursor_invariant
      · exact create_table_cursor_invariant V K C _ _ m h
      · intro _ m1 h1
        exact h1
    · intro e m1 h1
      split <;> exact h1
  intro table_exists m1 h1
  dsimp only
  split
  · exact cursor_invariant_of_same m1 _ h1 rfl rfl
  apply Step.andThen_preserves cursor_invariant
  · apply Step.catching_preserves cursor_invariant
    · exact hload _ _ (cursor_invariant_of_same m1 _ h1 rfl rfl)
    · intro e m2 h2
      exact h2
  intro _ m2 h2
  apply Step.andThen_preserves cursor_invariant
  · apply Step.catching_preserves cursor_invariant
    · unfold mutator_set_flush
      split
      · exact h2
      · exact cursor_invariant_of_same m2 _ h2 rfl rfl
    · intro e m3 h3
      exact h3
  intro _ m3 h3
  apply Step.andThen_preserves cursor_invariant
  · apply Step.catching_preserves cursor_invariant
    · exact hload _ _ h3
    · intro e m4 h4
      exact h4
  intro _ m4 h4
  exact cursor_invariant_of_same m4 _ h4 rfl rfl

theorem register_server_cursor_invariant (V : Error.Code → Int) (K : Constants)
    (C : Collaborators) (location : StdString) (addr : InetAddr) (m : Master)
    (h : cursor_invariant m) :
    cursor_invariant (register_server V K C location addr m).2 := by
  unfold register_server
  apply Step.andThen_preserves cursor_invariant
  · unfold register_server_admission
    apply Step.catching_preserves cursor_invariant
    · split
      · exact h
      · dsimp only
        split
        · exact cursor_invariant_of_same m _ h rfl rfl
        · apply Step.andThen_preserves cursor_invariant
          · exact admit_server_cursor_invariant V K _ _
              (cursor_invariant_of_same m _ h rfl rfl)
          · intro _ m1 h1
            exact cursor_invariant_of_same m1 _ h1 rfl rfl
    · intro e m1 h1
      exact cursor_invariant_of_same m1 _ h1 rfl rfl
  intro alias_ m1 h1
  split
  · exact h1
  · split
    · exact load_metadata_ranges_cursor_invariant V K C _ m1 h1
    · exact h1

theorem cursor_invariant_of_erase (m m1 : Master) (location : StdString)
    (hord : m.m_server_map.ordered)
    (hvalid : ∀ key, m1.m_server_map_iter = some key →
      key ∈ m.m_server_map.map Prod.fst ∧ key ≠ location)
    (hmap : m1.m_server_map = m.m_server_map.erase location) : cursor_invariant m1 := by
  unfold cursor_invariant cursor_valid
  rw [hmap]
  refine ⟨ServerMap.erase_ordered _ _ hord, ?_⟩
  intro k hk
  rw [ServerMap.find_isSome_iff, ServerMap.mem_keys_erase]
  exact hvalid k hk

theorem server_left_cursor_invariant (V : Error.Code → Int) (K : Constants)
    (location : StdString) (m : Master) (h : cursor_invariant m) :
    cursor_invariant (server_left V K location m).2 := by
  unfold server_left
  dsimp only
  split
  · exact h
  rename_i rs_state hfind
  -- the master after the advance of the cursor
  have hadv : cursor_invariant
      (if m.m_server_map_iter = some location then
        { m with m_server_map_iter := m.m_server_map.next location }
      else m) ∧
      (if m.m_server_map_iter = some location then
          { m with m_server_map_iter := m.m_server_map.next location }
        else m).m_server_map = m.m_server_map ∧
      ∀ key, (if m.m_server_map_iter = some location then
          { m with m_server_map_iter := m.m_server_map.next location }
        else m).m_server_map_iter = some key →
        key ∈ m.m_server_map.map Prod.fst ∧ key ≠ location := by
    by_cases hc : m.m_server_map_iter = some location
    · rw [if_pos hc]
      refine ⟨cursor_invariant_of_next m _ location h rfl rfl, rfl, ?_⟩
      intro key hkey
      have := ServerMap.next_gt _ _ _ h.1 hkey
      exact ⟨this.1, (ne_of_lt this.2).symm⟩
    · rw [if_neg hc]
      refine ⟨h, rfl, ?_⟩
      intro key hkey
      refine ⟨(ServerMap.find_isSome_iff _ _).mp (h.2 key hkey), ?_⟩
      intro hk
      rw [hk] at hkey
      exact hc hkey
  generalize (if m.m_server_map_iter = some location then
      { m with m_server_map_iter := m.m_server_map.next location }
    else m) = m0 at hadv ⊢
  obtain ⟨hinv0, hmap0, hkeys0⟩ := hadv
  have hPQ : ∀ m1 : Master,
      (m1.m_server_map = m0.m_server_map ∧ m1.m_server_map_iter = m0.m_server_map_iter) →
      cursor_invariant m1 :=
    fun m1 hm1 => cursor_invariant_of_same m0 m1 hinv0 hm1.1 hm1.2
  refine Step.andThen_post
    (fun m1 => m1.m_server_map = m0.m_server_map ∧
      m1.m_server_map_iter = m0.m_server_map_iter)
    cursor_invariant _ _ ⟨rfl, rfl⟩ hPQ ?_
  intro lock_status m1 h1
  split
  · exact hPQ m1 h1
  refine Step.andThen_post
    (fun m2 => m2.m_server_map = m0.m_server_map ∧
      m2.m_server_map_iter = m0.m_server_map_iter)
    cursor_invariant _ _ h1 hPQ ?_
  intro _ m2 h2
  refine Step.andThen_post
    (fun m3 => m3.m_server_map = m0.m_server_map ∧
      m3.m_server_map_iter = m0.m_server_map_iter)
    cursor_invariant _ _ h2 hPQ ?_
  intro _ m3 h3
  apply cursor_invariant_of_erase m _ location h.1
  · intro key hkey
    apply hkeys0 key
    rw [← h3.2]
    exact hkey
  · show m3.m_server_map.erase location = _
    rw [h3.1, hmap0]

end Master
end Hypertable

namespace Hypertable

open Hyperspace
namespace Master

theorem server_left_cursor (V : Error.Code → Int) (K : Constants) (location : StdString)
    (m : Master) :
    (server_left V K location m).2.m_server_map_iter =
      if (m.m_server_map.find location).isSome = true ∧ m.m_server_map_iter = some location
      then m.m_server_map.next location else m.m_server_map_iter := by
  unfold server_left
  dsimp only
  cases hfind : m.m_server_map.find location with
  | none => simp
  | some rs_state =>
    dsimp only
    have hcur : (if m.m_server_map_iter = some location then
          { m with m_server_map_iter := m.m_server_map.next location }
        else m).m_server_map_iter =
        if (some rs_state).isSome = true ∧ m.m_server_map_iter = some location
        then m.m_server_map.next location else m.m_server_map_iter := by
      by_cases hc : m.m_server_map_iter = some location
      · simp [hc]
      · simp [hc]
    rw [← hcur]
    generalize (if m.m_server_map_iter = some location then
        { m with m_server_map_iter := m.m_server_map.next location }
      else m) = m0
    apply Step.andThen_preserves (fun m1 => m1.m_server_map_iter = m0.m_server_map_iter) _ _ rfl
    intro lock_status m1 h1
    split
    · exact h1
    apply Step.andThen_preserves (fun m1 => m1.m_server_map_iter = m0.m_server_map_iter) _ _ h1
    intro _ m2 h2
    apply Step.andThen_preserves (fun m1 => m1.m_server_map_iter = m0.m_server_map_iter) _ _ h2
    intro _ m3 h3
    exact h3

theorem load_metadata_ranges_returned (V : Error.Code → Int) (K : Constants)
    (C : Collaborators) (alias_ : InetAddr) (m m1 : Master)
    (h : load_metadata_ranges V K C alias_ m = (Outcome.returned (), m1)) :
    m1.m_initialized = true ∧ m1.m_metadata_table_ptr = true := by
  unfold load_metadata_ranges at h
  rw [Step.andThen_eq_returned] at h
  obtain ⟨table_exists, ma, _, h⟩ := h
  dsimp only at h
  split at h
  · cases h
    exact ⟨rfl, rfl⟩
  rw [Step.andThen_eq_returned] at h
  obtain ⟨_, mb, hb, h⟩ := h
  rw [Step.andThen_eq_returned] at h
  obtain ⟨_, mc, hc, h⟩ := h
  rw [Step.andThen_eq_returned] at h
  obtain ⟨_, md, hd, h⟩ := h
  cases h
  refine ⟨rfl, ?_⟩
  -- the pointer, set before the first load, is left alone by what follows
  have hload : ∀ (call : LoadRange) (m2 m3 : Master),
      Step.catching (rsc_load_range C call m2)
        (fun _ m => (Outcome.returned (), m)) = (Outcome.returned (), m3) →
      m3.m_metadata_table_ptr = m2.m_metadata_table_ptr := by
    intro call m2 m3 h3
    unfold rsc_load_range at h3
    dsimp only at h3
    split at h3
    · cases h3
      rfl
    · cases h3
      rfl
  have hb2 := hload _ _ _ hb
  have hd2 := hload _ _ _ hd
  have hc2 : mc.m_metadata_table_ptr = mb.m_metadata_table_ptr := by
    unfold mutator_set_flush at hc
    split at hc
    · cases hc
    · cases hc
      rfl
  show md.m_metadata_table_ptr = true
  rw [hd2, hc2, hb2]

end Master
end Hypertable

namespace Hypertable

open Hyperspace

namespace Master

theorem create_table_metadata_unassigned (V : Error.Code → Int) (K : Constants)
    (C : Collaborators) (schemastr : StdString) (m : Master) :
    (create_table V K C "METADATA".toList schemastr m).2.load_ranges = m.load_ranges := by
  unfold create_table
  dsimp only
  apply Step.andThen_preserves (fun m1 => m1.load_ranges = m.load_ranges) _ _ rfl
  intro table_exists m1 h1
  split
  · exact h1
  split
  · exact h1
  apply Step.andThen_preserves (fun m1 => m1.load_ranges = m.load_ranges) _ _ h1
  intro handle m2 h2
  rw [if_pos rfl, Step.andThen_returned]
  apply Step.andThen_preserves (fun m1 => m1.load_ranges = m.load_ranges) _ _ h2
  intro _ m4 h4
  apply Step.andThen_preserves (fun m1 => m1.load_ranges = m.load_ranges) _ _ h4
  intro _ m5 h5
  apply Step.andThen_preserves (fun m1 => m1.load_ranges = m.load_ranges) _ _ h5
  intro _ m6 h6
  rw [if_neg (by decide)]
  exact h6

theorem admit_server_load_ranges (V : Error.Code → Int) (K : Constants)
    (rs_state : RangeServerState) (m : Master) :
    (admit_server V K rs_state m).2.load_ranges = m.load_ranges := by
  unfold admit_server
  dsimp only
  apply Step.andThen_preserves (fun m1 => m1.load_ranges = m.load_ranges) _ _ rfl
  intro handle m1 h1
  apply Step.andThen_preserves (fun m1 => m1.load_ranges = m.load_ranges) _ _ h1
  intro status m2 h2
  split
  · apply Step.andThen_preserves (fun m1 => m1.load_ranges = m.load_ranges) _ _ h2
    intro _ m3 h3
    apply Step.andThen_preserves (fun m1 => m1.load_ranges = m.load_ranges) _ _ h3
    intro _ m4 h4
    exact h4
  · exact h2

end Master

end Hypertable

/-! ## The claims on the state machine, the rendering, the error history and the cursor -/

namespace Hyperspace

/-- C24: `state_transition(state)` sets the session state to `state` and
returns the previous state.  It makes at most one call on the callback; with
a callback installed that call is `safe()` exactly when the transition is
JEOPARDY to SAFE, `jeopardy()` exactly when it is SAFE to JEOPARDY and
`expired()` exactly when `state` is EXPIRED and the previous state was not;
without a callback there is no call. -/
theorem state_transition_callbacks (K : Constants) (state : Int) (s : Session) :
    (state_transition K state s).1 = s.m_state ∧
      (state_transition K state s).2.m_state = state ∧
      ∃ calls, (state_transition K state s).2.callback_log = s.callback_log ++ calls ∧
        calls.length ≤ 1 ∧
        (s.m_session_callback = false → calls = []) ∧
        (s.m_session_callback = true →
          (CallbackCall.safe ∈ calls ↔
            s.m_state = K.STATE_JEOPARDY ∧ state = K.STATE_SAFE) ∧
          (CallbackCall.jeopardy ∈ calls ↔
            s.m_state = K.STATE_SAFE ∧ state = K.STATE_JEOPARDY) ∧
          (CallbackCall.expired ∈ calls ↔
            state = K.STATE_EXPIRED ∧ s.m_state ≠ K.STATE_EXPIRED)) := by
  refine ⟨state_transition_fst K state s, state_transition_m_state K state s,
    fired K s.m_session_callback s.m_state state, state_transition_callback_log K state s,
    ?_, ?_, ?_⟩
  · unfold fired
    split_ifs <;> simp
  · intro hcb
    unfold fired
    simp [hcb]
  · intro hcb
    have h1 := K.jeopardy_ne_safe
    have h2 := K.expired_ne_safe
    have h3 := K.expired_ne_jeopardy
    unfold fired
    by_cases ht1 : state = K.STATE_SAFE <;>
    by_cases ht2 : state = K.STATE_JEOPARDY <;>
    by_cases ht3 : state = K.STATE_EXPIRED <;>
    by_cases ho1 : s.m_state = K.STATE_SAFE <;>
    by_cases ho2 : s.m_state = K.STATE_JEOPARDY <;>
    by_cases ho3 : s.m_state = K.STATE_EXPIRED <;>
    simp_all

/-- C23 (as the code has it): `state_transition` sets the expire time to the
current time plus the grace period exactly when a session callback is
installed and the transition is SAFE to JEOPARDY; in every other call, a
transition from SAFE to JEOPARDY of a session without a callback among them,
the expire time stays what it was. -/
theorem state_transition_expire_time (K : Constants) (state : Int) (s : Session) :
    (state_transition K state s).2.m_expire_time =
      if s.m_session_callback = true ∧ s.m_state = K.STATE_SAFE ∧ state = K.STATE_JEOPARDY
      then { sec := s.now.sec + s.m_grace_period, nsec := s.now.nsec }
      else s.m_expire_time := by
  have h1 := K.jeopardy_ne_safe
  unfold state_transition
  by_cases hcb : s.m_session_callback = true <;>
  by_cases ht1 : state = K.STATE_SAFE <;>
  by_cases ht2 : state = K.STATE_JEOPARDY <;>
  by_cases ht3 : state = K.STATE_EXPIRED <;>
  by_cases ho1 : s.m_state = K.STATE_SAFE <;>
  by_cases ho2 : s.m_state = K.STATE_JEOPARDY <;>
  by_cases ho3 : s.m_state = K.STATE_EXPIRED <;>
  simp_all

/-- C23 at a session without a callback: at time 100, with a grace period of
60, the transition from SAFE to JEOPARDY leaves the expire time at 0, where
the same transition of a session with a callback sets it to 160. -/
theorem state_transition_expire_time_witness :
    (sample_session sample_constants.STATE_SAFE false [] []).m_expire_time.sec = 0 ∧
      (state_transition sample_constants sample_constants.STATE_JEOPARDY
        (sample_session sample_constants.STATE_SAFE false [] [])).1 =
          sample_constants.STATE_SAFE ∧
      (state_transition sample_constants sample_constants.STATE_JEOPARDY
        (sample_session sample_constants.STATE_SAFE false [] [])).2.m_expire_time.sec = 0 ∧
      (state_transition sample_constants sample_constants.STATE_JEOPARDY
        (sample_session sample_constants.STATE_SAFE true [] [])).2.m_expire_time.sec = 160 := by
  refine ⟨rfl, rfl, ?_, ?_⟩
  · rw [state_transition_expire_time]
    decide
  · rw [state_transition_expire_time]
    decide

end Hyperspace

namespace Hypertable

open Hyperspace

/-- C21: the rendering of an exception with its chain of causes.  The text
that `operator<<` puts on the stream is the frame of the top exception
followed by one frame for each cause, in chain order.  The frame of a cause
is its position and message, followed by " - " and `get_text` of its code
exactly when that code differs from the code of the frame before it (the
code of the top exception for the first cause); the texts do not depend on
the lookups made before.  For a top exception with code
`HYPERSPACE_FILE_NOT_FOUND` and message `x` and a single cause with code
`LOCAL_IO_ERROR` and message `y` there are the top frame and one more frame,
which ends with " - HYPERTABLE local i/o error". -/
theorem exception_rendering (value : Error.Code → Int) (hinj : Function.Injective value)
    (lookups : List Int) (e : ExceptionChain) (out : StdString)
    (_hnames : e.top.line ≠ 0 → e.top.func ≠ none ∧ e.top.file ≠ none) :
    (put_exception e (out, Error.after_lookups lookups (Error.build_text_map value))).1 =
        out ++ top_frame (Error.build_text_map value) e.top ++
          (List.zipWith (cause_frame (Error.build_text_map value))
            (e.top.code :: e.causes.map (fun c => c.code)) e.causes).flatten ∧
      (List.zipWith (cause_frame (Error.build_text_map value))
        (e.top.code :: e.causes.map (fun c => c.code)) e.causes).length = e.causes.length ∧
      (∀ before c, cause_frame (Error.build_text_map value) before c =
        "\n\tat ".toList ++ or_dash c.func ++ " (".toList ++ or_dash c.file ++ [':'] ++
          dec_int c.line ++ "): ".toList ++ c.what ++
          (if c.code ≠ before then
            " - ".toList ++ (Error.get_text c.code (Error.build_text_map value)).1
          else [])) ∧
      (∀ (x y : StdString) (top cause : ExceptionFrame),
        top.code = value Error.Code.HYPERSPACE_FILE_NOT_FOUND → top.what = x →
        cause.code = value Error.Code.LOCAL_IO_ERROR → cause.what = y →
        List.zipWith (cause_frame (Error.build_text_map value))
            (top.code :: [cause].map (fun c => c.code)) [cause] =
          ["\n\tat ".toList ++ or_dash cause.func ++ " (".toList ++ or_dash cause.file ++
            [':'] ++ dec_int cause.line ++ "): ".toList ++ y ++
            " - HYPERTABLE local i/o error".toList]) := by
  have htext : ∀ key, Error.TextMap.text
      (Error.after_lookups lookups (Error.build_text_map value)) key =
        Error.TextMap.text (Error.build_text_map value) key :=
    fun key => Error.after_lookups_keeps_text lookups key _
  refine ⟨?_, ?_, fun before c => rfl, ?_⟩
  · rw [put_exception_eq, cause_frames_of_text_eq _ _ htext, cause_frames_eq_zipWith]
    unfold top_frame
    rw [Error.get_text_fst, Error.get_text_fst, htext]
  · rw [← cause_frames_eq_zipWith, cause_frames_length]
  · intro x y top cause htop hx hcause hy
    have hne : cause.code ≠ top.code := by
      rw [htop, hcause]
      intro hc
      have := hinj hc
      cases this
    have hlocal : (Error.get_text (value Error.Code.LOCAL_IO_ERROR)
        (Error.build_text_map value)).1 = "HYPERTABLE local i/o error".toList := by
      rw [Error.get_text_fst]
      unfold Error.TextMap.text Error.build_text_map Error.build_text_map_from
      rw [Error.foldl_assign_of_listed value hinj Error.error_info Error.error_info_nodup
        Error.Code.LOCAL_IO_ERROR "HYPERTABLE local i/o error".toList (by decide)]
      rfl
    simp only [List.map, List.zipWith]
    unfold cause_frame
    rw [if_pos hne, hcause, hlocal, hy]
    simp

/-- C21 on a sample, under the sample numbering: the exception with message
`x` and code `HYPERSPACE_FILE_NOT_FOUND`, caused by one with message `y` and
code `LOCAL_IO_ERROR`, renders to two frames. -/
theorem exception_rendering_witness :
    Function.Injective Error.sample_numbering ∧
      (put_exception sample_exception ([], Error.build_text_map Error.sample_numbering)).1 =
        ("Hypertable::Exception: x - HYPERSPACE file not found" ++
          "\n\tat f (a.cc:17): y - HYPERTABLE local i/o error").toList := by
  refine ⟨Error.sample_numbering_injective, ?_⟩
  have h := (exception_rendering Error.sample_numbering Error.sample_numbering_injective []
    sample_exception [] (by decide)).1
  exact h.trans (by decide!)

namespace RangeLocator

/-- C22: the error history of the range locator is a bounded ring.  After any
sequence of uses of `RECORD_ERROR`, `RECORD_ERROR2`, `clear_error_history` and
`dump_error_history` on a new locator, the history is no longer than
`MAX_ERROR_QUEUE_LENGTH`, and it holds, oldest first, the last
`MAX_ERROR_QUEUE_LENGTH` of the exceptions recorded since the last clear or
dump (all of them when they are fewer). -/
theorem error_history_is_bounded_ring (MAX_ERROR_QUEUE_LENGTH : Nat)
    (calls : List HistoryCall) :
    (run MAX_ERROR_QUEUE_LENGTH calls fresh).m_last_errors.length ≤ MAX_ERROR_QUEUE_LENGTH ∧
      (run MAX_ERROR_QUEUE_LENGTH calls fresh).m_last_errors =
        (recorded_since_reset calls).drop
          ((recorded_since_reset calls).length - MAX_ERROR_QUEUE_LENGTH) := by
  have h := run_history MAX_ERROR_QUEUE_LENGTH calls
  refine ⟨?_, h⟩
  rw [h]
  exact last_n_length _ _

end RangeLocator

namespace Error

/-- C30 as the claim has it fails for a code that is not registered: before
the call `get_text(999999)` the map has no key 999999, after it the map has
that key, with the null pointer as its value. -/
theorem get_text_adds_a_key :
    build_text_map sample_numbering 999999 = none ∧
      (get_text 999999 (build_text_map sample_numbering)).2 999999 = some none := by
  decide!

/-- C30 (as amended): what `get_text` does to the map.  Every other key is as
it was, present or not, with the same value; the code looked up is a key
afterwards, with the value it had, and with the null pointer when it was not a
key before; so a lookup of a code that is a key changes nothing, and no lookup
changes the text that any code maps to. -/
theorem get_text_keeps_entries (error : Int) (text_map : TextMap) :
    (∀ key, key ≠ error → (get_text error text_map).2 key = text_map key) ∧
      (get_text error text_map).2 error = some (TextMap.text text_map error) ∧
      ((text_map error).isSome = true → (get_text error text_map).2 = text_map) ∧
      (∀ key value, text_map key = some value →
        (get_text error text_map).2 key = some value) ∧
      (∀ key, TextMap.text (get_text error text_map).2 key = TextMap.text text_map key) := by
  have hstate : (get_text error text_map).2 =
      match text_map error with
      | some _ => text_map
      | none => TextMap.assign text_map error none := by
    unfold get_text TextMap.index
    cases h : text_map error with
    | none => rfl
    | some text => cases text <;> rfl
  refine ⟨?_, ?_, ?_, ?_, fun key => get_text_keeps_text error key text_map⟩
  · intro key hkey
    rw [hstate]
    cases h : text_map error with
    | none => simp [TextMap.assign, hkey]
    | some text => rfl
  · rw [hstate]
    unfold TextMap.text
    cases h : text_map error with
    | none => simp [TextMap.assign]
    | some text => simp [h]
  · intro hsome
    rw [hstate]
    cases h : text_map error with
    | none => rw [h] at hsome; cases hsome
    | some text => rfl
  · intro key value hkey
    rw [hstate]
    cases h : text_map error with
    | none =>
      have hne : key ≠ error := by
        intro hc
        rw [hc, h] at hkey
        cases hkey
      simp [TextMap.assign, hne, hkey]
    | some text => exact hkey

end Error

end Hypertable

namespace Hypertable

open Hyperspace
namespace Master

/-- C25: round-robin assignment.  With a non-empty server map that is ordered
as a `std::map` is and a valid cursor, the assignee (the entry the cursor
refers to, after the wrap from the end of the map to its beginning) is in the
map; `report_split` sends its `load_range` to the address of the assignee and
leaves the cursor behind it, `create_table` does the same whenever it makes an
assignment, and both leave the map alone.  The locations that `n` consecutive
assignments select on a map of `n` servers are the locations of the map from
the assignee to the end followed by those from the beginning up to the
assignee: each server of the map exactly once. -/
theorem round_robin_assignment (V : Error.Code → Int) (K : Constants) (C : Collaborators)
    (m : Master) (hinv : cursor_invariant m) (hne : m.m_server_map ≠ []) :
    (∃ key rs, assignee m = some key ∧ m.m_server_map.find key = some rs ∧
        next_server m = (Outcome.returned rs.addr,
          { m with m_server_map_iter := m.m_server_map.next key }) ∧
        (∀ (table : TableIdentifier) (start_row : Option StdString) (end_row : StdString)
          (transfer_log_dir : Option StdString) (soft_limit : Nat),
          (report_split C table start_row end_row transfer_log_dir soft_limit
              m).2.m_server_map = m.m_server_map ∧
            (report_split C table start_row end_row transfer_log_dir soft_limit
              m).2.m_server_map_iter = m.m_server_map.next key ∧
            (report_split C table start_row end_row transfer_log_dir soft_limit
              m).2.load_ranges = m.load_ranges ++
                [{ addr := rs.addr, table := table, start_row := start_row,
                   end_row := end_row, transfer_log := transfer_log_dir,
                   soft_limit := soft_limit }]) ∧
        (∀ tablename schemastr : StdString,
          (create_table V K C tablename schemastr m).2.m_server_map = m.m_server_map ∧
            ((create_table V K C tablename schemastr m).2.load_ranges = m.load_ranges ∧
                (create_table V K C tablename schemastr m).2.m_server_map_iter =
                  m.m_server_map_iter ∨
              ∃ call, (create_table V K C tablename schemastr m).2.load_ranges =
                  m.load_ranges ++ [call] ∧ call.addr = rs.addr ∧
                (create_table V K C tablename schemastr m).2.m_server_map_iter =
                  m.m_server_map.next key))) ∧
      (∃ A B : ServerMap, m.m_server_map = A ++ B ∧ B ≠ [] ∧
        assignee m = B.head?.map Prod.fst ∧
        assignments m.m_server_map.length m = B.map Prod.fst ++ A.map Prod.fst) ∧
      (assignments m.m_server_map.length m).Perm (m.m_server_map.map Prod.fst) ∧
      (assignments m.m_server_map.length m).Nodup := by
  obtain ⟨key, hasg, hmem⟩ := assignee_of_valid m hne hinv.2
  obtain ⟨rs, hrs⟩ := Option.isSome_iff_exists.mp ((ServerMap.find_isSome_iff _ _).mpr hmem)
  obtain ⟨A, B, hmap, hB, hhead, hrot⟩ := assignments_rotation m hinv.1 hne hinv.2
  have hperm : (assignments m.m_server_map.length m).Perm (m.m_server_map.map Prod.fst) := by
    rw [hrot]
    conv_rhs => rw [hmap, List.map_append]
    exact List.perm_append_comm
  have hnodup : (m.m_server_map.map Prod.fst).Nodup := by
    have := hinv.1
    unfold ServerMap.ordered at this
    exact this.imp (fun h => ne_of_lt h)
  refine ⟨⟨key, rs, hasg, hrs, ?_, ?_, ?_⟩, ⟨A, B, hmap, hB, hhead, hrot⟩, hperm,
    hperm.nodup_iff.mpr hnodup⟩
  · rw [next_server_of_assignee m key hasg, hrs]
    rfl
  · intro table start_row end_row transfer_log_dir soft_limit
    obtain ⟨h1, h2⟩ :=
      report_split_cursor C table start_row end_row transfer_log_dir soft_limit m
    rcases h2 with ⟨hnone, _, _⟩ | ⟨key2, hkey2, hiter, hload⟩
    · rw [hasg] at hnone
      cases hnone
    · rw [hasg] at hkey2
      cases hkey2
      rw [hrs] at hload
      exact ⟨h1, hiter, hload⟩
  · intro tablename schemastr
    rcases create_table_assignment V K C tablename schemastr m hinv.2 with hu | ha
    · exact ⟨hu.2.2.1, Or.inl ⟨hu.1, hu.2.1⟩⟩
    · obtain ⟨key2, rs2, call, hkey2, hrs2, hm, hiter, hload, haddr, _⟩ := ha
      rw [hasg] at hkey2
      cases hkey2
      rw [hrs] at hrs2
      cases hrs2
      exact ⟨hm, Or.inr ⟨call, hload, haddr, hiter⟩⟩

/-- C25 on a sample: with the servers `a`, `b` and `c` and the cursor at `b`,
three consecutive assignments select `b`, `c` and `a`. -/
theorem round_robin_assignment_witness :
    cursor_invariant (master_with_cursor
        [sample_server "a".toList 1, sample_server "b".toList 2, sample_server "c".toList 3]
        (some "b".toList)) ∧
      assignments 3 (master_with_cursor
        [sample_server "a".toList 1, sample_server "b".toList 2, sample_server "c".toList 3]
        (some "b".toList)) = ["b".toList, "c".toList, "a".toList] ∧
      (assignments 3 (master_with_cursor
        [sample_server "a".toList 1, sample_server "b".toList 2, sample_server "c".toList 3]
        (some "b".toList))).Perm ["a".toList, "b".toList, "c".toList] :=
  ⟨by decide, by decide!,
    (round_robin_assignment Error.sample_numbering sample_constants
      (sample_collaborators [] [])
      (master_with_cursor
        [sample_server "a".toList 1, sample_server "b".toList 2, sample_server "c".toList 3]
        (some "b".toList)) (by decide) (List.cons_ne_nil _ _)).2.2.1⟩

/-- C26: validity of the cursor.  When the server map is ordered as a
`std::map` is and the cursor is the end position or refers to an entry of the
map, the same holds after `server_left`, after `register_server`, after
`report_split` and after `create_table`, however the call ends.  When
`server_left` finds the location in the map and the cursor refers to it, the
cursor is advanced to the entry after it, before the lock is tried and the
entry erased. -/
theorem cursor_stays_valid (V : Error.Code → Int) (K : Constants) (C : Collaborators)
    (m : Master) (hinv : cursor_invariant m) :
    (∀ location : StdString, cursor_invariant (server_left V K location m).2) ∧
      (∀ (location : StdString) (addr : InetAddr),
        cursor_invariant (register_server V K C location addr m).2) ∧
      (∀ (table : TableIdentifier) (start_row : Option StdString) (end_row : StdString)
        (transfer_log_dir : Option StdString) (soft_limit : Nat),
        cursor_invariant
          (report_split C table start_row end_row transfer_log_dir soft_limit m).2) ∧
      (∀ tablename schemastr : StdString,
        cursor_invariant (create_table V K C tablename schemastr m).2) ∧
      (∀ location : StdString, m.m_server_map_iter = some location →
        (server_left V K location m).2.m_server_map_iter = m.m_server_map.next location ∧
        (server_left V K location m).2.m_server_map_iter ≠ some location) := by
  refine ⟨fun location => server_left_cursor_invariant V K location m hinv,
    fun location addr => register_server_cursor_invariant V K C location addr m hinv,
    fun table start_row end_row transfer_log_dir soft_limit =>
      report_split_cursor_invariant C table start_row end_row transfer_log_dir soft_limit m
        hinv,
    fun tablename schemastr => create_table_cursor_invariant V K C tablename schemastr m hinv,
    ?_⟩
  intro location hcur
  have hfound : (m.m_server_map.find location).isSome = true := hinv.2 location hcur
  have hiter : (server_left V K location m).2.m_server_map_iter =
      m.m_server_map.next location := by
    rw [server_left_cursor, if_pos ⟨hfound, hcur⟩]
  refine ⟨hiter, ?_⟩
  rw [hiter]
  intro hc
  exact lt_irrefl _ (ServerMap.next_gt _ _ _ hinv.1 hc).2

/-- C26 on a sample: with the servers `a` and `b` and the cursor at `b`, whose
server has lost its lock, `server_left` for `b` leaves the map with `a` alone
and the cursor at the end position. -/
theorem cursor_stays_valid_witness :
    cursor_invariant (master_with_cursor
        [sample_server "a".toList 1, sample_server "b".toList 2] (some "b".toList)) ∧
      ((server_left Error.sample_numbering sample_constants "b".toList
        (master_with_cursor [sample_server "a".toList 1, sample_server "b".toList 2]
          (some "b".toList))).2.m_server_map.map Prod.fst = ["a".toList]) ∧
      (server_left Error.sample_numbering sample_constants "b".toList
        (master_with_cursor [sample_server "a".toList 1, sample_server "b".toList 2]
          (some "b".toList))).2.m_server_map_iter = none ∧
      cursor_invariant (server_left Error.sample_numbering sample_constants "b".toList
        (master_with_cursor [sample_server "a".toList 1, sample_server "b".toList 2]
          (some "b".toList))).2 :=
  ⟨by decide, by decide!, by decide!,
    (cursor_stays_valid Error.sample_numbering sample_constants (sample_collaborators [] [])
      (master_with_cursor [sample_server "a".toList 1, sample_server "b".toList 2]
        (some "b".toList)) (by decide)).1 "b".toList⟩

/-- C27: the soft limit of a first range.  Whenever `create_table` issues a
`load_range`, the table is not METADATA and the server map has at least one
server; with `n` servers in it, `n < 2^30`, the soft limit of the call is
`m_max_range_bytes` divided by `min(64, 2 * n)`; the divisor is not 0, and it
is 64 from 32 servers on. -/
theorem first_range_soft_limit (V : Error.Code → Int) (K : Constants) (C : Collaborators)
    (tablename schemastr : StdString) (m : Master) (hvalid : cursor_valid m)
    (_hsize : m.m_server_map.length < 1073741824)
    (hissued : (create_table V K C tablename schemastr m).2.load_ranges ≠ m.load_ranges) :
    tablename ≠ "METADATA".toList ∧ 1 ≤ m.m_server_map.length ∧
      min 64 (2 * m.m_server_map.length) ≠ 0 ∧
      (32 ≤ m.m_server_map.length → min 64 (2 * m.m_server_map.length) = 64) ∧
      ∃ call, (create_table V K C tablename schemastr m).2.load_ranges =
          m.load_ranges ++ [call] ∧
        call.table.name = tablename ∧ call.start_row = none ∧
        call.soft_limit = m.m_max_range_bytes / min 64 (2 * m.m_server_map.length) := by
  have hmeta : tablename ≠ "METADATA".toList := by
    intro hc
    rw [hc] at hissued
    exact hissued (create_table_metadata_unassigned V K C schemastr m)
  rcases create_table_assignment V K C tablename schemastr m hvalid with hu | ha
  · exact absurd hu.1 hissued
  · obtain ⟨key, rs, call, _, hrs, _, _, hload, _, hname, hstart, _, hlimit⟩ := ha
    have hlen : 1 ≤ m.m_server_map.length := by
      cases hm : m.m_server_map with
      | nil =>
        rw [hm] at hrs
        cases hrs
      | cons e rest => simp
    refine ⟨hmeta, hlen, by omega, fun h32 => by omega, call, hload, hname, hstart, ?_⟩
    rw [hlimit, Nat.mul_comm]

/-- C27 on a sample: with one server and 200000000 as `m_max_range_bytes`,
the first range of the table `u` gets the soft limit 100000000. -/
theorem first_range_soft_limit_witness :
    (create_table Error.sample_numbering sample_constants (sample_collaborators [] [])
        "u".toList "<Schema/>".toList
        (running_master 5 [sample_server "a".toList 38060])).2.load_ranges.map
          (fun call => call.soft_limit) = [100000000] ∧
      ∃ call, (create_table Error.sample_numbering sample_constants
          (sample_collaborators [] []) "u".toList "<Schema/>".toList
          (running_master 5 [sample_server "a".toList 38060])).2.load_ranges = [] ++ [call] ∧
        call.table.name = "u".toList ∧ call.start_row = none ∧
        call.soft_limit = 200000000 / min 64 (2 * 1) :=
  ⟨by decide!,
    (first_range_soft_limit Error.sample_numbering sample_constants
      (sample_collaborators [] []) "u".toList "<Schema/>".toList
      (running_master 5 [sample_server "a".toList 38060]) (by decide) (by decide)
      (fun h => by
        have := congrArg List.length h
        revert this
        decide!)).2.2.2.2⟩

end Master
end Hypertable

namespace Hypertable

open Hyperspace
namespace Master

/-- C28 (as the code has it): the state that the scan of the servers
directory enters in the server map has no address.  For a directory entry
whose server file opens and whose lock is not granted, the pass of the loop of
`scan_servers_directory` enters under the name of the entry a state whose
`addr` was never assigned, where `register_server`, for the same file,
enters a state with the address of the registering server. -/
theorem scan_leaves_address_unset (V : Error.Code → Int) (K : Constants)
    (C : Collaborators) (location : StdString) (m : Master) (handle status : Nat)
    (hs1 : HsService)
    (hopen : hs_open V K ("/hypertable/servers/".toList ++ location)
      (K.OPEN_FLAG_READ ||| K.OPEN_FLAG_WRITE ||| K.OPEN_FLAG_LOCK) m.hyperspace =
        (Outcome.returned handle, hs1))
    (hlock : hs_try_lock V handle hs1 = (Outcome.returned status, hs1))
    (hbusy : status ≠ K.LOCK_STATUS_GRANTED) :
    (∀ (is_dir : Bool) (rest : List DirEntry),
        ∃ m1, scan_entries V K ({ name := location, is_dir := is_dir } :: rest) m =
            scan_entries V K rest m1 ∧
          m1.m_server_map.find location =
            some { location := location, addr := none, hyperspace_handle := handle }) ∧
      (∀ addr alias_ : InetAddr, m.m_server_map.find location = none →
        C.location_to_addr location = some alias_ →
        (register_server_admission V K C location addr m).2.m_server_map.find location =
          some { location := location, addr := some addr, hyperspace_handle := handle }) := by
  constructor
  · intro is_dir rest
    obtain ⟨m1, hserver, _, _, _, _, hother⟩ :=
      admit_server_of_open V K
        { location := location, addr := none, hyperspace_handle := 0 } m handle status hs1
        hopen hlock
    refine ⟨m1, ?_, ?_⟩
    · show scan_entries V K ({ name := location, is_dir := is_dir } :: rest) m = _
      rw [scan_entries]
      dsimp only
      rw [hserver]
    · rw [(hother hbusy).1, ServerMap.find_assign_self]
  · intro addr alias_ habsent halias
    obtain ⟨m1, hserver, _, _, _, _, hother⟩ :=
      admit_server_of_open V K
        { location := location, addr := some addr, hyperspace_handle := 0 }
        { m with aliases := m.aliases ++ [(addr, alias_)] } handle status hs1 hopen hlock
    have hadm : register_server_admission V K C location addr m =
        (Outcome.returned (some alias_), m1.respond Response.response_ok) := by
      unfold register_server_admission
      rw [habsent]
      simp only [Option.isSome_none, Bool.false_eq_true, if_false]
      rw [halias]
      dsimp only
      rw [hserver]
      rfl
    rw [hadm]
    show m1.m_server_map.find location = _
    rw [(hother hbusy).1, ServerMap.find_assign_self]

/-- C28 at a startup: the servers directory lists `a`, whose file its server
holds locked.  The constructor runs to its end with `a` in the server map and
no address in its state, and the first range of a table created then is sent
to no address. -/
theorem scan_leaves_address_unset_witness :
    (∃ m1, scan_entries Error.sample_numbering sample_constants
        [{ name := "a".toList, is_dir := false }] (running_master 5 []) =
          scan_entries Error.sample_numbering sample_constants [] m1 ∧
        m1.m_server_map.find "a".toList =
          some { location := "a".toList, addr := none, hyperspace_handle := 2 }) ∧
      (construct Error.sample_numbering sample_constants (sample_collaborators [] [])
        (master_on listed_namespace)).1.is_returned = true ∧
      (construct Error.sample_numbering sample_constants (sample_collaborators [] [])
        (master_on listed_namespace)).2.m_server_map.map
          (fun e => (e.1, e.2.addr)) = [("a".toList, none)] ∧
      (create_table Error.sample_numbering sample_constants (sample_collaborators [] [])
        "u".toList "<Schema/>".toList
        { (construct Error.sample_numbering sample_constants (sample_collaborators [] [])
            (master_on listed_namespace)).2 with m_metadata_table_ptr := true }).2.load_ranges.map
          (fun call => call.addr) = [none] :=
  ⟨(scan_leaves_address_unset Error.sample_numbering sample_constants
      (sample_collaborators [] []) "a".toList (running_master 5 []) 2 2
      (hs_open Error.sample_numbering sample_constants "/hypertable/servers/a".toList 7
        running_namespace).2
      (Outcome.eq_of_result _ _ (by decide!)) (Outcome.eq_of_result _ _ (by decide!))
      (by decide)).1 false [],
    by decide!, by decide!, by decide!⟩

/-- C29 as the claim has it fails: a master that is not initialized gets a
registration for `b`, whose server file is not locked.  The lock is granted
to the master, the file is removed and the server map stays empty; all the
same the METADATA table is created, two ranges are loaded on the alias of
`b`, and the master is initialized. -/
theorem bootstrap_after_granted_lock :
    starting_master.m_initialized = false ∧
      (hs_try_lock Error.sample_numbering 2
        (hs_open Error.sample_numbering sample_constants "/hypertable/servers/b".toList 7
          starting_master.hyperspace).2).1.result =
            some sample_constants.LOCK_STATUS_GRANTED ∧
      (register_server Error.sample_numbering sample_constants (sample_collaborators [] [])
        "b".toList { ip := 10, port := 1 } starting_master).1.is_returned = true ∧
      (register_server Error.sample_numbering sample_constants (sample_collaborators [] [])
        "b".toList { ip := 10, port := 1 } starting_master).2.m_server_map.length = 0 ∧
      ((register_server Error.sample_numbering sample_constants (sample_collaborators [] [])
        "b".toList { ip := 10, port := 1 } starting_master).2.hyperspace.nodes
          "/hypertable/servers/b".toList).isSome = false ∧
      ((register_server Error.sample_numbering sample_constants (sample_collaborators [] [])
        "b".toList { ip := 10, port := 1 } starting_master).2.hyperspace.nodes
          "/hypertable/tables/METADATA".toList).isSome = true ∧
      (register_server Error.sample_numbering sample_constants (sample_collaborators [] [])
        "b".toList { ip := 10, port := 1 } starting_master).2.load_ranges.map
          (fun call => call.addr) =
            [some { ip := 10, port := 38060 }, some { ip := 10, port := 38060 }] ∧
      (register_server Error.sample_numbering sample_constants (sample_collaborators [] [])
        "b".toList { ip := 10, port := 1 } starting_master).2.m_initialized = true := by
  decide!

/-- C29 (as amended): when `register_server` runs the metadata bootstrap.
For a location that is not in the server map, that resolves to an alias and
whose server file opens, whatever `try_lock` reports for it: the admission
block answers `response_ok`, and `register_server` goes on with the bootstrap
on the alias exactly when the master is not initialized; with the lock
granted this is a call that leaves the server map as it was.  A bootstrap
that returns leaves the master initialized, with its metadata table set.  A
call whose admission block returns early (the location does not resolve, is
registered already, or a namespace call fails) ends there. -/
theorem bootstrap_follows_admission_block (V : Error.Code → Int) (K : Constants)
    (C : Collaborators) (location : StdString) (addr : InetAddr) (m : Master) :
    (∀ (alias_ : InetAddr) (handle status : Nat) (hs1 : HsService),
        m.m_server_map.find location = none →
        C.location_to_addr location = some alias_ →
        hs_open V K ("/hypertable/servers/".toList ++ location)
          (K.OPEN_FLAG_READ ||| K.OPEN_FLAG_WRITE ||| K.OPEN_FLAG_LOCK) m.hyperspace =
            (Outcome.returned handle, hs1) →
        hs_try_lock V handle hs1 = (Outcome.returned status, hs1) →
        ∃ m1, register_server_admission V K C location addr m =
            (Outcome.returned (some alias_), m1) ∧
          m1.responses = m.responses ++ [Response.response_ok] ∧
          m1.load_ranges = m.load_ranges ∧
          (status = K.LOCK_STATUS_GRANTED → m1.m_server_map = m.m_server_map) ∧
          (m.m_initialized = false →
            register_server V K C location addr m =
              load_metadata_ranges V K C alias_ m1) ∧
          (m.m_initialized = true →
            register_server V K C location addr m = (Outcome.returned (), m1))) ∧
      (∀ (alias_ : InetAddr) (m1 m2 : Master),
        load_metadata_ranges V K C alias_ m1 = (Outcome.returned (), m2) →
        m2.m_initialized = true ∧ m2.m_metadata_table_ptr = true) ∧
      (∀ m1, register_server_admission V K C location addr m = (Outcome.returned none, m1) →
        register_server V K C location addr m = (Outcome.returned (), m1)) := by
  refine ⟨?_, fun alias_ m1 m2 h => load_metadata_ranges_returned V K C alias_ m1 m2 h, ?_⟩
  · intro alias_ handle status hs1 habsent halias hopen hlock
    obtain ⟨m1, hserver, hinit, hresp, _, hgranted, hother⟩ :=
      admit_server_of_open V K
        { location := location, addr := some addr, hyperspace_handle := 0 }
        { m with aliases := m.aliases ++ [(addr, alias_)] } handle status hs1 hopen hlock
    have hloads : m1.load_ranges = m.load_ranges := by
      have := admit_server_load_ranges V K
        { location := location, addr := some addr, hyperspace_handle := 0 }
        { m with aliases := m.aliases ++ [(addr, alias_)] }
      rw [hserver] at this
      exact this
    have hadm : register_server_admission V K C location addr m =
        (Outcome.returned (some alias_), m1.respond Response.response_ok) := by
      unfold register_server_admission
      rw [habsent]
      simp only [Option.isSome_none, Bool.false_eq_true, if_false]
      rw [halias]
      dsimp only
      rw [hserver]
      rfl
    have hinit2 : (m1.respond Response.response_ok).m_initialized = m.m_initialized := hinit
    refine ⟨m1.respond Response.response_ok, hadm, ?_, hloads, ?_, ?_, ?_⟩
    · show m1.responses ++ [Response.response_ok] = _
      rw [hresp]
    · intro hg
      exact (hgranted hg).1
    · intro hfalse
      unfold register_server
      rw [hadm, Step.andThen_returned]
      dsimp only
      rw [hinit2, if_pos hfalse]
    · intro htrue
      unfold register_server
      rw [hadm, Step.andThen_returned]
      dsimp only
      rw [hinit2, if_neg (by rw [htrue]; decide)]
  · intro m1 hadm
    unfold register_server
    rw [hadm, Step.andThen_returned]

/-- C29 as amended, on a sample: a master that is not initialized gets a
registration for `a`, whose server holds its file locked; the admission block
answers, and the call goes on with the bootstrap on the alias of `a`. -/
theorem bootstrap_follows_admission_block_witness :
    ∃ m1, register_server_admission Error.sample_numbering sample_constants
        (sample_collaborators [] []) "a".toList { ip := 10, port := 1 } starting_master =
          (Outcome.returned (some { ip := 10, port := 38060 }), m1) ∧
      register_server Error.sample_numbering sample_constants (sample_collaborators [] [])
        "a".toList { ip := 10, port := 1 } starting_master =
          load_metadata_ranges Error.sample_numbering sample_constants
            (sample_collaborators [] []) { ip := 10, port := 38060 } m1 := by
  obtain ⟨m1, h1, _, _, _, h2, _⟩ :=
    (bootstrap_follows_admission_block Error.sample_numbering sample_constants
      (sample_collaborators [] []) "a".toList { ip := 10, port := 1 } starting_master).1
      { ip := 10, port := 38060 } 2 2
      (hs_open Error.sample_numbering sample_constants "/hypertable/servers/a".toList 7
        running_namespace).2 rfl (by decide!)
      (Outcome.eq_of_result _ _ (by decide!)) (Outcome.eq_of_result _ _ (by decide!))
  exact ⟨m1, h1, h2 rfl⟩

end Master
end Hypertable
